import Mathlib

/-!
# neo_local_planner: the control tick and the goal-reached debouncer

A shallow embedding of `src/NeoLocalPlanner.cpp`.

Conventions of the embedding.

* A `double` is an element of a linearly ordered field `R` (the rationals for
  every evaluated example).  Rounding, infinities and NaN are not modelled.
  The one division whose divisor is zero in ordinary operation, the curvature
  cap `lookahead_dist / fabs(yaw_error)` at zero heading error, is modelled
  case by case after IEEE 754 (see `limit_curve_vel`).  The remaining divisors
  (`max_cost`, `0.8 * acc_lim_x`, `0.9 * acc_lim_x`, a measured `start_vel_x`
  above the stopped threshold, the number of rasterized cells) are zero only for
  degenerate configurations; there the embedding follows the field convention
  `x / 0 = 0`, and the theorems that depend on such a quotient assume the
  divisor non-zero.
* `sqrt`, `sin`, `cos`, `atan2` and `angles::normalize_angle` are library
  functions; they are parameters (`MathLib`).
* Poses are planar: a `tf2::Transform` is an origin and a rotation about the
  z axis, the rotation being given by its cosine and sine.
* `nav2_costmap_2d::Costmap2D` is an external object; its three queries used by
  the planner are the fields of `Costmap2D`.
* Iterators into the local plan are indices; dereferencing the past-the-end
  iterator, calling `back()` on an empty vector, dereferencing the empty
  odometry pointer and calling through the pointer `goal_checker` that
  `isGoalReached` declares without a value are the faults of `Fault`.
-/

namespace neo_local_planner

/-! ## Library types -/

/-- Library functions of `<cmath>` and of the `angles` package, as parameters. -/
structure MathLib (R : Type) where
  sqrt : R → R
  sin : R → R
  cos : R → R
  atan2 : R → R → R
  normalize_angle : R → R
  M_PI : R

/-- Vector of three doubles (`tf2::Vector3`, `geometry_msgs::msg::Vector3`). -/
structure Vector3 (R : Type) where
  x : R
  y : R
  z : R
deriving DecidableEq, Repr

/-- Rotation about the z axis, by its cosine `c` and sine `s`
(`tf2::Quaternion` of a yaw, `tf2::Matrix3x3` of such a quaternion). -/
structure Rotation (R : Type) where
  c : R
  s : R
deriving DecidableEq, Repr

/-- Planar rigid transform (`tf2::Transform`): rotation and origin. -/
structure Transform (R : Type) where
  basis : Rotation R
  origin : Vector3 R
deriving DecidableEq, Repr

/-- Velocity command or measurement (`geometry_msgs::msg::Twist`). -/
structure Twist (R : Type) where
  linear : Vector3 R
  angular : Vector3 R
deriving DecidableEq, Repr

/-- Stamped velocity command (`geometry_msgs::msg::TwistStamped`); the frame id
is copied from the pose argument and is not modelled. -/
structure TwistStamped (R : Type) where
  stamp : R
  twist : Twist R
deriving DecidableEq, Repr

/-- Odometry message (`nav_msgs::msg::Odometry`): stamp, pose and twist. -/
structure Odometry (R : Type) where
  stamp : R
  pose : Transform R
  twist : Twist R
deriving DecidableEq, Repr

/-- Queries of `nav2_costmap_2d::Costmap2D` used by the planner.
`worldToMap` is reduced to its boolean result (the cell it writes is a dummy in
the planner); `getCost` returns an `unsigned char`. -/
structure Costmap2D (R : Type) where
  worldToMapEnforceBounds : R → R → Int × Int
  worldToMap : R → R → Bool
  getCost : Int → Int → Nat

/-- Controller state (`state_t`). -/
inductive state_t where
  | STATE_IDLE
  | STATE_TRANSLATING
  | STATE_ROTATING
  | STATE_ADJUSTING
  | STATE_TURNING
  | STATE_STUCK
deriving DecidableEq, Repr

/-- Undefined behaviour the tick and `isGoalReached` can run into. -/
inductive Fault where
  | null_odometry
  | end_iterator
  | back_of_empty
  | scan_fuel
  | uninitialised_goal_checker
deriving DecidableEq, Repr

deriving instance DecidableEq for Except

/-- Parameters read by `configure` (members of `NeoLocalPlanner`). -/
structure Config (R : Type) where
  acc_lim_x : R
  acc_lim_y : R
  acc_lim_theta : R
  acc_lim_trans : R
  min_vel_x : R
  max_vel_x : R
  min_vel_y : R
  max_vel_y : R
  min_vel_theta : R
  max_vel_theta : R
  min_vel_trans : R
  max_vel_trans : R
  theta_stopped_vel : R
  trans_stopped_vel : R
  yaw_goal_tolerance : R
  xy_goal_tolerance : R
  goal_tune_time : R
  lookahead_time : R
  m_lookahead_dist : R
  start_yaw_error : R
  pos_x_gain : R
  pos_y_gain : R
  pos_y_yaw_gain : R
  yaw_gain : R
  static_yaw_gain : R
  cost_x_gain : R
  cost_y_gain : R
  cost_y_yaw_gain : R
  m_cost_y_lookahead_dist : R
  cost_y_lookahead_time : R
  cost_yaw_gain : R
  low_pass_gain : R
  max_cost : R
  max_curve_vel : R
  max_goal_dist : R
  max_backup_dist : R
  min_stop_dist : R
  emergency_acc_lim_x : R
  differential_drive : Bool
  constrain_final : Bool
deriving DecidableEq, Repr

/-- Members of `NeoLocalPlanner` that persist across calls. -/
structure Planner (R : Type) where
  m_global_plan : List (Transform R)
  m_odometry : Option (Odometry R)
  m_state : state_t
  m_last_time : R
  m_last_control_values : Vector3 R
  m_last_cmd_vel : Twist R
  m_is_goal_reached : Bool
  m_first_goal_reached_time : R
  m_update_counter : Nat
deriving DecidableEq, Repr

variable {R : Type} [LinearOrderedField R]

/-! ## tf2 arithmetic -/

/-- Zero vector. -/
def Vector3.zero : Vector3 R := ⟨0, 0, 0⟩

/-- Sum of two vectors, `a + b`. -/
def Vector3.add (a b : Vector3 R) : Vector3 R := ⟨a.x + b.x, a.y + b.y, a.z + b.z⟩

/-- Difference of two vectors, `a - b`. -/
def Vector3.sub (a b : Vector3 R) : Vector3 R := ⟨a.x - b.x, a.y - b.y, a.z - b.z⟩

/-- Vector scaled by a double, `a * k`. -/
def Vector3.scale (a : Vector3 R) (k : R) : Vector3 R := ⟨a.x * k, a.y * k, a.z * k⟩

/-- Dot product, `a.dot(b)`. -/
def Vector3.dot (a b : Vector3 R) : R := a.x * b.x + a.y * b.y + a.z * b.z

/-- Euclidean length, `a.length()`. -/
def Vector3.length (M : MathLib R) (a : Vector3 R) : R := M.sqrt (a.dot a)

/-- Vector divided by its length, `a.normalize()`. -/
def Vector3.normalize (M : MathLib R) (a : Vector3 R) : Vector3 R :=
  a.scale (1 / a.length M)

/-- Rotation by `yaw` about the z axis (`createQuaternionFromYaw`). -/
def createQuaternionFromYaw (M : MathLib R) (yaw : R) : Rotation R := ⟨M.cos yaw, M.sin yaw⟩

/-- Yaw of a rotation (`tf2::getYaw`). -/
def getYaw (M : MathLib R) (q : Rotation R) : R := M.atan2 q.s q.c

/-- Rotated vector, `tf2::Matrix3x3(q) * v`. -/
def Rotation.apply (q : Rotation R) (v : Vector3 R) : Vector3 R :=
  ⟨q.c * v.x - q.s * v.y, q.s * v.x + q.c * v.y, v.z⟩

/-- Composition of rotations, `q * r`. -/
def Rotation.mul (q r : Rotation R) : Rotation R :=
  ⟨q.c * r.c - q.s * r.s, q.s * r.c + q.c * r.s⟩

/-- Inverse rotation (the transposed matrix). -/
def Rotation.inverse (q : Rotation R) : Rotation R := ⟨q.c, -q.s⟩

/-- Transformed point, `t * v`. -/
def Transform.apply (t : Transform R) (v : Vector3 R) : Vector3 R :=
  (t.basis.apply v).add t.origin

/-- Composition of transforms, `t * u`. -/
def Transform.mul (t u : Transform R) : Transform R :=
  ⟨t.basis.mul u.basis, t.apply u.origin⟩

/-- Inverse transform, `t.inverse()`. -/
def Transform.inverse (t : Transform R) : Transform R :=
  ⟨t.basis.inverse, t.basis.inverse.apply (Vector3.zero.sub t.origin)⟩

/-- Shortest signed angle from `a` to `b` (`angles::shortest_angular_distance`). -/
def shortest_angular_distance (M : MathLib R) (a b : R) : R := M.normalize_angle (b - a)

/-! ## nav2_util::LineIterator -/

/-- State of `nav2_util::LineIterator` (Bresenham traversal of grid cells). -/
structure LineIterator where
  x_ : Int
  y_ : Int
  xinc1_ : Int
  xinc2_ : Int
  yinc1_ : Int
  yinc2_ : Int
  den_ : Int
  num_ : Int
  numadd_ : Int
  numpixels_ : Int
  curpixel_ : Int
deriving DecidableEq, Repr

/-- Constructor `LineIterator(x0, y0, x1, y1)`. -/
def LineIterator.init (x0 y0 x1 y1 : Int) : LineIterator :=
  let deltax := |x1 - x0|
  let deltay := |y1 - y0|
  let xinc : Int := if x1 ≥ x0 then 1 else -1
  let yinc : Int := if y1 ≥ y0 then 1 else -1
  if deltax ≥ deltay then
    { x_ := x0, y_ := y0, xinc1_ := 0, xinc2_ := xinc, yinc1_ := yinc, yinc2_ := 0,
      den_ := deltax, num_ := deltax / 2, numadd_ := deltay, numpixels_ := deltax,
      curpixel_ := 0 }
  else
    { x_ := x0, y_ := y0, xinc1_ := xinc, xinc2_ := 0, yinc1_ := 0, yinc2_ := yinc,
      den_ := deltay, num_ := deltay / 2, numadd_ := deltax, numpixels_ := deltay,
      curpixel_ := 0 }

/-- Test `isValid()`. -/
def LineIterator.isValid (l : LineIterator) : Bool := decide (l.curpixel_ ≤ l.numpixels_)

/-- Step `advance()`. -/
def LineIterator.advance (l : LineIterator) : LineIterator :=
  let num := l.num_ + l.numadd_
  if num ≥ l.den_ then
    { l with num_ := num - l.den_, x_ := l.x_ + l.xinc1_ + l.xinc2_,
             y_ := l.y_ + l.yinc1_ + l.yinc2_, curpixel_ := l.curpixel_ + 1 }
  else
    { l with num_ := num, x_ := l.x_ + l.xinc2_, y_ := l.y_ + l.yinc2_,
             curpixel_ := l.curpixel_ + 1 }

/-- Loop `for (line; line.isValid(); line.advance()) cells.push_back(...)`, with
at most `fuel` iterations. -/
def LineIterator.collect : Nat → LineIterator → List (Int × Int)
  | 0, _ => []
  | fuel + 1, l =>
    if l.isValid then (l.x_, l.y_) :: LineIterator.collect fuel l.advance else []

/-! ## Cost sampling -/

/-- Cells of the segment between two world points (`get_line_cells`).  The
iterator is valid for `numpixels_ + 1` steps, which is the fuel given. -/
def get_line_cells (cost_map : Costmap2D R) (world_pos_0 world_pos_1 : Vector3 R) :
    List (Int × Int) :=
  let c0 := cost_map.worldToMapEnforceBounds world_pos_0.x world_pos_0.y
  let c1 := cost_map.worldToMapEnforceBounds world_pos_1.x world_pos_1.y
  let line := LineIterator.init c0.1 c0.2 c1.1 c1.2
  LineIterator.collect (line.numpixels_.toNat + 1) line

/-- Normalized cost of the cell a world point clamps to (`get_cost`). -/
def get_cost (cost_map_ : Costmap2D R) (world_pos : Vector3 R) : R :=
  let c := cost_map_.worldToMapEnforceBounds world_pos.x world_pos.y
  (cost_map_.getCost c.1 c.2 : R) / 255

/-- Mean normalized cost along a segment (`compute_avg_line_cost`). -/
def compute_avg_line_cost (cost_map_ : Costmap2D R) (world_pos_0 world_pos_1 : Vector3 R) : R :=
  let cells := get_line_cells cost_map_ world_pos_0 world_pos_1
  let avg_cost := cells.foldl
    (fun (acc : R) cell => acc + (cost_map_.getCost cell.1 cell.2 : R) / 255) 0
  avg_cost / (cells.length : R)

/-- Largest normalized cost along a segment (`compute_max_line_cost`). -/
def compute_max_line_cost (cost_map_ : Costmap2D R) (world_pos_0 world_pos_1 : Vector3 R) : R :=
  let cells := get_line_cells cost_map_ world_pos_0 world_pos_1
  let max_cost := cells.foldl (fun (acc : Nat) cell => max acc (cost_map_.getCost cell.1 cell.2)) 0
  (max_cost : R) / 255

/-! ## Path marching -/

/-- Loop of `find_closest_point` over the remaining points `rest`, the first of
which has index `iter`; `dist_short = none` is the initial infinity. -/
def find_closest_point_loop (M : MathLib R) (pos : Vector3 R) :
    List (Transform R) → Nat → Nat → Option R → Nat × Option R
  | [], _, iter_short, dist_short => (iter_short, dist_short)
  | p :: rest, iter, iter_short, dist_short =>
    let dist := (p.origin.sub pos).length M
    match dist_short with
    | none => find_closest_point_loop M pos rest (iter + 1) iter (some dist)
    | some d =>
      if dist < d then find_closest_point_loop M pos rest (iter + 1) iter (some dist)
      else find_closest_point_loop M pos rest (iter + 1) iter_short (some d)

/-- Index of the path point nearest to `pos` and its distance, for the range
`[cbegin, cend)` of the whole plan (`find_closest_point`). -/
def find_closest_point (M : MathLib R) (plan : List (Transform R)) (pos : Vector3 R) :
    Nat × Option R :=
  find_closest_point_loop M pos plan 0 0 none

/-- Loop of `move_along_path` over the remaining points `rest`, the first of
which has index `iter`; `prev` is the point at `iter_prev`.  Returns the final
`iter` (already replaced by `iter_prev` when the end is reached) and
`dist_left`. -/
def move_along_path_loop (M : MathLib R) :
    List (Transform R) → Nat → Nat → Transform R → R → Nat × R
  | [], _, iter_prev, _, dist_left => (iter_prev, dist_left)
  | p :: rest, iter, _, prev, dist_left =>
    let dist := (p.origin.sub prev.origin).length M
    let dist_left := dist_left - dist
    if dist_left ≤ 0 then (iter, dist_left)
    else move_along_path_loop M rest (iter + 1) iter p dist_left

/-- Index reached by marching `dist` along the plan from index `begin` up to
`cend`, and the distance actually covered (`move_along_path`). -/
def move_along_path (M : MathLib R) (plan : List (Transform R)) (begin : Nat) (dist : R) :
    Nat × R :=
  match plan.drop begin with
  | [] => (begin, dist - dist)
  | p :: rest =>
    let r := move_along_path_loop M (p :: rest) begin begin p dist
    (r.1, dist - r.2)

/-! ## The control tick -/

/-- Arguments and environment of one call of `computeVelocityCommands`:
the pose and twist arguments, the two clock readings, the result of
`tf_->lookupTransform` (`none` when it throws) and the value the
default-constructed `global_to_local` holds when the lookup throws. -/
structure TickInput (R : Type) where
  position : Transform R
  speed : Twist R
  time_now : R
  stamp_now : R
  lookupTransform : Option (Transform R)
  global_to_local_default : Transform R
deriving DecidableEq, Repr

/-- Cost gradients around the predicted pose (lines 237-261). -/
structure Gradients (R : Type) where
  center_cost : R
  delta_cost_x : R
  delta_cost_y : R
  delta_cost_yaw : R
deriving DecidableEq, Repr

/-- Variables of the obstacle scan loop (lines 268-314). -/
structure ScanState (R : Type) where
  pose : Transform R
  last_pose : Transform R
  have_obstacle : Bool
  obstacle_dist : R
  obstacle_cost : R
  local_path : List (Transform R)
deriving DecidableEq, Repr

/-- Outcome of the target selection (lines 325-358). -/
structure Target (R : Type) where
  is_goal_target : Bool
  iter_target : Nat
  target_yaw : R
  target_pos : Vector3 R
deriving DecidableEq, Repr

/-- Tick-local values computed before the control law (lines 185-363). -/
structure Percept (R : Type) where
  dt : R
  start_vel_x : R
  start_yawrate : R
  lookahead_dist : R
  actual_pos : Vector3 R
  actual_yaw : R
  center_cost : R
  delta_cost_x : R
  delta_cost_y : R
  delta_cost_yaw : R
  have_obstacle : Bool
  obstacle_dist : R
  obstacle_cost : R
  max_trans_vel : R
  max_rot_vel : R
  is_goal_target : Bool
  iter_target : Nat
  target_yaw : R
  target_pos : Vector3 R
  goal_dist : R
  yaw_error : R
  pos_error : Vector3 R
deriving DecidableEq, Repr

/-- Raw control terms and flags at the end of the control law (line 540). -/
structure Control (R : Type) where
  control_vel_x : R
  control_vel_y : R
  control_yawrate : R
  is_emergency_brake : Bool
  m_state : state_t
  stuck : Bool
deriving DecidableEq, Repr

/-- Result of a tick: the returned command and the members after the call. -/
structure TickResult (R : Type) where
  cmd_vel : TwistStamped R
  planner : Planner R
deriving DecidableEq, Repr

/-- Elapsed time clamped to [0, 0.1] s (line 187). -/
def delta_time (time_now m_last_time : R) : R := max (min (time_now - m_last_time) (1 / 10)) 0

/-- Plan transformed to the local frame (lines 201-208). -/
def transform_plan (global_to_local : Transform R) (plan : List (Transform R)) :
    List (Transform R) :=
  plan.map (fun pose_ => global_to_local.mul pose_)

/-- Predicted position and yaw by the midpoint method (lines 223-231). -/
def predict_pose (M : MathLib R) (cfg : Config R) (local_pose : Transform R)
    (start_vel_x start_vel_y start_yawrate : R) : Vector3 R × R :=
  let start_yaw := getYaw M local_pose.basis
  let midpoint_yaw := start_yaw + start_yawrate * cfg.lookahead_time / 2
  let actual_pos := local_pose.origin.add
    (((createQuaternionFromYaw M midpoint_yaw).apply ⟨start_vel_x, start_vel_y, 0⟩).scale
      cfg.lookahead_time)
  let actual_yaw := start_yaw + start_yawrate * cfg.lookahead_time
  (actual_pos, actual_yaw)

/-- Center cost and the three cost differences (lines 237-261), with
`delta_x = 0.3`, `delta_y = 0.2`, `delta_yaw = 0.1`. -/
def cost_gradients (M : MathLib R) (costmap_ : Costmap2D R) (actual_pos : Vector3 R)
    (actual_pose : Transform R) (cost_y_lookahead_dist : R) : Gradients R :=
  let delta_x : R := 3 / 10
  let delta_y : R := 2 / 10
  let delta_yaw : R := 1 / 10
  let center_cost := get_cost costmap_ actual_pos
  let delta_cost_x :=
    (compute_avg_line_cost costmap_ actual_pos (actual_pose.apply ⟨delta_x, 0, 0⟩) -
      compute_avg_line_cost costmap_ actual_pos (actual_pose.apply ⟨-delta_x, 0, 0⟩)) / delta_x
  let delta_cost_y :=
    (compute_avg_line_cost costmap_ actual_pos
        (actual_pose.apply ⟨cost_y_lookahead_dist, delta_y, 0⟩) -
      compute_avg_line_cost costmap_ actual_pos
        (actual_pose.apply ⟨cost_y_lookahead_dist, -delta_y, 0⟩)) / delta_y
  let delta_cost_yaw :=
    (compute_avg_line_cost costmap_
        (actual_pose.apply ((createQuaternionFromYaw M delta_yaw).apply ⟨delta_x, 0, 0⟩))
        (actual_pose.apply ((createQuaternionFromYaw M delta_yaw).apply ⟨-delta_x, 0, 0⟩)) -
      compute_avg_line_cost costmap_
        (actual_pose.apply ((createQuaternionFromYaw M (-delta_yaw)).apply ⟨delta_x, 0, 0⟩))
        (actual_pose.apply ((createQuaternionFromYaw M (-delta_yaw)).apply ⟨-delta_x, 0, 0⟩)))
      / (2 * delta_yaw)
  ⟨center_cost, delta_cost_x, delta_cost_y, delta_cost_yaw⟩

/-- Loop `while(obstacle_dist < 10)` of the obstacle scan (lines 279-313), with
`delta_move = 0.05`; `none` when `fuel` iterations do not end it. -/
def obstacle_scan_loop (M : MathLib R) (cfg : Config R) (costmap_ : Costmap2D R)
    (start_yawrate delta_time : R) : Nat → ScanState R → Option (ScanState R)
  | 0, _ => none
  | fuel + 1, s =>
    if s.obstacle_dist < 10 then
      let delta_move : R := 1 / 20
      let cost := compute_max_line_cost costmap_ s.last_pose.origin s.pose.origin
      let is_contained := costmap_.worldToMap s.pose.origin.x s.pose.origin.y
      let have_obstacle := decide (cost ≥ cfg.max_cost)
      let obstacle_cost := max s.obstacle_cost cost
      let local_path := s.local_path ++ [s.pose]
      if !is_contained || have_obstacle then
        some { s with have_obstacle := have_obstacle, obstacle_cost := obstacle_cost,
                      local_path := local_path }
      else
        obstacle_scan_loop M cfg costmap_ start_yawrate delta_time fuel
          { pose := ⟨createQuaternionFromYaw M (getYaw M s.pose.basis + start_yawrate * delta_time),
                     s.pose.apply ⟨delta_move, 0, 0⟩⟩,
            last_pose := s.pose,
            have_obstacle := have_obstacle,
            obstacle_dist := s.obstacle_dist + delta_move,
            obstacle_cost := obstacle_cost,
            local_path := local_path }
    else some s

/-- Obstacle scan from the predicted pose (lines 268-314); the loop is given
201 iterations. -/
def obstacle_scan (M : MathLib R) (cfg : Config R) (costmap_ : Costmap2D R)
    (actual_pose : Transform R) (start_vel_x start_yawrate : R) : Option (ScanState R) :=
  let delta_move : R := 1 / 20
  let delta_time := if start_vel_x > cfg.trans_stopped_vel then delta_move / start_vel_x else 0
  obstacle_scan_loop M cfg costmap_ start_yawrate delta_time 201
    { pose := actual_pose, last_pose := actual_pose, have_obstacle := false,
      obstacle_dist := 0, obstacle_cost := 0, local_path := [] }

/-- Target selection (lines 325-358): nearest point, goal test, target yaw and
target position.  Dereferencing an index that is not inside the plan is the
fault `end_iterator`. -/
def select_target (M : MathLib R) (cfg : Config R) (local_plan : List (Transform R))
    (actual_pos : Vector3 R) (lookahead_dist : R) : Except Fault (Target R) :=
  let iter_target := (find_closest_point M local_plan actual_pos).1
  let iter_next := (move_along_path M local_plan iter_target cfg.max_goal_dist).1
  let is_goal_target := decide (iter_next + 1 ≥ local_plan.length)
  let iter_target := if is_goal_target then iter_next else iter_target
  if is_goal_target then
    match local_plan[iter_target]? with
    | some t => .ok ⟨true, iter_target, getYaw M t.basis, t.origin⟩
    | none => .error .end_iterator
  else
    let iter_next := (move_along_path M local_plan iter_target lookahead_dist).1
    match local_plan[iter_next]?, local_plan[iter_target]? with
    | some n, some t =>
      .ok ⟨false, iter_target,
           M.atan2 (n.origin.y - t.origin.y) (n.origin.x - t.origin.x), t.origin⟩
    | _, _ => .error .end_iterator

/-- Predicted pose `actual_pose` of a tick (lines 210-234). -/
def predicted_pose (M : MathLib R) (cfg : Config R) (inp : TickInput R) : Transform R :=
  let actual := predict_pose M cfg inp.position inp.speed.linear.x inp.speed.linear.y
    inp.speed.angular.z
  ⟨createQuaternionFromYaw M actual.2, actual.1⟩

/-- Path published on `/local_plan` (line 315): the poses recorded by the
obstacle scan. -/
def published_local_path (M : MathLib R) (cfg : Config R) (costmap_ : Costmap2D R)
    (inp : TickInput R) : Option (List (Transform R)) :=
  (obstacle_scan M cfg costmap_ (predicted_pose M cfg inp) inp.speed.linear.x
    inp.speed.angular.z).map (fun scan => scan.local_path)

/-- The tick up to the control law (lines 185-363). -/
def perceive (M : MathLib R) (cfg : Config R) (costmap_ : Costmap2D R) (inp : TickInput R)
    (p : Planner R) : Except Fault (Percept R) :=
  let dt := delta_time inp.time_now p.m_last_time
  let global_to_local := match inp.lookupTransform with
    | some t => t
    | none => inp.global_to_local_default
  let local_plan := transform_plan global_to_local p.m_global_plan
  let local_pose := inp.position
  let start_vel_x := inp.speed.linear.x
  let start_vel_y := inp.speed.linear.y
  let start_yawrate := inp.speed.angular.z
  let lookahead_dist := cfg.m_lookahead_dist + max start_vel_x 0 * cfg.lookahead_time
  let cost_y_lookahead_dist :=
    cfg.m_cost_y_lookahead_dist + max start_vel_x 0 * cfg.cost_y_lookahead_time
  let actual := predict_pose M cfg local_pose start_vel_x start_vel_y start_yawrate
  let actual_pos := actual.1
  let actual_yaw := actual.2
  let actual_pose : Transform R := ⟨createQuaternionFromYaw M actual_yaw, actual_pos⟩
  let g := cost_gradients M costmap_ actual_pos actual_pose cost_y_lookahead_dist
  match p.m_odometry with
  | none => .error .null_odometry
  | some _ =>
    match obstacle_scan M cfg costmap_ actual_pose start_vel_x start_yawrate with
    | none => .error .scan_fuel
    | some scan =>
      let obstacle_dist := scan.obstacle_dist - cfg.min_stop_dist
      let max_trans_vel :=
        max (cfg.max_vel_trans * (cfg.max_cost - g.center_cost) / cfg.max_cost) cfg.min_vel_trans
      let max_rot_vel :=
        max (cfg.max_vel_theta * (cfg.max_cost - g.center_cost) / cfg.max_cost) cfg.min_vel_theta
      match select_target M cfg local_plan actual_pos lookahead_dist with
      | .error f => .error f
      | .ok tgt =>
        match local_plan.getLast? with
        | none => .error .back_of_empty
        | some back =>
          let goal_dist := (back.origin.sub actual_pos).length M
          let yaw_error := shortest_angular_distance M actual_yaw tgt.target_yaw
          let pos_error :=
            (Transform.mk (createQuaternionFromYaw M actual_yaw) actual_pos).inverse.apply
              tgt.target_pos
          .ok { dt := dt, start_vel_x := start_vel_x, start_yawrate := start_yawrate,
                lookahead_dist := lookahead_dist, actual_pos := actual_pos,
                actual_yaw := actual_yaw, center_cost := g.center_cost,
                delta_cost_x := g.delta_cost_x, delta_cost_y := g.delta_cost_y,
                delta_cost_yaw := g.delta_cost_yaw, have_obstacle := scan.have_obstacle,
                obstacle_dist := obstacle_dist, obstacle_cost := scan.obstacle_cost,
                max_trans_vel := max_trans_vel,
                max_rot_vel := max_rot_vel, is_goal_target := tgt.is_goal_target,
                iter_target := tgt.iter_target, target_yaw := tgt.target_yaw,
                target_pos := tgt.target_pos, goal_dist := goal_dist, yaw_error := yaw_error,
                pos_error := pos_error }

/-! ## The control law -/

/-- Curvature cap `control_vel_x = fmin(control_vel_x, max_curve_vel *
(lookahead_dist / fabs(yaw_error)))` (lines 386-390).  For a non-zero heading
error the cap is finite.  For `yaw_error = 0` the quotient of doubles is
`+inf`, `-inf` or NaN: a cap of `+inf` or NaN leaves `control_vel_x`
unchanged under `fmin`; a cap of `-inf` (`max_curve_vel` and `lookahead_dist`
of opposite signs) makes `control_vel_x = -inf`, written `none`. -/
def limit_curve_vel (cfg : Config R) (lookahead_dist yaw_error control_vel_x : R) : Option R :=
  if yaw_error = 0 then
    if cfg.max_curve_vel * lookahead_dist < 0 then none else some control_vel_x
  else
    some (min control_vel_x (cfg.max_curve_vel * (lookahead_dist / |yaw_error|)))

/-- Obstacle stopping cap `stop_accel * stop_time` with `stop_accel = 0.9 *
acc_lim_x` (lines 405-407). -/
def obstacle_max_vel_x (M : MathLib R) (cfg : Config R) (obstacle_dist : R) : R :=
  let stop_accel := 9 / 10 * cfg.acc_lim_x
  let stop_time := M.sqrt (2 * max obstacle_dist 0 / stop_accel)
  stop_accel * stop_time

/-- Goal stopping cap `fmax(stop_accel * stop_time, min_vel_trans)` with
`stop_accel = 0.8 * acc_lim_x` (lines 395-397). -/
def goal_max_vel_x (M : MathLib R) (cfg : Config R) (goal_dist : R) : R :=
  let stop_accel := 8 / 10 * cfg.acc_lim_x
  let stop_time := M.sqrt (2 * max goal_dist 0 / stop_accel)
  max (stop_accel * stop_time) cfg.min_vel_trans

/-- Forward term of the tracking branch (lines 378-424) and the emergency
brake flag it sets.  Between the curvature cap and the closing
`fmax(control_vel_x, 0)` the value `none` stands for `-inf`, which `fmin` keeps
and `fmax(., 0)` turns into 0. -/
def tracking_vel_x (M : MathLib R) (cfg : Config R) (m_state : state_t) (v : Percept R) :
    R × Bool :=
  let control_vel_x := v.max_trans_vel
  let control_vel_x :=
    if m_state ≠ state_t.STATE_TRANSLATING ∧ |v.yaw_error| > cfg.start_yaw_error then 0
    else control_vel_x
  let control_vel_x := limit_curve_vel cfg v.lookahead_dist v.yaw_error control_vel_x
  let control_vel_x :=
    if v.start_vel_x > 0 then
      control_vel_x.map (fun c => min c (goal_max_vel_x M cfg v.goal_dist))
    else control_vel_x
  let max_vel_x := obstacle_max_vel_x M cfg v.obstacle_dist
  let is_emergency_brake :=
    v.have_obstacle && decide (v.start_vel_x > 0) && decide (max_vel_x < 1 / 2 * v.start_vel_x)
  let control_vel_x :=
    if v.have_obstacle = true ∧ v.start_vel_x > 0 then
      control_vel_x.map (fun c => min c max_vel_x)
    else control_vel_x
  let control_vel_x :=
    if v.have_obstacle = true ∧ v.obstacle_dist ≤ 0 then some 0 else control_vel_x
  match control_vel_x with
  | some c => (max c 0, is_emergency_brake)
  | none => (0, is_emergency_brake)

/-- Forward term and emergency flag before the backing-up guard
(lines 366-425). -/
def forward_term (M : MathLib R) (cfg : Config R) (m_state : state_t) (v : Percept R) :
    R × Bool :=
  if v.is_goal_target then (v.pos_error.x * cfg.pos_x_gain, false)
  else tracking_vel_x M cfg m_state v

/-- Backing-up guard (lines 426-436): forward term and state after it. -/
def limit_backup (cfg : Config R) (m_state : state_t) (v : Percept R) (control_vel_x : R) :
    R × state_t :=
  if v.is_goal_target = true ∧ cfg.max_backup_dist > 0 ∧
      v.pos_error.x < (if m_state = state_t.STATE_TURNING then 0 else -1 * cfg.max_backup_dist)
  then (0, state_t.STATE_TURNING)
  else if m_state = state_t.STATE_TURNING then (control_vel_x, state_t.STATE_IDLE)
  else (control_vel_x, m_state)

/-- Yaw rate and state of the differential-drive branch (lines 438-480). -/
def differential_law (M : MathLib R) (cfg : Config R) (m_state : state_t) (v : Percept R) :
    R × state_t :=
  if |v.start_vel_x| >
      (if m_state = state_t.STATE_TRANSLATING then cfg.trans_stopped_vel
       else 2 * cfg.trans_stopped_vel) then
    let control_yawrate := v.pos_error.y / v.start_vel_x * cfg.pos_y_yaw_gain
    let control_yawrate :=
      if !v.is_goal_target then
        control_yawrate + v.yaw_error * cfg.yaw_gain
          - v.delta_cost_y / v.start_vel_x * cfg.cost_y_yaw_gain
          - v.delta_cost_yaw * cfg.cost_yaw_gain
      else control_yawrate
    (control_yawrate, state_t.STATE_TRANSLATING)
  else if m_state = state_t.STATE_TURNING then
    ((if v.start_yawrate > 0 then 1 else -1) * v.max_rot_vel, m_state)
  else if v.is_goal_target = true
      ∧ (m_state = state_t.STATE_ADJUSTING ∨ |v.yaw_error| < M.M_PI / 6)
      ∧ |v.pos_error.y| >
          (if m_state = state_t.STATE_ADJUSTING then 25 / 100 * cfg.xy_goal_tolerance
           else 5 / 10 * cfg.xy_goal_tolerance) then
    ((if v.pos_error.y > 0 then 1 else -1) * v.max_rot_vel, state_t.STATE_ADJUSTING)
  else
    (v.yaw_error * cfg.static_yaw_gain, state_t.STATE_ROTATING)

/-- Control terms and state of the holonomic branch (lines 481-520), from the
forward term `control_vel_x` that enters it. -/
def holonomic_law (M : MathLib R) (cfg : Config R) (m_state : state_t) (v : Percept R)
    (control_vel_x : R) : R × R × R × state_t :=
  let control_vel_y := v.pos_error.y * cfg.pos_y_gain
  let r : R × state_t :=
    if m_state = state_t.STATE_TURNING then
      ((if v.start_yawrate > 0 then 1 else -1) * v.max_rot_vel, m_state)
    else
      (v.yaw_error * cfg.static_yaw_gain,
        if |v.start_vel_x| > cfg.trans_stopped_vel then state_t.STATE_TRANSLATING
        else state_t.STATE_ROTATING)
  let control_yawrate := r.1
  let m_state := r.2
  let control_vel_x :=
    if m_state = state_t.STATE_ROTATING ∧ |v.yaw_error| > M.M_PI / 6 then
      control_vel_x - v.delta_cost_x * cfg.cost_x_gain
    else control_vel_x
  let control_vel_y :=
    if v.is_goal_target = false
        ∨ (m_state = state_t.STATE_ROTATING ∧ |v.yaw_error| > M.M_PI / 6) then
      control_vel_y - v.delta_cost_y * cfg.cost_y_gain
    else control_vel_y
  let control_yawrate :=
    if !v.is_goal_target then control_yawrate - v.delta_cost_yaw * cfg.cost_yaw_gain
    else control_yawrate
  (control_vel_x, control_vel_y, control_yawrate, m_state)

/-- Control law (lines 365-539): the raw control terms handed to the smoothing
stage, the emergency flag, the new state and whether the tick is stuck. -/
def velocity_law (M : MathLib R) (cfg : Config R) (m_state : state_t) (v : Percept R) :
    Control R :=
  let f := forward_term M cfg m_state v
  let b := limit_backup cfg m_state v f.1
  let c : R × R × R × state_t :=
    if cfg.differential_drive then
      let d := differential_law M cfg b.2 v
      (b.1, 0, d.1, d.2)
    else holonomic_law M cfg b.2 v b.1
  let stuck :=
    v.have_obstacle && decide (v.obstacle_dist ≤ 0) && decide (v.delta_cost_x > 0)
      && decide (c.2.2.2 = state_t.STATE_ROTATING) && decide (|v.yaw_error| < M.M_PI / 6)
  { control_vel_x := c.1, control_vel_y := c.2.1, control_yawrate := c.2.2.1,
    is_emergency_brake := f.2,
    m_state := if stuck then state_t.STATE_STUCK else c.2.2.2,
    stuck := stuck }

/-! ## Smoothing and limiting -/

/-- Low-pass filter, acceleration limits and final-approach projection
(lines 541-571): the three control values after line 571. -/
def shape_control (M : MathLib R) (cfg : Config R) (p : Planner R) (dt : R) (c : Control R) :
    Vector3 R :=
  let is_emergency_brake := c.is_emergency_brake && decide (c.control_vel_x ≥ 0)
  let control_vel_x :=
    c.control_vel_x * cfg.low_pass_gain + p.m_last_control_values.x * (1 - cfg.low_pass_gain)
  let control_vel_y :=
    c.control_vel_y * cfg.low_pass_gain + p.m_last_control_values.y * (1 - cfg.low_pass_gain)
  let control_yawrate :=
    c.control_yawrate * cfg.low_pass_gain + p.m_last_control_values.z * (1 - cfg.low_pass_gain)
  let control_vel_x :=
    max (min control_vel_x (p.m_last_cmd_vel.linear.x + cfg.acc_lim_x * dt))
      (p.m_last_cmd_vel.linear.x
        - (if is_emergency_brake then cfg.emergency_acc_lim_x else cfg.acc_lim_x) * dt)
  let control_vel_y :=
    max (min control_vel_y (p.m_last_cmd_vel.linear.y + cfg.acc_lim_y * dt))
      (p.m_last_cmd_vel.linear.y - cfg.acc_lim_y * dt)
  let control_yawrate :=
    max (min control_yawrate (p.m_last_cmd_vel.angular.z + cfg.acc_lim_theta * dt))
      (p.m_last_cmd_vel.angular.z - cfg.acc_lim_theta * dt)
  if cfg.constrain_final && p.m_is_goal_reached then
    let direction := p.m_last_control_values
    if direction.length M ≠ 0 then
      let direction := direction.normalize M
      let dist := direction.dot ⟨control_vel_x, control_vel_y, control_yawrate⟩
      direction.scale dist
    else ⟨control_vel_x, control_vel_y, control_yawrate⟩
  else ⟨control_vel_x, control_vel_y, control_yawrate⟩

/-- Absolute velocity clamps (lines 575-580). -/
def clamp_cmd_vel (cfg : Config R) (control : Vector3 R) : Twist R :=
  { linear := ⟨min (max control.x cfg.min_vel_x) cfg.max_vel_x,
               min (max control.y cfg.min_vel_y) cfg.max_vel_y, 0⟩,
    angular := ⟨0, 0, min (max control.z (-cfg.max_vel_theta)) cfg.max_vel_theta⟩ }

/-- The zero command (a default-constructed `Twist`). -/
def Twist.zero : Twist R := ⟨Vector3.zero, Vector3.zero⟩

/-- Raw control terms of a tick: the tick up to line 540. -/
def raw_control (M : MathLib R) (cfg : Config R) (costmap_ : Costmap2D R) (inp : TickInput R)
    (p : Planner R) : Except Fault (Control R) :=
  match perceive M cfg costmap_ inp p with
  | .error f => .error f
  | .ok v => .ok (velocity_law M cfg p.m_state v)

/-- One call of `NeoLocalPlanner::computeVelocityCommands` (lines 172-600). -/
def computeVelocityCommands (M : MathLib R) (cfg : Config R) (costmap_ : Costmap2D R)
    (inp : TickInput R) (p : Planner R) : Except Fault (TickResult R) :=
  match perceive M cfg costmap_ inp p with
  | .error f => .error f
  | .ok v =>
    let c := velocity_law M cfg p.m_state v
    if c.stuck then
      .ok { cmd_vel := ⟨inp.stamp_now, Twist.zero⟩,
            planner := { p with m_state := state_t.STATE_STUCK } }
    else
      let control := shape_control M cfg p v.dt c
      let cmd_vel := clamp_cmd_vel cfg control
      .ok { cmd_vel := ⟨inp.stamp_now, cmd_vel⟩,
            planner := { p with m_state := c.m_state, m_last_time := inp.time_now,
                                m_last_control_values := control, m_last_cmd_vel := cmd_vel,
                                m_update_counter := p.m_update_counter + 1 } }

/-! ## Goal-reached debouncer, plan and odometry -/

/-- Environment of one call of `isGoalReached`: the result of
`tf_->lookupTransform` (`none` when it throws) and the two clock readings of
lines 680 and 683. -/
structure GoalCall (R : Type) where
  lookupTransform : Option (Transform R)
  now_first : R
  now_return : R

/-- Lines 677-683 of `isGoalReached`: from the verdict `is_reached` of the goal
checker, the returned flag and the members after the call. -/
def goal_debounce (cfg : Config R) (env : GoalCall R) (is_reached : Bool) (p : Planner R) :
    Bool × Planner R :=
  let m_first_goal_reached_time :=
    if !p.m_is_goal_reached then env.now_first else p.m_first_goal_reached_time
  (is_reached && decide (env.now_return - m_first_goal_reached_time ≥ cfg.goal_tune_time),
    { p with m_is_goal_reached := is_reached,
             m_first_goal_reached_time := m_first_goal_reached_time })

/-- One call of `NeoLocalPlanner::isGoalReached` (lines 617-684): the returned
flag and the members after the call.  Line 621 declares the local pointer
`nav2_core::GoalChecker *goal_checker` without a value and nothing assigns it
(`none`); line 667 calls `goal_checker->isGoalReached` on (goal pose, current
pose, current twist), which is the fault `uninitialised_goal_checker`.
`xy_error` and `yaw_error` are only printed. -/
def isGoalReached (cfg : Config R) (env : GoalCall R) (p : Planner R) :
    Except Fault (Bool × Planner R) :=
  let goal_checker : Option (Transform R → Transform R → Twist R → Bool) := none
  match p.m_odometry with
  | none => .ok (false, p)
  | some m_odometry =>
    match p.m_global_plan.getLast? with
    | none => .ok (true, p)
    | some goal_pose_global =>
      match env.lookupTransform with
      | none => .ok (false, p)
      | some _ =>
        match goal_checker with
        | none => .error .uninitialised_goal_checker
        | some checker =>
          let is_reached := checker goal_pose_global m_odometry.pose m_odometry.twist
          .ok (goal_debounce cfg env is_reached p)

/-- Method `setPlan` (lines 686-689). -/
def setPlan (plan : List (Transform R)) (p : Planner R) : Planner R :=
  { p with m_global_plan := plan }

/-- Method `odomCallback` (lines 801-805). -/
def odomCallback (msg : Odometry R) (p : Planner R) : Planner R :=
  { p with m_odometry := some msg }

/-! ## A concrete library, cost grid and configuration for the evaluated examples -/

/-- Truncation of a double to an integer (`static_cast<int>`). -/
def trunc_int [FloorRing R] (x : R) : Int := if 0 ≤ x then ⌊x⌋ else ⌈x⌉

/-- Cost grid with `size_x` by `size_y` cells of side `resolution`, lower left
corner at (`origin_x`, `origin_y`) and cell costs `cost`, with the three
queries as `nav2_costmap_2d::Costmap2D` implements them. -/
def grid_costmap [FloorRing R] (size_x size_y : Nat) (resolution origin_x origin_y : R)
    (cost : Int → Int → Nat) : Costmap2D R where
  worldToMapEnforceBounds := fun wx wy =>
    (if wx < origin_x then 0
     else if wx > resolution * size_x + origin_x then (size_x : Int) - 1
     else trunc_int ((wx - origin_x) / resolution),
     if wy < origin_y then 0
     else if wy > resolution * size_y + origin_y then (size_y : Int) - 1
     else trunc_int ((wy - origin_y) / resolution))
  worldToMap := fun wx wy =>
    if wx < origin_x ∨ wy < origin_y then false
    else decide (trunc_int ((wx - origin_x) / resolution) < (size_x : Int)
      ∧ trunc_int ((wy - origin_y) / resolution) < (size_y : Int))
  getCost := fun mx my => cost mx my

/-- Largest `k` with `k * k ≤ n` among the numbers below `2 ^ bits`, found bit
by bit. -/
def isqrt_bits : Nat → Nat → Nat → Nat
  | 0, acc, _ => acc
  | b + 1, acc, n =>
    if (acc + 2 ^ b) * (acc + 2 ^ b) ≤ n then isqrt_bits b (acc + 2 ^ b) n
    else isqrt_bits b acc n

/-- Square root on the rationals, rounded down to a multiple of
`1 / (10 ^ 6 * den)`; exact on squares of rationals. -/
def sqrt_rat (x : ℚ) : ℚ :=
  if x ≤ 0 then 0
  else (isqrt_bits 80 0 (x.num.toNat * x.den * 10 ^ 12) : ℚ) / ((x.den : ℚ) * 10 ^ 6)

/-- Sine by its Taylor polynomial of degree 7 (exact at 0). -/
def sin_rat (x : ℚ) : ℚ := x - x ^ 3 / 6 + x ^ 5 / 120 - x ^ 7 / 5040

/-- Cosine by its Taylor polynomial of degree 8 (exact at 0). -/
def cos_rat (x : ℚ) : ℚ := 1 - x ^ 2 / 2 + x ^ 4 / 24 - x ^ 6 / 720 + x ^ 8 / 40320

/-- The double `M_PI`. -/
def pi_rat : ℚ := 884279719003555 / 281474976710656

/-- Arc tangent on [-1, 1] by the approximation `t / (1 + 0.28 t^2)`. -/
def atan_rat (t : ℚ) : ℚ := t / (1 + 28 / 100 * t ^ 2)

/-- Two-argument arc tangent: exact on the coordinate axes (up to the rounding
of `M_PI`), `atan_rat` elsewhere. -/
def atan2_rat (y x : ℚ) : ℚ :=
  if y = 0 then (if 0 ≤ x then 0 else pi_rat)
  else if x = 0 then (if 0 < y then pi_rat / 2 else -(pi_rat / 2))
  else if |y| ≤ |x| then
    (if 0 < x then atan_rat (y / x)
     else if 0 < y then atan_rat (y / x) + pi_rat else atan_rat (y / x) - pi_rat)
  else (if 0 < y then pi_rat / 2 - atan_rat (x / y) else -(pi_rat / 2) - atan_rat (x / y))

/-- Remainder `fmod(x, y)`. -/
def fmod_rat (x y : ℚ) : ℚ := x - y * (trunc_int (x / y) : ℚ)

/-- Angle wrapped to (-pi, pi] (`angles::normalize_angle`). -/
def normalize_angle_rat (angle : ℚ) : ℚ :=
  let a := fmod_rat (fmod_rat angle (2 * pi_rat) + 2 * pi_rat) (2 * pi_rat)
  if a > pi_rat then a - 2 * pi_rat else a

/-- Library functions on the rationals used by the evaluated examples. -/
def math_rat : MathLib ℚ where
  sqrt := sqrt_rat
  sin := sin_rat
  cos := cos_rat
  atan2 := atan2_rat
  normalize_angle := normalize_angle_rat
  M_PI := pi_rat

/-- Defaults of `configure` (the second arguments of `get_parameter_or`), after
its three overrides `acc_lim_trans = acc_lim_x`, `max_vel_trans = max_vel_x`,
`trans_stopped_vel = 0.5 * min_vel_trans`. -/
def default_config : Config ℚ where
  acc_lim_x := 1 / 2
  acc_lim_y := 1 / 2
  acc_lim_theta := 1 / 2
  acc_lim_trans := 1 / 2
  min_vel_x := -(1 / 10)
  max_vel_x := 1 / 2
  min_vel_y := -(1 / 2)
  max_vel_y := 1 / 2
  min_vel_theta := 1 / 10
  max_vel_theta := 1 / 2
  min_vel_trans := 1 / 10
  max_vel_trans := 1 / 2
  theta_stopped_vel := 1 / 20
  trans_stopped_vel := 1 / 20
  yaw_goal_tolerance := 1 / 50
  xy_goal_tolerance := 1 / 10
  goal_tune_time := 1 / 2
  lookahead_time := 1 / 2
  m_lookahead_dist := 1 / 2
  start_yaw_error := 1 / 5
  pos_x_gain := 1
  pos_y_gain := 1
  pos_y_yaw_gain := 1
  yaw_gain := 1
  static_yaw_gain := 3
  cost_x_gain := 1 / 10
  cost_y_gain := 1 / 10
  cost_y_yaw_gain := 1 / 10
  m_cost_y_lookahead_dist := 0
  cost_y_lookahead_time := 1
  cost_yaw_gain := 1
  low_pass_gain := 1 / 2
  max_cost := 9 / 10
  max_curve_vel := 1 / 5
  max_goal_dist := 1 / 2
  max_backup_dist := 1 / 2
  min_stop_dist := 1 / 2
  emergency_acc_lim_x := 1 / 2
  differential_drive := true
  constrain_final := false

/-- Pose at (`x`, `y`) with yaw 0. -/
def pose_at (x y : ℚ) : Transform ℚ := ⟨⟨1, 0⟩, ⟨x, y, 0⟩⟩

/-- Identity transform. -/
def identity_transform : Transform ℚ := pose_at 0 0

/-- Members after construction with an odometry message received: state IDLE,
zero last command, goal not reached; the plan is `plan`. -/
def fresh_planner (plan : List (Transform ℚ)) : Planner ℚ where
  m_global_plan := plan
  m_odometry := some ⟨0, pose_at 0 0, Twist.zero⟩
  m_state := state_t.STATE_IDLE
  m_last_time := 0
  m_last_control_values := Vector3.zero
  m_last_cmd_vel := Twist.zero
  m_is_goal_reached := false
  m_first_goal_reached_time := 0
  m_update_counter := 0

/-- Tick arguments of a robot at rest at the origin with yaw 0, one second
after `m_last_time = 0`, the lookup returning the identity. -/
def rest_input : TickInput ℚ where
  position := pose_at 0 0
  speed := Twist.zero
  time_now := 1
  stamp_now := 1
  lookupTransform := some identity_transform
  global_to_local_default := identity_transform

/-- Grid of 40 by 40 cells of 0.25 m covering [-5, 5] x [-5, 5] with cost 254
in the columns `mx ≥ wall` and cost 0 elsewhere. -/
def wall_costmap (wall : Int) : Costmap2D ℚ :=
  grid_costmap 40 40 (1 / 4) (-5) (-5) (fun mx _ => if wall ≤ mx then 254 else 0)

/-- Straight plan along the x axis: (0,0), (1,0), (2,0), (3,0). -/
def plan_ahead : List (Transform ℚ) := [pose_at 0 0, pose_at 1 0, pose_at 2 0, pose_at 3 0]

/-- Straight plan along the y axis: (0,0), (0,1), (0,2), (0,3). -/
def plan_left : List (Transform ℚ) := [pose_at 0 0, pose_at 0 1, pose_at 0 2, pose_at 0 3]

/-- Straight plan parallel to the x axis, 0.4 m to the left of it. -/
def plan_offset : List (Transform ℚ) :=
  [pose_at 0 (2 / 5), pose_at 1 (2 / 5), pose_at 2 (2 / 5), pose_at 3 (2 / 5)]

/-- Holonomic configuration with the final-approach projection enabled and
`acc_lim_y = 2`. -/
def projection_config : Config ℚ :=
  { default_config with differential_drive := false, constrain_final := true, acc_lim_y := 2 }

/-- Members with the goal latched and last control values (0.03, 0.04, 0). -/
def projection_planner : Planner ℚ :=
  { fresh_planner plan_offset with
    m_is_goal_reached := true, m_last_control_values := ⟨3 / 100, 4 / 100, 0⟩ }

/-- Members whose previous command is the backward velocity -0.1 m/s. -/
def reversing_planner : Planner ℚ :=
  { fresh_planner plan_ahead with
    m_last_cmd_vel := ⟨⟨-(1 / 10), 0, 0⟩, Vector3.zero⟩,
    m_last_control_values := ⟨-(1 / 10), 0, 0⟩ }

/-- Result of the first tick of a robot at rest on the empty floor with the
plan straight ahead and the default configuration: forward command 0.05. -/
def open_floor_result : TickResult ℚ where
  cmd_vel := ⟨1, ⟨⟨1 / 20, 0, 0⟩, Vector3.zero⟩⟩
  planner :=
    { fresh_planner plan_ahead with
      m_state := state_t.STATE_ROTATING, m_last_time := 1,
      m_last_control_values := ⟨1 / 20, 0, 0⟩,
      m_last_cmd_vel := ⟨⟨1 / 20, 0, 0⟩, Vector3.zero⟩,
      m_update_counter := 1 }

/-- Grid of 40 by 40 cells of 0.25 m covering [-5, 5] x [-5, 5] with cost 254
in the columns `mx ≤ wall` and cost 0 elsewhere. -/
def back_wall_costmap (wall : Int) : Costmap2D ℚ :=
  grid_costmap 40 40 (1 / 4) (-5) (-5) (fun mx _ => if mx ≤ wall then 254 else 0)

/-- Tick arguments of a robot at the origin with yaw 0 moving forward at
`vx` m/s, one second after `m_last_time = 0`. -/
def moving_input (vx : ℚ) : TickInput ℚ :=
  { rest_input with speed := ⟨⟨vx, 0, 0⟩, Vector3.zero⟩ }

/-- Tick arguments of `rest_input` one second later. -/
def later_input : TickInput ℚ := { rest_input with time_now := 2, stamp_now := 2 }

/-- Result of a STUCK tick from `fresh_planner plan_ahead`. -/
def stuck_result : TickResult ℚ where
  cmd_vel := ⟨1, Twist.zero⟩
  planner := { fresh_planner plan_ahead with m_state := state_t.STATE_STUCK }
/-- Default configuration with the holonomic drive. -/
def holonomic_config : Config ℚ := { default_config with differential_drive := false }

/-- Tick-local values of a robot at rest at the origin inside the wall of
`wall_costmap 20`, with target yaw and heading error `yaw`. -/
def wall_percept (yaw : ℚ) : Percept ℚ where
  dt := 1 / 10
  start_vel_x := 0
  start_yawrate := 0
  lookahead_dist := 1 / 2
  actual_pos := ⟨0, 0, 0⟩
  actual_yaw := 0
  center_cost := 254 / 255
  delta_cost_x := 1016 / 459
  delta_cost_y := 0
  delta_cost_yaw := 0
  have_obstacle := true
  obstacle_dist := -(1 / 2)
  obstacle_cost := 254 / 255
  max_trans_vel := 1 / 10
  max_rot_vel := 1 / 10
  is_goal_target := false
  iter_target := 0
  target_yaw := yaw
  target_pos := ⟨0, 0, 0⟩
  goal_dist := 3
  yaw_error := yaw
  pos_error := ⟨0, 0, 0⟩

/-- Tick-local values of a robot at the origin moving at 0.4 m/s towards the
wall of `wall_costmap 24` (default configuration, plan straight ahead). -/
def approach_percept : Percept ℚ where
  dt := 1 / 10
  start_vel_x := 2 / 5
  start_yawrate := 0
  lookahead_dist := 7 / 10
  actual_pos := ⟨1 / 5, 0, 0⟩
  actual_yaw := 0
  center_cost := 0
  delta_cost_x := 0
  delta_cost_y := 0
  delta_cost_yaw := 0
  have_obstacle := true
  obstacle_dist := 3 / 10
  obstacle_cost := 254 / 255
  max_trans_vel := 1 / 2
  max_rot_vel := 1 / 2
  is_goal_target := false
  iter_target := 0
  target_yaw := 0
  target_pos := ⟨0, 0, 0⟩
  goal_dist := 14 / 5
  yaw_error := 0
  pos_error := ⟨-(1 / 5), 0, 0⟩

/-- Default configuration with `min_stop_dist = 0.975`. -/
def close_stop_config : Config ℚ := { default_config with min_stop_dist := 39 / 40 }

/-- Environment of an `isGoalReached` call at time `t` in which the lookup
succeeds. -/
def goal_env (t : ℚ) : GoalCall ℚ where
  lookupTransform := some identity_transform
  now_first := t
  now_return := t

/-! ## Sequences of `isGoalReached` calls -/

/-- One `isGoalReached` call in a run of the node: the odometry message and the
plan held when the call is made (set by `odomCallback` and `setPlan` since the
previous call) and the environment of the call. -/
structure GoalStep (R : Type) where
  odometry : Odometry R
  plan : List (Transform R)
  env : GoalCall R

/-- Members at the moment of the call of step `s`. -/
def GoalStep.before (s : GoalStep R) (p : Planner R) : Planner R :=
  setPlan s.plan (odomCallback s.odometry p)

/-- The call of step `s`: returned flag and members after it, or the fault of the
call. -/
def goal_call (cfg : Config R) (p : Planner R) (s : GoalStep R) :
    Except Fault (Bool × Planner R) :=
  isGoalReached cfg s.env (s.before p)

/-- The call of step `s` reaches the goal checker: the plan is not empty and the
transform lookup succeeds (the odometry message is present by construction). -/
def GoalStep.reaches_checker (s : GoalStep R) : Prop :=
  s.plan ≠ [] ∧ s.env.lookupTransform ≠ none

/-- Step at time `t` with the plan straight ahead and a successful lookup. -/
def goal_step (t : ℚ) : GoalStep ℚ where
  odometry := ⟨t, pose_at 0 0, Twist.zero⟩
  plan := plan_ahead
  env := goal_env t

/-- One pass through lines 677-683 in a run of the node: the verdict a goal checker
gives at line 667 and the environment of the call. -/
structure DebounceStep (R : Type) where
  is_reached : Bool
  env : GoalCall R

/-- Lines 677-683 at step `s`: returned flag and members after them. -/
def debounce_step (cfg : Config R) (p : Planner R) (s : DebounceStep R) : Bool × Planner R :=
  goal_debounce cfg s.env s.is_reached p

/-- Members after the passes of `steps` through lines 677-683, made in order from
`p`. -/
def debounce_steps (cfg : Config R) (p : Planner R) (steps : List (DebounceStep R)) :
    Planner R :=
  steps.foldl (fun q s => (debounce_step cfg q s).2) p

/-! ## Arc length along the plan -/

/-- Cumulative segment length of the plan measured from index `i` to index `j`:
the sum of the lengths of the segments from point `k` to point `k + 1` for
`i ≤ k < j` (0 when `j ≤ i`). -/
def arc_length (M : MathLib R) (plan : List (Transform R)) (i : Nat) : Nat → R
  | 0 => 0
  | j + 1 =>
    if i ≤ j then
      match plan[j]?, plan[j + 1]? with
      | some a, some b => arc_length M plan i j + (b.origin.sub a.origin).length M
      | _, _ => arc_length M plan i j
    else 0

/-- Index `i` is the lowest index among the first `n` points of the plan that
are at the minimum distance `d` from `pos`. -/
def is_first_closest (M : MathLib R) (plan : List (Transform R)) (pos : Vector3 R)
    (n i : Nat) (d : R) : Prop :=
  i < n ∧ (∃ q, plan[i]? = some q ∧ (q.origin.sub pos).length M = d) ∧
  (∀ k q, k < n → plan[k]? = some q → d ≤ (q.origin.sub pos).length M) ∧
  (∀ k q, k < i → plan[k]? = some q → d < (q.origin.sub pos).length M)

/-- Transform `global_to_local` used by a tick (lines 189-199). -/
def tick_global_to_local (inp : TickInput R) : Transform R :=
  match inp.lookupTransform with
  | some t => t
  | none => inp.global_to_local_default

/-- Plan in the local frame, `local_plan`, of a tick (lines 201-208). -/
def tick_local_plan (inp : TickInput R) (p : Planner R) : List (Transform R) :=
  transform_plan (tick_global_to_local inp) p.m_global_plan

/-- Predicted position `actual_pos` of a tick (lines 223-231). -/
def tick_actual_pos (M : MathLib R) (cfg : Config R) (inp : TickInput R) : Vector3 R :=
  (predict_pose M cfg inp.position inp.speed.linear.x inp.speed.linear.y inp.speed.angular.z).1

/-- Dynamic lookahead distance `lookahead_dist` of a tick (line 220). -/
def tick_lookahead_dist (cfg : Config R) (inp : TickInput R) : R :=
  cfg.m_lookahead_dist + max inp.speed.linear.x 0 * cfg.lookahead_time

/-- Plan of two points: (0,0) and (0.2,0). -/
def plan_near : List (Transform ℚ) := [pose_at 0 0, pose_at (1 / 5) 0]

/-- Plan that leaves the origin and comes back next to it: (0,0), (1,0), (0,0.3). -/
def plan_return : List (Transform ℚ) := [pose_at 0 0, pose_at 1 0, pose_at 0 (3 / 10)]

/-- Grid of 40 by 40 cells of 0.25 m covering [-5, 5] x [-5, 5] with the
moderate cost 100 in the columns `mx ≥ wall` and cost 0 elsewhere. -/
def soft_wall_costmap (wall : Int) : Costmap2D ℚ :=
  grid_costmap 40 40 (1 / 4) (-5) (-5) (fun mx _ => if wall ≤ mx then 100 else 0)

/-- Tick-local values of a robot at rest at the origin on the empty floor with
the plan (0,0), (0.2,0): goal-approach mode, target 0.2 m ahead. -/
def goal_percept : Percept ℚ where
  dt := 1 / 10
  start_vel_x := 0
  start_yawrate := 0
  lookahead_dist := 1 / 2
  actual_pos := ⟨0, 0, 0⟩
  actual_yaw := 0
  center_cost := 0
  delta_cost_x := 0
  delta_cost_y := 0
  delta_cost_yaw := 0
  have_obstacle := false
  obstacle_dist := 9 / 2
  obstacle_cost := 0
  max_trans_vel := 1 / 2
  max_rot_vel := 1 / 2
  is_goal_target := true
  iter_target := 1
  target_yaw := 0
  target_pos := ⟨1 / 5, 0, 0⟩
  goal_dist := 1 / 5
  yaw_error := 0
  pos_error := ⟨1 / 5, 0, 0⟩

/-- Emergency-brake flag after the logic check of line 542. -/
def emergency_brake_active (c : Control R) : Bool :=
  c.is_emergency_brake && decide (c.control_vel_x ≥ 0)

/-- Forward value produced by the acceleration clamp (lines 545 and 550-551):
the low-pass filtered forward term limited to the interval around the previous
command. -/
def accel_limited_vel_x (cfg : Config R) (p : Planner R) (dt : R) (c : Control R) : R :=
  max (min (c.control_vel_x * cfg.low_pass_gain
            + p.m_last_control_values.x * (1 - cfg.low_pass_gain))
        (p.m_last_cmd_vel.linear.x + cfg.acc_lim_x * dt))
    (p.m_last_cmd_vel.linear.x
      - (if emergency_brake_active c then cfg.emergency_acc_lim_x else cfg.acc_lim_x) * dt)

/-- Default configuration with `emergency_acc_lim_x = 2`. -/
def emergency_config : Config ℚ := { default_config with emergency_acc_lim_x := 2 }

/-- Members of a robot translating at the commanded 0.4 m/s. -/
def cruising_planner : Planner ℚ :=
  { fresh_planner plan_ahead with
    m_state := state_t.STATE_TRANSLATING,
    m_last_cmd_vel := ⟨⟨2 / 5, 0, 0⟩, Vector3.zero⟩,
    m_last_control_values := ⟨2 / 5, 0, 0⟩ }

/-- Tick-local values of a robot at the origin moving at 0.4 m/s with the wall of
`wall_costmap 22` 0.5 m ahead (obstacle distance -0.2). -/
def brake_percept : Percept ℚ where
  dt := 1 / 10
  start_vel_x := 2 / 5
  start_yawrate := 0
  lookahead_dist := 7 / 10
  actual_pos := ⟨1 / 5, 0, 0⟩
  actual_yaw := 0
  center_cost := 0
  delta_cost_x := 508 / 459
  delta_cost_y := 0
  delta_cost_yaw := 0
  have_obstacle := true
  obstacle_dist := -(1 / 5)
  obstacle_cost := 254 / 255
  max_trans_vel := 1 / 2
  max_rot_vel := 1 / 2
  is_goal_target := false
  iter_target := 0
  target_yaw := 0
  target_pos := ⟨0, 0, 0⟩
  goal_dist := 14 / 5
  yaw_error := 0
  pos_error := ⟨-(1 / 5), 0, 0⟩

/-- Plan of the single point (-1, 0), one metre behind the origin. -/
def plan_behind : List (Transform ℚ) := [pose_at (-1) 0]

/-- Grid of 500 by 500 cells of 0.02 m covering [-5, 5] x [-5, 5] with cost 254
in the last column `mx = 499` and cost 0 elsewhere. -/
def border_costmap : Costmap2D ℚ :=
  grid_costmap 500 500 (1 / 50) (-5) (-5) (fun mx _ => if mx = 499 then 254 else 0)

/-- Tick arguments of a robot at rest at (4.97, 0) with yaw 0, 3 cm before the
right border of the grid. -/
def border_input : TickInput ℚ := { rest_input with position := pose_at (497 / 100) 0 }

/-- Tick-local values of a robot at the origin moving forward at 0.4 m/s on the
empty floor with the plan of the single point (-1, 0): goal-approach mode with the
target 1.2 m behind the predicted position. -/
def behind_percept : Percept ℚ where
  dt := 1 / 10
  start_vel_x := 2 / 5
  start_yawrate := 0
  lookahead_dist := 7 / 10
  actual_pos := ⟨1 / 5, 0, 0⟩
  actual_yaw := 0
  center_cost := 0
  delta_cost_x := 0
  delta_cost_y := 0
  delta_cost_yaw := 0
  have_obstacle := false
  obstacle_dist := 43 / 10
  obstacle_cost := 0
  max_trans_vel := 1 / 2
  max_rot_vel := 1 / 2
  is_goal_target := true
  iter_target := 0
  target_yaw := 0
  target_pos := ⟨-1, 0, 0⟩
  goal_dist := 6 / 5
  yaw_error := 0
  pos_error := ⟨-(6 / 5), 0, 0⟩

/-- Lookahead distance `cost_y_lookahead_dist` of the y cost samples of a tick
(line 221). -/
def tick_cost_y_lookahead_dist (cfg : Config R) (inp : TickInput R) : R :=
  cfg.m_cost_y_lookahead_dist + max inp.speed.linear.x 0 * cfg.cost_y_lookahead_time

/-! ## Auxiliary facts: indices stay inside the plan, the scan ends -/

theorem find_closest_point_loop_index (M : MathLib R) (pos : Vector3 R) :
    ∀ (rest : List (Transform R)) (iter iter_short : Nat) (ds : Option R),
      (find_closest_point_loop M pos rest iter iter_short ds).1 = iter_short ∨
      (iter ≤ (find_closest_point_loop M pos rest iter iter_short ds).1 ∧
        (find_closest_point_loop M pos rest iter iter_short ds).1 < iter + rest.length) := by
  intro rest
  induction rest with
  | nil => intro iter iter_short ds; left; rfl
  | cons q rest ih =>
    intro iter iter_short ds
    cases ds with
    | none =>
      simp only [find_closest_point_loop, List.length_cons]
      rcases ih (iter + 1) iter (some ((q.origin.sub pos).length M)) with h | ⟨h1, h2⟩
      · right; rw [h]; omega
      · right; omega
    | some d =>
      simp only [find_closest_point_loop, List.length_cons]
      split
      · rcases ih (iter + 1) iter (some ((q.origin.sub pos).length M)) with h | ⟨h1, h2⟩
        · right; rw [h]; omega
        · right; omega
      · rcases ih (iter + 1) iter_short (some d) with h | ⟨h1, h2⟩
        · left; exact h
        · right; omega

theorem find_closest_point_lt (M : MathLib R) (plan : List (Transform R)) (pos : Vector3 R)
    (h : plan ≠ []) : (find_closest_point M plan pos).1 < plan.length := by
  have hl : 0 < plan.length := List.length_pos.mpr h
  unfold find_closest_point
  rcases find_closest_point_loop_index M pos plan 0 0 none with h1 | ⟨_, h2⟩
  · rw [h1]; exact hl
  · omega

theorem move_along_path_loop_index (M : MathLib R) :
    ∀ (rest : List (Transform R)) (iter iter_prev : Nat) (prev : Transform R) (dl : R),
      (move_along_path_loop M rest iter iter_prev prev dl).1 = iter_prev ∨
      (iter ≤ (move_along_path_loop M rest iter iter_prev prev dl).1 ∧
        (move_along_path_loop M rest iter iter_prev prev dl).1 < iter + rest.length) := by
  intro rest
  induction rest with
  | nil => intro iter iter_prev prev dl; left; rfl
  | cons q rest ih =>
    intro iter iter_prev prev dl
    simp only [move_along_path_loop, List.length_cons]
    split
    · right; simp
    · rcases ih (iter + 1) iter q (dl - (q.origin.sub prev.origin).length M) with h | ⟨h1, h2⟩
      · right; rw [h]; omega
      · right; omega

theorem move_along_path_lt (M : MathLib R) (plan : List (Transform R)) (begin : Nat) (dist : R)
    (h : begin < plan.length) : (move_along_path M plan begin dist).1 < plan.length := by
  unfold move_along_path
  have hlen : (plan.drop begin).length = plan.length - begin := List.length_drop begin plan
  cases hd : plan.drop begin with
  | nil => simpa using h
  | cons q rest =>
    rw [hd] at hlen
    simp only [List.length_cons] at hlen
    simp only
    rcases move_along_path_loop_index M (q :: rest) begin begin q dist with h1 | ⟨_, h2⟩
    · rw [h1]; exact h
    · simp only [List.length_cons] at h2; omega

theorem obstacle_scan_loop_isSome (M : MathLib R) (cfg : Config R) (costmap_ : Costmap2D R)
    (start_yawrate delta_time : R) :
    ∀ (n : Nat) (s : ScanState R), 10 ≤ s.obstacle_dist + (n : R) * (1 / 20) →
      (obstacle_scan_loop M cfg costmap_ start_yawrate delta_time (n + 1) s).isSome = true := by
  intro n
  induction n with
  | zero =>
    intro s h
    have h10 : ¬ s.obstacle_dist < 10 := by
      simp only [Nat.cast_zero, zero_mul, add_zero] at h
      exact not_lt.mpr h
    simp [obstacle_scan_loop, h10]
  | succ n ih =>
    intro s h
    rw [obstacle_scan_loop]
    split
    · simp only []
      split
      · rfl
      · apply ih
        simp only []
        push_cast at h
        linarith
    · rfl

theorem obstacle_scan_isSome (M : MathLib R) (cfg : Config R) (costmap_ : Costmap2D R)
    (actual_pose : Transform R) (start_vel_x start_yawrate : R) :
    (obstacle_scan M cfg costmap_ actual_pose start_vel_x start_yawrate).isSome = true := by
  unfold obstacle_scan
  apply obstacle_scan_loop_isSome M cfg costmap_ _ _ 200
  norm_num

theorem select_target_ok (M : MathLib R) (cfg : Config R) (local_plan : List (Transform R))
    (actual_pos : Vector3 R) (lookahead_dist : R) (h : local_plan ≠ []) :
    ∃ t, select_target M cfg local_plan actual_pos lookahead_dist = .ok t := by
  have h1 := find_closest_point_lt M local_plan actual_pos h
  have h2 := move_along_path_lt M local_plan _ cfg.max_goal_dist h1
  have h3 := move_along_path_lt M local_plan _ lookahead_dist h1
  unfold select_target
  simp only []
  split
  · rw [List.getElem?_eq_getElem h2]
    exact ⟨_, rfl⟩
  · rw [List.getElem?_eq_getElem h3, List.getElem?_eq_getElem h1]
    exact ⟨_, rfl⟩

theorem perceive_ok (M : MathLib R) (cfg : Config R) (costmap_ : Costmap2D R) (inp : TickInput R)
    (p : Planner R) (ho : p.m_odometry ≠ none) (hp : p.m_global_plan ≠ []) :
    ∃ v, perceive M cfg costmap_ inp p = .ok v := by
  obtain ⟨od, hod⟩ := Option.ne_none_iff_exists'.mp ho
  unfold perceive
  simp only [hod]
  have hs := obstacle_scan_isSome M cfg costmap_
    ⟨createQuaternionFromYaw M (predict_pose M cfg inp.position inp.speed.linear.x
      inp.speed.linear.y inp.speed.angular.z).2,
     (predict_pose M cfg inp.position inp.speed.linear.x inp.speed.linear.y
      inp.speed.angular.z).1⟩ inp.speed.linear.x inp.speed.angular.z
  obtain ⟨scan, hscan⟩ := Option.isSome_iff_exists.mp hs
  rw [hscan]
  simp only []
  have hne : ∀ g : Transform R, transform_plan g p.m_global_plan ≠ [] := by
    intro g; unfold transform_plan; simpa using hp
  set g := (match inp.lookupTransform with
    | some t => t
    | none => inp.global_to_local_default) with hg
  obtain ⟨t, ht⟩ := select_target_ok M cfg (transform_plan g p.m_global_plan)
    (predict_pose M cfg inp.position inp.speed.linear.x inp.speed.linear.y
      inp.speed.angular.z).1 (cfg.m_lookahead_dist + max inp.speed.linear.x 0 * cfg.lookahead_time)
    (hne g)
  rw [ht]
  simp only []
  cases hl : (transform_plan g p.m_global_plan).getLast? with
  | none => exact absurd (List.getLast?_eq_none_iff.mp hl) (hne g)
  | some back => exact ⟨_, rfl⟩

/-! ## Shape of a tick -/

theorem computeVelocityCommands_ok_iff (M : MathLib R) (cfg : Config R) (costmap_ : Costmap2D R)
    (inp : TickInput R) (p : Planner R) (r : TickResult R) :
    computeVelocityCommands M cfg costmap_ inp p = .ok r ↔
      ∃ v, perceive M cfg costmap_ inp p = .ok v ∧
        (((velocity_law M cfg p.m_state v).stuck = true ∧
            r = { cmd_vel := ⟨inp.stamp_now, Twist.zero⟩,
                  planner := { p with m_state := state_t.STATE_STUCK } }) ∨
         ((velocity_law M cfg p.m_state v).stuck = false ∧
            r = { cmd_vel := ⟨inp.stamp_now,
                    clamp_cmd_vel cfg
                      (shape_control M cfg p v.dt (velocity_law M cfg p.m_state v))⟩,
                  planner := { p with
                    m_state := (velocity_law M cfg p.m_state v).m_state,
                    m_last_time := inp.time_now,
                    m_last_control_values :=
                      shape_control M cfg p v.dt (velocity_law M cfg p.m_state v),
                    m_last_cmd_vel := clamp_cmd_vel cfg
                      (shape_control M cfg p v.dt (velocity_law M cfg p.m_state v)),
                    m_update_counter := p.m_update_counter + 1 } })) := by
  unfold computeVelocityCommands
  cases hv : perceive M cfg costmap_ inp p with
  | error f => simp
  | ok v =>
    simp only [Except.ok.injEq, exists_eq_left']
    cases hs : (velocity_law M cfg p.m_state v).stuck with
    | true => simp [eq_comm]
    | false => simp [eq_comm]

theorem computeVelocityCommands_total (M : MathLib R) (cfg : Config R) (costmap_ : Costmap2D R)
    (inp : TickInput R) (p : Planner R) (ho : p.m_odometry ≠ none) (hp : p.m_global_plan ≠ []) :
    ∃ r, computeVelocityCommands M cfg costmap_ inp p = .ok r := by
  obtain ⟨v, hv⟩ := perceive_ok M cfg costmap_ inp p ho hp
  unfold computeVelocityCommands
  rw [hv]
  simp only []
  split
  · exact ⟨_, rfl⟩
  · exact ⟨_, rfl⟩

theorem clamp_cmd_vel_bounds (cfg : Config R) (control : Vector3 R)
    (hx : cfg.min_vel_x ≤ cfg.max_vel_x) (hy : cfg.min_vel_y ≤ cfg.max_vel_y)
    (ht : 0 ≤ cfg.max_vel_theta) :
    cfg.min_vel_x ≤ (clamp_cmd_vel cfg control).linear.x ∧
    (clamp_cmd_vel cfg control).linear.x ≤ cfg.max_vel_x ∧
    cfg.min_vel_y ≤ (clamp_cmd_vel cfg control).linear.y ∧
    (clamp_cmd_vel cfg control).linear.y ≤ cfg.max_vel_y ∧
    |(clamp_cmd_vel cfg control).angular.z| ≤ cfg.max_vel_theta := by
  simp only [clamp_cmd_vel]
  refine ⟨le_min (le_max_right _ _) hx, min_le_right _ _, le_min (le_max_right _ _) hy,
    min_le_right _ _, abs_le.mpr ⟨le_min (le_max_right _ _) (by linarith), min_le_right _ _⟩⟩

theorem differential_law_state_ne_stuck (M : MathLib R) (cfg : Config R) (s : state_t)
    (v : Percept R) : (differential_law M cfg s v).2 ≠ state_t.STATE_STUCK := by
  simp only [differential_law]
  split_ifs <;> simp_all

theorem holonomic_law_state_ne_stuck (M : MathLib R) (cfg : Config R) (s : state_t)
    (v : Percept R) (x : R) : (holonomic_law M cfg s v x).2.2.2 ≠ state_t.STATE_STUCK := by
  simp only [holonomic_law]
  split_ifs <;> simp_all

theorem velocity_law_state_of_not_stuck (M : MathLib R) (cfg : Config R) (s : state_t)
    (v : Percept R) (h : (velocity_law M cfg s v).stuck = false) :
    (velocity_law M cfg s v).m_state ≠ state_t.STATE_STUCK := by
  unfold velocity_law at h ⊢
  simp only [] at h ⊢
  rw [h]
  simp only [Bool.false_eq_true, if_false]
  split
  · exact differential_law_state_ne_stuck M cfg _ v
  · exact holonomic_law_state_ne_stuck M cfg _ v _

/-! ## C1 -/

/-- C1: for a configuration with `min_vel_x ≤ max_vel_x`, `min_vel_y ≤ max_vel_y` and
`max_vel_theta ≥ 0`, a tick with an odometry message and a non-empty plan returns a
command, and every command a tick returns is either the zero command of a STUCK tick
or lies within the configured limits on all three axes, whether or not the
final-approach projection is active. -/
theorem C1_command_within_limits (M : MathLib R) (cfg : Config R) (costmap_ : Costmap2D R)
    (inp : TickInput R) (p : Planner R)
    (hx : cfg.min_vel_x ≤ cfg.max_vel_x) (hy : cfg.min_vel_y ≤ cfg.max_vel_y)
    (ht : 0 ≤ cfg.max_vel_theta) :
    (p.m_odometry ≠ none → p.m_global_plan ≠ [] →
      ∃ r, computeVelocityCommands M cfg costmap_ inp p = .ok r) ∧
    ∀ r, computeVelocityCommands M cfg costmap_ inp p = .ok r →
      (r.planner.m_state = state_t.STATE_STUCK ∧ r.cmd_vel.twist = Twist.zero) ∨
      (r.planner.m_state ≠ state_t.STATE_STUCK ∧
        cfg.min_vel_x ≤ r.cmd_vel.twist.linear.x ∧ r.cmd_vel.twist.linear.x ≤ cfg.max_vel_x ∧
        cfg.min_vel_y ≤ r.cmd_vel.twist.linear.y ∧ r.cmd_vel.twist.linear.y ≤ cfg.max_vel_y ∧
        |r.cmd_vel.twist.angular.z| ≤ cfg.max_vel_theta) := by
  refine ⟨computeVelocityCommands_total M cfg costmap_ inp p, ?_⟩
  intro r hr
  obtain ⟨v, _, h | h⟩ := (computeVelocityCommands_ok_iff M cfg costmap_ inp p r).mp hr
  · left
    rw [h.2]
    exact ⟨rfl, rfl⟩
  · right
    rw [h.2]
    exact ⟨velocity_law_state_of_not_stuck M cfg p.m_state v h.1,
      clamp_cmd_vel_bounds cfg _ hx hy ht⟩

theorem perceive_inputs (M : MathLib R) (cfg : Config R) (costmap_ : Costmap2D R)
    (inp : TickInput R) (p : Planner R) (v : Percept R)
    (h : perceive M cfg costmap_ inp p = .ok v) :
    v.dt = delta_time inp.time_now p.m_last_time ∧ v.start_vel_x = inp.speed.linear.x ∧
      v.start_yawrate = inp.speed.angular.z ∧ p.m_odometry ≠ none := by
  unfold perceive at h
  simp only [] at h
  split at h
  · cases h
  · split at h
    · cases h
    · split at h
      · cases h
      · split at h
        · cases h
        · cases h
          simp_all

theorem delta_time_bounds (time_now m_last_time : R) :
    0 ≤ delta_time time_now m_last_time ∧ delta_time time_now m_last_time ≤ 1 / 10 := by
  unfold delta_time
  exact ⟨le_max_right _ _, max_le (min_le_right _ _) (by norm_num)⟩

/-- C1 witness: the limits of `projection_config` are ordered, and the tick of
`projection_planner`, on which the final-approach projection is active, returns a
command within them. -/
theorem C1_command_within_limits_witness :
    (projection_config.min_vel_x ≤ projection_config.max_vel_x ∧
      projection_config.min_vel_y ≤ projection_config.max_vel_y ∧
      0 ≤ projection_config.max_vel_theta) ∧
    ((projection_planner.m_odometry ≠ none → projection_planner.m_global_plan ≠ [] →
      ∃ r, computeVelocityCommands math_rat projection_config (wall_costmap 100) rest_input
        projection_planner = .ok r) ∧
    ∀ r, computeVelocityCommands math_rat projection_config (wall_costmap 100) rest_input
        projection_planner = .ok r →
      (r.planner.m_state = state_t.STATE_STUCK ∧ r.cmd_vel.twist = Twist.zero) ∨
      (r.planner.m_state ≠ state_t.STATE_STUCK ∧
        projection_config.min_vel_x ≤ r.cmd_vel.twist.linear.x ∧
        r.cmd_vel.twist.linear.x ≤ projection_config.max_vel_x ∧
        projection_config.min_vel_y ≤ r.cmd_vel.twist.linear.y ∧
        r.cmd_vel.twist.linear.y ≤ projection_config.max_vel_y ∧
        |r.cmd_vel.twist.angular.z| ≤ projection_config.max_vel_theta)) :=
  ⟨⟨by decide!, by decide!, by decide!⟩,
    C1_command_within_limits math_rat projection_config (wall_costmap 100) rest_input
      projection_planner (by decide!) (by decide!) (by decide!)⟩

/-! ## C2 -/

/-- C2 as stated fails on three ticks of a robot at rest at the origin, one second
after the previous tick (so `dt = 0.1`):
(1) a STUCK tick (wall of cost 254 from x = 0 on, plan straight ahead) after a
previous command of -0.1 m/s returns 0, above -0.1 + 0.5 * 0.1;
(2) with the final-approach projection active (`constrain_final`, goal latched,
last control values (0.03, 0.04, 0), `acc_lim_y = 2`, plan 0.4 m to the left) the
tick returns 0.114, above 0 + 0.5 * 0.1;
(3) with `min_vel_x = 0.2` the first tick returns 0.2, above 0 + 0.5 * 0.1. -/
theorem C2_counterexample :
    ((computeVelocityCommands math_rat default_config (wall_costmap 20) rest_input
        reversing_planner).map (fun r => (r.planner.m_state, r.cmd_vel.twist.linear.x))
        = .ok (state_t.STATE_STUCK, 0)
      ∧ ¬ ((0 : ℚ) ≤ reversing_planner.m_last_cmd_vel.linear.x
            + default_config.acc_lim_x * delta_time rest_input.time_now
                reversing_planner.m_last_time)) ∧
    ((computeVelocityCommands math_rat projection_config (wall_costmap 100) rest_input
        projection_planner).map (fun r => (r.planner.m_state, r.cmd_vel.twist.linear.x))
        = .ok (state_t.STATE_ROTATING, 57 / 500)
      ∧ ¬ ((57 / 500 : ℚ) ≤ projection_planner.m_last_cmd_vel.linear.x
            + projection_config.acc_lim_x * delta_time rest_input.time_now
                projection_planner.m_last_time)) ∧
    ((computeVelocityCommands math_rat { default_config with min_vel_x := 1 / 5 }
        (wall_costmap 100) rest_input (fresh_planner plan_ahead)).map
        (fun r => (r.planner.m_state, r.cmd_vel.twist.linear.x))
        = .ok (state_t.STATE_ROTATING, 1 / 5)
      ∧ ¬ ((1 / 5 : ℚ) ≤ (fresh_planner plan_ahead).m_last_cmd_vel.linear.x
            + default_config.acc_lim_x * delta_time rest_input.time_now
                (fresh_planner plan_ahead).m_last_time)) := by
  refine ⟨⟨?_, ?_⟩, ⟨?_, ?_⟩, ⟨?_, ?_⟩⟩ <;> decide!

/-- C2 (amended): for every tick that does not end in STUCK and on which the
final-approach projection is not active (`constrain_final` off or goal not latched),
in a configuration with non-negative `acc_lim_x` and `emergency_acc_lim_x` and with
`min_vel_x` not above the previous forward command plus `acc_lim_x * dt`, the emitted
forward velocity exceeds `m_last_cmd_vel.linear.x` by at most `acc_lim_x * dt`, where
`dt` is the elapsed time clamped to [0, 0.1]. -/
theorem C2_forward_acceleration_bounded (M : MathLib R) (cfg : Config R)
    (costmap_ : Costmap2D R) (inp : TickInput R) (p : Planner R) (r : TickResult R)
    (hr : computeVelocityCommands M cfg costmap_ inp p = .ok r)
    (hs : r.planner.m_state ≠ state_t.STATE_STUCK)
    (hproj : cfg.constrain_final = false ∨ p.m_is_goal_reached = false)
    (ha : 0 ≤ cfg.acc_lim_x) (he : 0 ≤ cfg.emergency_acc_lim_x)
    (hm : cfg.min_vel_x ≤
      p.m_last_cmd_vel.linear.x + cfg.acc_lim_x * delta_time inp.time_now p.m_last_time) :
    r.cmd_vel.twist.linear.x ≤
        p.m_last_cmd_vel.linear.x + cfg.acc_lim_x * delta_time inp.time_now p.m_last_time ∧
      0 ≤ delta_time inp.time_now p.m_last_time ∧
      delta_time inp.time_now p.m_last_time ≤ 1 / 10 := by
  obtain ⟨hdt0, hdt1⟩ := delta_time_bounds inp.time_now p.m_last_time
  refine ⟨?_, hdt0, hdt1⟩
  obtain ⟨v, hv, h | h⟩ := (computeVelocityCommands_ok_iff M cfg costmap_ inp p r).mp hr
  · exact absurd (by rw [h.2]) hs
  · obtain ⟨hdt, _, _, _⟩ := perceive_inputs M cfg costmap_ inp p v hv
    have hnp : (cfg.constrain_final && p.m_is_goal_reached) = false := by
      rcases hproj with h1 | h1 <;> simp [h1]
    rw [h.2]
    simp only [clamp_cmd_vel, shape_control, hnp, Bool.false_eq_true, if_false, hdt]
    refine le_trans (min_le_left _ _) (max_le (max_le (min_le_right _ _) ?_) hm)
    split
    · nlinarith
    · nlinarith

/-- C2 witness: the first tick of a robot at rest on the empty floor (default
configuration, plan straight ahead) returns 0.05 = 0 + 0.5 * 0.1. -/
theorem C2_forward_acceleration_bounded_witness :
    computeVelocityCommands math_rat default_config (wall_costmap 100) rest_input
        (fresh_planner plan_ahead) = .ok open_floor_result ∧
      open_floor_result.cmd_vel.twist.linear.x ≤
        (fresh_planner plan_ahead).m_last_cmd_vel.linear.x +
          default_config.acc_lim_x *
            delta_time rest_input.time_now (fresh_planner plan_ahead).m_last_time ∧
      0 ≤ delta_time rest_input.time_now (fresh_planner plan_ahead).m_last_time ∧
      delta_time rest_input.time_now (fresh_planner plan_ahead).m_last_time ≤ 1 / 10 :=
  ⟨by decide!,
    C2_forward_acceleration_bounded math_rat default_config (wall_costmap 100) rest_input
      (fresh_planner plan_ahead) open_floor_result (by decide!) (by decide!)
      (Or.inl rfl) (by decide!) (by decide!) (by decide!)⟩

/-! ## The state after the control law -/

theorem limit_backup_state (cfg : Config R) (s : state_t) (v : Percept R) (x : R) :
    (limit_backup cfg s v x).2 =
      if v.is_goal_target = true ∧ cfg.max_backup_dist > 0 ∧
          v.pos_error.x < (if s = state_t.STATE_TURNING then 0 else -1 * cfg.max_backup_dist)
      then state_t.STATE_TURNING
      else if s = state_t.STATE_TURNING then state_t.STATE_IDLE else s := by
  unfold limit_backup
  split_ifs <;> rfl

theorem holonomic_law_state (M : MathLib R) (cfg : Config R) (s : state_t) (v : Percept R)
    (x : R) :
    (holonomic_law M cfg s v x).2.2.2 =
      if s = state_t.STATE_TURNING then s
      else if |v.start_vel_x| > cfg.trans_stopped_vel then state_t.STATE_TRANSLATING
      else state_t.STATE_ROTATING := by
  simp only [holonomic_law]
  split_ifs <;> rfl

theorem velocity_law_stuck_iff (M : MathLib R) (cfg : Config R) (s : state_t) (v : Percept R) :
    (velocity_law M cfg s v).stuck = true ↔
      v.have_obstacle = true ∧ v.obstacle_dist ≤ 0 ∧ v.delta_cost_x > 0 ∧
      (if cfg.differential_drive = true then
          (differential_law M cfg (limit_backup cfg s v 0).2 v).2
        else (holonomic_law M cfg (limit_backup cfg s v 0).2 v 0).2.2.2)
        = state_t.STATE_ROTATING ∧
      |v.yaw_error| < M.M_PI / 6 := by
  have hb : (limit_backup cfg s v (forward_term M cfg s v).1).2 = (limit_backup cfg s v 0).2 := by
    rw [limit_backup_state, limit_backup_state]
  have hh : (holonomic_law M cfg (limit_backup cfg s v 0).2 v
      (limit_backup cfg s v (forward_term M cfg s v).1).1).2.2.2 =
      (holonomic_law M cfg (limit_backup cfg s v 0).2 v 0).2.2.2 := by
    rw [holonomic_law_state, holonomic_law_state]
  unfold velocity_law
  simp only [hb]
  cases hdd : cfg.differential_drive with
  | true => simp [and_assoc]
  | false => simp [hh, and_assoc]

theorem differential_law_rotating_iff (M : MathLib R) (cfg : Config R) (t : state_t)
    (v : Percept R) :
    (differential_law M cfg t v).2 = state_t.STATE_ROTATING ↔
      ¬ (|v.start_vel_x| >
          (if t = state_t.STATE_TRANSLATING then cfg.trans_stopped_vel
           else 2 * cfg.trans_stopped_vel)) ∧
      t ≠ state_t.STATE_TURNING ∧
      ¬ (v.is_goal_target = true
          ∧ (t = state_t.STATE_ADJUSTING ∨ |v.yaw_error| < M.M_PI / 6)
          ∧ |v.pos_error.y| >
              (if t = state_t.STATE_ADJUSTING then 25 / 100 * cfg.xy_goal_tolerance
               else 5 / 10 * cfg.xy_goal_tolerance)) := by
  simp only [differential_law]
  by_cases h1 : |v.start_vel_x| >
      (if t = state_t.STATE_TRANSLATING then cfg.trans_stopped_vel
       else 2 * cfg.trans_stopped_vel)
  · simp [h1]
  · rw [if_neg h1]
    by_cases h2 : t = state_t.STATE_TURNING
    · simp [h2]
    · rw [if_neg h2]
      by_cases h3 : v.is_goal_target = true
          ∧ (t = state_t.STATE_ADJUSTING ∨ |v.yaw_error| < M.M_PI / 6)
          ∧ |v.pos_error.y| >
              (if t = state_t.STATE_ADJUSTING then 25 / 100 * cfg.xy_goal_tolerance
               else 5 / 10 * cfg.xy_goal_tolerance)
      · rw [if_pos h3]
        constructor
        · intro h; cases h
        · intro h; exact absurd h3 h.2.2
      · rw [if_neg h3]
        simp only [true_iff]
        exact ⟨h1, h2, h3⟩

theorem holonomic_law_rotating_iff (M : MathLib R) (cfg : Config R) (t : state_t)
    (v : Percept R) (x : R) :
    (holonomic_law M cfg t v x).2.2.2 = state_t.STATE_ROTATING ↔
      t ≠ state_t.STATE_TURNING ∧ ¬ (|v.start_vel_x| > cfg.trans_stopped_vel) := by
  rw [holonomic_law_state]
  by_cases h1 : t = state_t.STATE_TURNING
  · simp [h1]
  · rw [if_neg h1]
    by_cases h2 : |v.start_vel_x| > cfg.trans_stopped_vel
    · simp [h2]
    · simp [h1, h2]

theorem limit_backup_from_stuck (cfg : Config R) (s : state_t) (v : Percept R)
    (h : (limit_backup cfg s v 0).2 ≠ state_t.STATE_TURNING) :
    (limit_backup cfg state_t.STATE_STUCK v 0).2 = state_t.STATE_STUCK ∧
      (limit_backup cfg s v 0).2 = (if s = state_t.STATE_TURNING then state_t.STATE_IDLE else s) := by
  rw [limit_backup_state] at h ⊢
  rw [limit_backup_state]
  by_cases hg : v.is_goal_target = true ∧ cfg.max_backup_dist > 0 ∧
      v.pos_error.x < (if s = state_t.STATE_TURNING then 0 else -1 * cfg.max_backup_dist)
  · rw [if_pos hg] at h
    exact absurd rfl h
  · rw [if_neg hg]
    refine ⟨?_, rfl⟩
    have hg2 : ¬ (v.is_goal_target = true ∧ cfg.max_backup_dist > 0 ∧
        v.pos_error.x < (if state_t.STATE_STUCK = state_t.STATE_TURNING then 0
          else -1 * cfg.max_backup_dist)) := by
      rintro ⟨h1, h2, h3⟩
      simp only [reduceCtorEq, if_false] at h3
      apply hg
      refine ⟨h1, h2, ?_⟩
      split
      · linarith
      · exact h3
    rw [if_neg hg2]
    simp

theorem stuck_from_stuck (M : MathLib R) (cfg : Config R) (s : state_t) (v : Percept R)
    (htsv : 0 ≤ cfg.trans_stopped_vel) (h : (velocity_law M cfg s v).stuck = true) :
    (velocity_law M cfg state_t.STATE_STUCK v).stuck = true := by
  rw [velocity_law_stuck_iff] at h ⊢
  obtain ⟨h1, h2, h3, h4, h5⟩ := h
  refine ⟨h1, h2, h3, ?_, h5⟩
  cases hdd : cfg.differential_drive with
  | true =>
    simp only [hdd, if_true] at h4 ⊢
    obtain ⟨ha, hb, hc⟩ := (differential_law_rotating_iff M cfg _ v).mp h4
    obtain ⟨hs, ht⟩ := limit_backup_from_stuck cfg s v hb
    rw [hs]
    rw [differential_law_rotating_iff]
    simp only [reduceCtorEq, if_false, false_or, ne_eq, not_false_eq_true, true_and]
    constructor
    · intro hgt
      apply ha
      split
      · linarith
      · exact hgt
    · rintro ⟨g1, g2, g3⟩
      apply hc
      refine ⟨g1, Or.inr g2, ?_⟩
      split
      · have := abs_nonneg v.pos_error.y
        by_cases htol : 0 ≤ cfg.xy_goal_tolerance
        · linarith
        · push_neg at htol
          linarith
      · exact g3
  | false =>
    simp only [hdd, Bool.false_eq_true, if_false] at h4 ⊢
    obtain ⟨hb, ha⟩ := (holonomic_law_rotating_iff M cfg _ v 0).mp h4
    obtain ⟨hs, _⟩ := limit_backup_from_stuck cfg s v hb
    rw [hs, holonomic_law_rotating_iff]
    exact ⟨by simp, ha⟩

theorem velocity_law_dt (M : MathLib R) (cfg : Config R) (s : state_t) (v : Percept R) (d : R) :
    velocity_law M cfg s { v with dt := d } = velocity_law M cfg s v := rfl

theorem perceive_congr (M : MathLib R) (cfg : Config R) (costmap_ : Costmap2D R)
    (inp inp2 : TickInput R) (p p2 : Planner R) (v : Percept R)
    (hv : perceive M cfg costmap_ inp p = .ok v)
    (hpos : inp2.position = inp.position) (hspeed : inp2.speed = inp.speed)
    (hlook : inp2.lookupTransform = inp.lookupTransform)
    (hdef : inp2.global_to_local_default = inp.global_to_local_default)
    (hplan : p2.m_global_plan = p.m_global_plan) (hodom : p2.m_odometry ≠ none) :
    perceive M cfg costmap_ inp2 p2 =
      .ok { v with dt := delta_time inp2.time_now p2.m_last_time } := by
  obtain ⟨od2, hod2⟩ := Option.ne_none_iff_exists'.mp hodom
  unfold perceive at hv ⊢
  simp only [hpos, hspeed, hlook, hdef, hplan, hod2] at hv ⊢
  split at hv
  · cases hv
  · split at hv
    · cases hv
    · split at hv
      · cases hv
      · split at hv
        · cases hv
        · cases hv
          rfl

/-! ## C5 -/

/-- C5: with `trans_stopped_vel ≥ 0`, if a tick ends in STUCK then it returned the
zero command, and a following tick on the same pose, twist, lookup result, plan,
cost grid and configuration that starts in state STUCK (with an odometry message
present) returns, again ends in STUCK and again returns the zero command, for either
drive type. -/
theorem C5_stuck_idempotent (M : MathLib R) (cfg : Config R) (costmap_ : Costmap2D R)
    (inp inp2 : TickInput R) (p p2 : Planner R) (r : TickResult R)
    (htsv : 0 ≤ cfg.trans_stopped_vel)
    (hr : computeVelocityCommands M cfg costmap_ inp p = .ok r)
    (hs : r.planner.m_state = state_t.STATE_STUCK)
    (hpos : inp2.position = inp.position) (hspeed : inp2.speed = inp.speed)
    (hlook : inp2.lookupTransform = inp.lookupTransform)
    (hdef : inp2.global_to_local_default = inp.global_to_local_default)
    (hplan : p2.m_global_plan = p.m_global_plan) (hodom : p2.m_odometry ≠ none)
    (hstate : p2.m_state = state_t.STATE_STUCK) :
    r.cmd_vel.twist = Twist.zero ∧
    ∃ r2, computeVelocityCommands M cfg costmap_ inp2 p2 = .ok r2 ∧
      r2.planner.m_state = state_t.STATE_STUCK ∧ r2.cmd_vel.twist = Twist.zero := by
  obtain ⟨v, hv, h | h⟩ := (computeVelocityCommands_ok_iff M cfg costmap_ inp p r).mp hr
  · refine ⟨by rw [h.2], ?_⟩
    have hv2 := perceive_congr M cfg costmap_ inp inp2 p p2 v hv hpos hspeed hlook hdef hplan hodom
    have hst : (velocity_law M cfg p2.m_state
        { v with dt := delta_time inp2.time_now p2.m_last_time }).stuck = true := by
      rw [velocity_law_dt, hstate]
      exact stuck_from_stuck M cfg p.m_state v htsv h.1
    refine ⟨{ cmd_vel := ⟨inp2.stamp_now, Twist.zero⟩,
              planner := { p2 with m_state := state_t.STATE_STUCK } }, ?_, rfl, rfl⟩
    rw [computeVelocityCommands_ok_iff]
    exact ⟨_, hv2, Or.inl ⟨hst, rfl⟩⟩
  · exfalso
    have := velocity_law_state_of_not_stuck M cfg p.m_state v h.1
    rw [h.2] at hs
    exact this hs

/-- C5 witness: in the default configuration the robot at rest inside the wall,
with the plan straight ahead, ends its tick in STUCK, and so does the next tick. -/
theorem C5_stuck_idempotent_witness :
    0 ≤ default_config.trans_stopped_vel ∧
    computeVelocityCommands math_rat default_config (wall_costmap 20) rest_input
      (fresh_planner plan_ahead) = .ok stuck_result ∧
    (stuck_result.cmd_vel.twist = Twist.zero ∧
      ∃ r2, computeVelocityCommands math_rat default_config (wall_costmap 20) later_input
          stuck_result.planner = .ok r2 ∧
        r2.planner.m_state = state_t.STATE_STUCK ∧ r2.cmd_vel.twist = Twist.zero) :=
  ⟨by decide!, by decide!,
    C5_stuck_idempotent math_rat default_config (wall_costmap 20) rest_input later_input
      (fresh_planner plan_ahead) stuck_result.planner stuck_result (by decide!) (by decide!)
      rfl rfl rfl rfl rfl rfl (by decide) rfl⟩

/-! ## C3 -/

theorem raw_control_of_perceive (M : MathLib R) (cfg : Config R) (costmap_ : Costmap2D R)
    (inp : TickInput R) (p : Planner R) (v : Percept R)
    (hv : perceive M cfg costmap_ inp p = .ok v) :
    raw_control M cfg costmap_ inp p = .ok (velocity_law M cfg p.m_state v) := by
  unfold raw_control
  rw [hv]

theorem tracking_vel_x_hard_stop (M : MathLib R) (cfg : Config R) (s : state_t) (v : Percept R)
    (ho : v.have_obstacle = true) (hd : v.obstacle_dist ≤ 0) :
    (tracking_vel_x M cfg s v).1 = 0 := by
  simp [tracking_vel_x, ho, hd]

theorem limit_backup_tracking (cfg : Config R) (s : state_t) (v : Percept R) (x : R)
    (hg : v.is_goal_target = false) :
    limit_backup cfg s v x = (x, if s = state_t.STATE_TURNING then state_t.STATE_IDLE else s) := by
  unfold limit_backup
  simp only [hg, Bool.false_eq_true, false_and, if_false]
  split <;> rfl

theorem holonomic_law_vel_x (M : MathLib R) (cfg : Config R) (t : state_t) (v : Percept R)
    (x : R) :
    (holonomic_law M cfg t v x).1 =
      if (holonomic_law M cfg t v x).2.2.2 = state_t.STATE_ROTATING ∧ |v.yaw_error| > M.M_PI / 6
      then x - v.delta_cost_x * cfg.cost_x_gain else x := rfl

theorem velocity_law_vel_x (M : MathLib R) (cfg : Config R) (s : state_t) (v : Percept R) :
    (velocity_law M cfg s v).control_vel_x =
      if cfg.differential_drive = true then
        (limit_backup cfg s v (forward_term M cfg s v).1).1
      else
        (holonomic_law M cfg (limit_backup cfg s v (forward_term M cfg s v).1).2 v
          (limit_backup cfg s v (forward_term M cfg s v).1).1).1 := by
  unfold velocity_law
  cases cfg.differential_drive <;> rfl

theorem tracking_holonomic_rotating_iff (M : MathLib R) (cfg : Config R) (s : state_t)
    (v : Percept R) (x y : R) (hg : v.is_goal_target = false) :
    (holonomic_law M cfg (limit_backup cfg s v x).2 v y).2.2.2 = state_t.STATE_ROTATING ↔
      |v.start_vel_x| ≤ cfg.trans_stopped_vel := by
  rw [holonomic_law_rotating_iff, limit_backup_tracking cfg s v x hg, not_lt]
  constructor
  · exact fun h => h.2
  · intro h
    refine ⟨?_, h⟩
    simp only []
    split
    · simp
    · assumption

/-- C3 as stated fails for the holonomic drive: the robot at rest inside the wall
(obstacle at the first scan step, obstacle distance -0.5) with the plan to its left
(heading error pi/2) is in tracking mode and hands the raw forward term
-508/2295 to the smoothing stage. -/
theorem C3_counterexample :
    (perceive math_rat holonomic_config (wall_costmap 20) rest_input
        (fresh_planner plan_left)).map
        (fun v => (v.is_goal_target, v.have_obstacle, decide (v.obstacle_dist ≤ 0)))
      = .ok (false, true, true) ∧
    (raw_control math_rat holonomic_config (wall_costmap 20) rest_input
        (fresh_planner plan_left)).map (fun c => (c.control_vel_x, c.stuck))
      = .ok (-(508 / 2295), false) := by
  constructor <;> decide!

/-- C3 (amended): for every tick in tracking mode in which the obstacle scan reports
an obstacle and the obstacle distance after subtracting `min_stop_dist` is ≤ 0, the raw
forward control term handed to the smoothing stage is zero for the differential drive;
for the holonomic drive it is zero unless the robot is stopped
(`|start_vel_x| ≤ trans_stopped_vel`) with a heading error above pi/6, where it is
`-delta_cost_x * cost_x_gain`. -/
theorem C3_hard_stop (M : MathLib R) (cfg : Config R) (costmap_ : Costmap2D R)
    (inp : TickInput R) (p : Planner R) (v : Percept R)
    (hv : perceive M cfg costmap_ inp p = .ok v)
    (hg : v.is_goal_target = false) (ho : v.have_obstacle = true) (hd : v.obstacle_dist ≤ 0) :
    ∃ c, raw_control M cfg costmap_ inp p = .ok c ∧
      c.control_vel_x =
        if cfg.differential_drive = false ∧ |v.start_vel_x| ≤ cfg.trans_stopped_vel
            ∧ |v.yaw_error| > M.M_PI / 6
        then -(v.delta_cost_x * cfg.cost_x_gain) else 0 := by
  refine ⟨_, raw_control_of_perceive M cfg costmap_ inp p v hv, ?_⟩
  have hf : (forward_term M cfg p.m_state v).1 = 0 := by
    unfold forward_term
    simp only [hg, Bool.false_eq_true, if_false]
    exact tracking_vel_x_hard_stop M cfg p.m_state v ho hd
  rw [velocity_law_vel_x, hf]
  cases hdd : cfg.differential_drive with
  | true =>
    simp only [if_true, Bool.true_eq_false, false_and, if_false]
    rw [limit_backup_tracking cfg _ v _ hg]
  | false =>
    simp only [Bool.false_eq_true, if_false, true_and]
    rw [holonomic_law_vel_x]
    have hrot := tracking_holonomic_rotating_iff M cfg p.m_state v 0 0 hg
    simp only [limit_backup_tracking cfg _ v _ hg] at hrot ⊢
    simp only [hrot, zero_sub]

/-- C3 witness: the differential-drive robot at rest inside the wall with the plan
to its left; its raw forward term is zero. -/
theorem C3_hard_stop_witness :
    perceive math_rat default_config (wall_costmap 20) rest_input (fresh_planner plan_left)
      = .ok (wall_percept (pi_rat / 2)) ∧
    ∃ c, raw_control math_rat default_config (wall_costmap 20) rest_input
        (fresh_planner plan_left) = .ok c ∧
      c.control_vel_x =
        if default_config.differential_drive = false
            ∧ |(wall_percept (pi_rat / 2)).start_vel_x| ≤ default_config.trans_stopped_vel
            ∧ |(wall_percept (pi_rat / 2)).yaw_error| > math_rat.M_PI / 6
        then -((wall_percept (pi_rat / 2)).delta_cost_x * default_config.cost_x_gain) else 0 :=
  ⟨by decide!,
    C3_hard_stop math_rat default_config (wall_costmap 20) rest_input (fresh_planner plan_left)
      (wall_percept (pi_rat / 2)) (by decide!) rfl rfl (by decide!)⟩

/-! ## C4 -/

theorem sqrt_rat_nonneg (x : ℚ) : 0 ≤ sqrt_rat x := by
  unfold sqrt_rat
  split
  · exact le_refl 0
  · positivity

theorem tracking_vel_x_le_cap (M : MathLib R) (cfg : Config R) (s : state_t) (v : Percept R)
    (hsqrt : ∀ x, 0 ≤ M.sqrt x) (ha : 0 < 9 / 10 * cfg.acc_lim_x)
    (ho : v.have_obstacle = true) (hvx : v.start_vel_x > 0) :
    (tracking_vel_x M cfg s v).1 ≤ obstacle_max_vel_x M cfg v.obstacle_dist := by
  have hcap : 0 ≤ obstacle_max_vel_x M cfg v.obstacle_dist := by
    unfold obstacle_max_vel_x
    exact mul_nonneg (le_of_lt ha) (hsqrt _)
  unfold tracking_vel_x
  simp only [ho, hvx, and_self, if_true, true_and]
  split
  · rename_i c hc
    split at hc
    · cases hc
      simpa using hcap
    · cases hlim : limit_curve_vel cfg v.lookahead_dist v.yaw_error
          (if s ≠ state_t.STATE_TRANSLATING ∧ |v.yaw_error| > cfg.start_yaw_error then 0
           else v.max_trans_vel) with
      | none => simp [hlim] at hc
      | some c0 =>
        simp only [hlim, Option.map_some', Option.some.injEq] at hc
        rw [← hc]
        exact max_le (min_le_right _ _) hcap
  · exact hcap


/-- C4 as stated fails on two ticks in tracking mode with an obstacle reported.
(1) Differential drive, robot at rest 1 m before the wall, `min_stop_dist = 0.975`:
obstacle distance 0.025, measured speed 0, raw forward term 0.5, above the cap
0.45 * sqrt(2 * 0.025 / 0.45) = 0.15, which lines 403-415 apply only for
`start_vel_x > 0`.
(2) Holonomic drive, robot creeping at 0.04 m/s with the wall on and behind it and the
plan to its left: obstacle distance -0.5, cap 0, raw forward term 127/765 from the
x cost term of lines 503-507. -/
theorem C4_counterexample :
    ((perceive math_rat close_stop_config (wall_costmap 24) rest_input
          (fresh_planner plan_ahead)).map
          (fun v => (v.is_goal_target, v.have_obstacle, v.obstacle_dist, v.start_vel_x))
        = .ok (false, true, 1 / 40, 0) ∧
      (raw_control math_rat close_stop_config (wall_costmap 24) rest_input
          (fresh_planner plan_ahead)).map (fun c => c.control_vel_x) = .ok (1 / 2) ∧
      ¬ ((1 / 2 : ℚ) ≤ 9 / 10 * close_stop_config.acc_lim_x *
          math_rat.sqrt (2 * max (1 / 40) 0 / (9 / 10 * close_stop_config.acc_lim_x)))) ∧
    ((perceive math_rat holonomic_config (back_wall_costmap 20) (moving_input (1 / 25))
          (fresh_planner plan_left)).map
          (fun v => (v.is_goal_target, v.have_obstacle, v.obstacle_dist, v.start_vel_x))
        = .ok (false, true, -(1 / 2), 1 / 25) ∧
      (raw_control math_rat holonomic_config (back_wall_costmap 20) (moving_input (1 / 25))
          (fresh_planner plan_left)).map (fun c => c.control_vel_x) = .ok (127 / 765) ∧
      ¬ ((127 / 765 : ℚ) ≤ 9 / 10 * holonomic_config.acc_lim_x *
          math_rat.sqrt (2 * max (-(1 / 2)) 0 / (9 / 10 * holonomic_config.acc_lim_x)))) := by
  refine ⟨⟨?_, ?_, ?_⟩, ⟨?_, ?_, ?_⟩⟩ <;> decide!

/-- C4 (amended): for every tick in tracking mode in which the obstacle scan reports
an obstacle at distance `d` and the measured forward speed is > 0, with
`a = 0.9 * acc_lim_x > 0` and a non-negative `sqrt`, the raw forward control term is at
most `a * sqrt(2 * max(d, 0) / a)` for the differential drive; for the holonomic drive
the same bound holds, enlarged by the x cost term `-delta_cost_x * cost_x_gain` when the
robot is stopped (`|start_vel_x| ≤ trans_stopped_vel`) with a heading error above
pi/6. -/
theorem C4_obstacle_cap (M : MathLib R) (cfg : Config R) (costmap_ : Costmap2D R)
    (inp : TickInput R) (p : Planner R) (v : Percept R)
    (hsqrt : ∀ x, 0 ≤ M.sqrt x) (ha : 0 < 9 / 10 * cfg.acc_lim_x)
    (hv : perceive M cfg costmap_ inp p = .ok v)
    (hg : v.is_goal_target = false) (ho : v.have_obstacle = true) (hvx : v.start_vel_x > 0) :
    ∃ c, raw_control M cfg costmap_ inp p = .ok c ∧
      c.control_vel_x ≤
        9 / 10 * cfg.acc_lim_x * M.sqrt (2 * max v.obstacle_dist 0 / (9 / 10 * cfg.acc_lim_x))
        + (if cfg.differential_drive = false ∧ |v.start_vel_x| ≤ cfg.trans_stopped_vel
              ∧ |v.yaw_error| > M.M_PI / 6
           then -(v.delta_cost_x * cfg.cost_x_gain) else 0) := by
  refine ⟨_, raw_control_of_perceive M cfg costmap_ inp p v hv, ?_⟩
  have hf : (forward_term M cfg p.m_state v).1 ≤
      9 / 10 * cfg.acc_lim_x * M.sqrt (2 * max v.obstacle_dist 0 / (9 / 10 * cfg.acc_lim_x)) := by
    unfold forward_term
    simp only [hg, Bool.false_eq_true, if_false]
    exact tracking_vel_x_le_cap M cfg p.m_state v hsqrt ha ho hvx
  rw [velocity_law_vel_x]
  cases hdd : cfg.differential_drive with
  | true =>
    simp only [if_true, Bool.true_eq_false, false_and, if_false, add_zero]
    rw [limit_backup_tracking cfg _ v _ hg]
    exact hf
  | false =>
    simp only [Bool.false_eq_true, if_false, true_and]
    rw [holonomic_law_vel_x]
    have hrot := tracking_holonomic_rotating_iff M cfg p.m_state v 0 0 hg
    simp only [limit_backup_tracking cfg _ v _ hg] at hrot ⊢
    have hrot2 : (holonomic_law M cfg
        (if p.m_state = state_t.STATE_TURNING then state_t.STATE_IDLE else p.m_state) v
        (forward_term M cfg p.m_state v).1).2.2.2 = state_t.STATE_ROTATING ↔
        |v.start_vel_x| ≤ cfg.trans_stopped_vel := by
      rw [holonomic_law_state]
      rw [holonomic_law_state] at hrot
      exact hrot
    simp only [hrot2]
    split
    · linarith
    · linarith

/-- C4 witness: the differential-drive robot moving at 0.4 m/s towards the wall 1 m
ahead (obstacle distance 0.3). -/
theorem C4_obstacle_cap_witness :
    (0 : ℚ) < 9 / 10 * default_config.acc_lim_x ∧
    perceive math_rat default_config (wall_costmap 24) (moving_input (2 / 5))
      (fresh_planner plan_ahead) = .ok approach_percept ∧
    approach_percept.start_vel_x > 0 ∧
    ∃ c, raw_control math_rat default_config (wall_costmap 24) (moving_input (2 / 5))
        (fresh_planner plan_ahead) = .ok c ∧
      c.control_vel_x ≤
        9 / 10 * default_config.acc_lim_x *
          math_rat.sqrt (2 * max approach_percept.obstacle_dist 0
            / (9 / 10 * default_config.acc_lim_x))
        + (if default_config.differential_drive = false
              ∧ |approach_percept.start_vel_x| ≤ default_config.trans_stopped_vel
              ∧ |approach_percept.yaw_error| > math_rat.M_PI / 6
           then -(approach_percept.delta_cost_x * default_config.cost_x_gain) else 0) :=
  ⟨by decide!, by decide!, by decide!,
    C4_obstacle_cap math_rat default_config (wall_costmap 24) (moving_input (2 / 5))
      (fresh_planner plan_ahead) approach_percept sqrt_rat_nonneg (by decide!) (by decide!)
      rfl rfl (by decide!)⟩

/-! ## C6 -/

/-- C6 (the code breaks it): with an odometry message present and an empty plan the
tick returns no command at all. `find_closest_point` and `move_along_path` return
the past-the-end iterator, `is_goal_target` is true, and line 347 dereferences that
iterator. -/
theorem C6_empty_plan_dereferences_end (M : MathLib R) (cfg : Config R)
    (costmap_ : Costmap2D R) (inp : TickInput R) (p : Planner R) (odom : Odometry R)
    (global_to_local : Transform R) (actual_pos : Vector3 R) (lookahead_dist : R) :
    computeVelocityCommands M cfg costmap_ inp
        { p with m_global_plan := [], m_odometry := some odom } = .error Fault.end_iterator ∧
      select_target M cfg (transform_plan global_to_local []) actual_pos lookahead_dist
        = .error Fault.end_iterator := by
  constructor
  · unfold computeVelocityCommands perceive
    simp only []
    have hs := obstacle_scan_isSome M cfg costmap_
      ⟨createQuaternionFromYaw M (predict_pose M cfg inp.position inp.speed.linear.x
        inp.speed.linear.y inp.speed.angular.z).2,
       (predict_pose M cfg inp.position inp.speed.linear.x inp.speed.linear.y
        inp.speed.angular.z).1⟩ inp.speed.linear.x inp.speed.angular.z
    obtain ⟨scan, hscan⟩ := Option.isSome_iff_exists.mp hs
    rw [hscan]
    simp [transform_plan, select_target, find_closest_point, find_closest_point_loop,
      move_along_path]
  · simp [transform_plan, select_target, find_closest_point, find_closest_point_loop,
      move_along_path]

/-! ## C7 -/

/-- C7 (the code breaks it): with no odometry message received the tick returns no
command: line 266 reads `m_odometry->header.stamp` through the empty pointer, whatever
the plan, pose, twist and cost grid. -/
theorem C7_no_odometry_null_dereference (M : MathLib R) (cfg : Config R)
    (costmap_ : Costmap2D R) (inp : TickInput R) (p : Planner R) :
    computeVelocityCommands M cfg costmap_ inp { p with m_odometry := none }
      = .error Fault.null_odometry := by
  unfold computeVelocityCommands perceive
  simp only []

/-! ## C8, C9 -/

/-- C8 as stated fails: with an empty plan and no odometry message received,
`isGoalReached` returns false. -/
theorem C8_counterexample :
    ({ fresh_planner [] with m_odometry := none } : Planner ℚ).m_global_plan = [] ∧
    (isGoalReached default_config (goal_env 0)
      { fresh_planner [] with m_odometry := none }).map (fun r => r.1) = .ok false := by
  constructor <;> rfl

/-- C8 (amended): for every controller state that holds an odometry message and whose
plan is empty, `isGoalReached` returns true and leaves the members unchanged. -/
theorem C8_empty_plan_reached (cfg : Config R) (env : GoalCall R) (p : Planner R)
    (ho : p.m_odometry ≠ none) (hp : p.m_global_plan = []) :
    isGoalReached cfg env p = .ok (true, p) := by
  obtain ⟨od, hod⟩ := Option.ne_none_iff_exists'.mp ho
  unfold isGoalReached
  simp [hod, hp]

/-- C8 witness: the planner with an odometry message and the empty plan. -/
theorem C8_empty_plan_reached_witness :
    (fresh_planner []).m_odometry ≠ none ∧ (fresh_planner []).m_global_plan = [] ∧
    isGoalReached default_config (goal_env 0) (fresh_planner [])
      = .ok (true, fresh_planner []) :=
  ⟨by simp [fresh_planner], rfl,
    C8_empty_plan_reached default_config (goal_env 0) (fresh_planner [])
      (by simp [fresh_planner]) rfl⟩

/-- C9: in every controller state without an odometry message, `isGoalReached` returns
false, whatever the plan and the lookup result, and leaves all members, the latched
flag and the first-reached time among them, unchanged. -/
theorem C9_no_odometry_not_reached (cfg : Config R) (env : GoalCall R) (p : Planner R)
    (ho : p.m_odometry = none) :
    ∃ r, isGoalReached cfg env p = .ok r ∧ r.1 = false ∧ r.2 = p ∧
      r.2.m_is_goal_reached = p.m_is_goal_reached ∧
      r.2.m_first_goal_reached_time = p.m_first_goal_reached_time := by
  refine ⟨(false, p), ?_, rfl, rfl, rfl, rfl⟩
  unfold isGoalReached
  simp [ho]

/-- C9 witness: a latched planner that has lost its odometry message, asked 5 s
later with a successful lookup. -/
theorem C9_no_odometry_not_reached_witness :
    ({ projection_planner with m_odometry := none } : Planner ℚ).m_odometry = none ∧
    ∃ r, isGoalReached default_config (goal_env 5)
        { projection_planner with m_odometry := none } = .ok r ∧ r.1 = false ∧
      r.2 = { projection_planner with m_odometry := none } ∧
      r.2.m_is_goal_reached
        = ({ projection_planner with m_odometry := none } : Planner ℚ).m_is_goal_reached ∧
      r.2.m_first_goal_reached_time
        = ({ projection_planner with m_odometry := none } :
            Planner ℚ).m_first_goal_reached_time :=
  ⟨rfl, C9_no_odometry_not_reached default_config (goal_env 5)
    { projection_planner with m_odometry := none } rfl⟩

/-! ## C10 -/

theorem debounce_step_eq (cfg : Config R) (p : Planner R) (s : DebounceStep R) :
    debounce_step cfg p s =
      (s.is_reached && decide (s.env.now_return -
          (if !p.m_is_goal_reached then s.env.now_first else p.m_first_goal_reached_time)
            ≥ cfg.goal_tune_time),
        { p with
          m_is_goal_reached := s.is_reached,
          m_first_goal_reached_time :=
            if !p.m_is_goal_reached then s.env.now_first else p.m_first_goal_reached_time }) :=
  rfl

/-- State of the debouncer of lines 677-683 after a sequence of passes: either no pass
of the current run of true verdicts is pending and the flag is down, or the flag is up
and the recorded time is that of the first pass of the current run. -/
theorem debounce_steps_tracker (cfg : Config R) (p0 : Planner R)
    (h0 : p0.m_is_goal_reached = false) :
    ∀ steps : List (DebounceStep R),
      ((debounce_steps cfg p0 steps).m_is_goal_reached = false ∧
        ∀ l, steps.getLast? = some l → l.is_reached = false) ∨
      ((debounce_steps cfg p0 steps).m_is_goal_reached = true ∧
        ∃ rest s0 tail, steps = rest ++ s0 :: tail ∧
          (∀ s ∈ s0 :: tail, s.is_reached = true) ∧
          (∀ l, rest.getLast? = some l → l.is_reached = false) ∧
          (debounce_steps cfg p0 steps).m_first_goal_reached_time = s0.env.now_first) := by
  intro steps
  induction steps using List.reverseRecOn with
  | nil =>
    left
    exact ⟨h0, by simp⟩
  | append_singleton pre c ih =>
    have hstep : debounce_steps cfg p0 (pre ++ [c])
        = (debounce_step cfg (debounce_steps cfg p0 pre) c).2 := by
      simp [debounce_steps, List.foldl_append]
    rw [hstep, debounce_step_eq cfg _ c]
    simp only []
    cases hv : c.is_reached with
    | false =>
      left
      refine ⟨rfl, ?_⟩
      intro l hl
      simp only [List.getLast?_append, List.getLast?_singleton, Option.or,
        Option.some.injEq] at hl
      rw [← hl]; exact hv
    | true =>
      right
      refine ⟨rfl, ?_⟩
      rcases ih with ⟨hflag, hlast⟩ | ⟨hflag, rest, s0, tail, hsplit, hrun, hrest, htime⟩
      · refine ⟨pre, c, [], rfl, ?_, hlast, ?_⟩
        · intro s hs
          simp only [List.mem_singleton] at hs
          rw [hs]; exact hv
        · simp [hflag]
      · refine ⟨rest, s0, tail ++ [c], ?_, ?_, hrest, ?_⟩
        · rw [hsplit]; simp
        · intro s hs
          rw [← List.cons_append, List.mem_append] at hs
          rcases hs with hs | hs
          · exact hrun s hs
          · simp only [List.mem_singleton] at hs
            rw [hs]; exact hv
        · simp [hflag, htime]

/-- Lines 677-683 debounce as intended when they are handed verdicts: in a sequence of
passes started with the flag unlatched, a pass returns true only if its verdict is
true; and when the verdict is true, the recorded first-reached time is the clock
reading (line 680) of the first pass `s0` of the current unbroken run of true
verdicts, and the pass returns true exactly when its clock reading at line 683 minus
that time is at least `goal_tune_time`. -/
theorem goal_debounce_run (cfg : Config R) (p0 : Planner R) (pre : List (DebounceStep R))
    (c : DebounceStep R) (h0 : p0.m_is_goal_reached = false) :
    ((debounce_step cfg (debounce_steps cfg p0 pre) c).1 = true → c.is_reached = true) ∧
    (c.is_reached = true →
      ∃ rest s0 tail, pre ++ [c] = rest ++ s0 :: tail ∧
        (∀ s ∈ s0 :: tail, s.is_reached = true) ∧
        (∀ l, rest.getLast? = some l → l.is_reached = false) ∧
        (debounce_step cfg (debounce_steps cfg p0 pre) c).2.m_first_goal_reached_time
          = s0.env.now_first ∧
        ((debounce_step cfg (debounce_steps cfg p0 pre) c).1 = true ↔
          c.env.now_return - s0.env.now_first ≥ cfg.goal_tune_time)) := by
  have hstep : debounce_steps cfg p0 (pre ++ [c])
      = (debounce_step cfg (debounce_steps cfg p0 pre) c).2 := by
    simp [debounce_steps, List.foldl_append]
  have hcall := debounce_step_eq cfg (debounce_steps cfg p0 pre) c
  constructor
  · intro h
    rw [hcall] at h
    simp only [Bool.and_eq_true] at h
    exact h.1
  · intro hv
    rcases debounce_steps_tracker cfg p0 h0 (pre ++ [c]) with
      ⟨_, hlast⟩ | ⟨_, rest, s0, tail, hsplit, hrun, hrest, htime⟩
    · have := hlast c (by simp)
      rw [hv] at this
      cases this
    · rw [hstep] at htime
      refine ⟨rest, s0, tail, hsplit, hrun, hrest, htime, ?_⟩
      rw [← htime, hcall]
      simp [hv]

theorem goal_step_reaches_checker (t : ℚ) : (goal_step t).reaches_checker := by
  constructor
  · simp [goal_step, plan_ahead]
  · simp [goal_step, goal_env]

/-- C10 (code bug): every call of `isGoalReached` that reaches the goal checker
(odometry message present, plan not empty, transform lookup succeeded) calls through
the local pointer `goal_checker`, which line 621 declares without a value and nothing
assigns.  The call is undefined behaviour for every configuration, clock reading and
tracker state, so in a sequence of such calls no call returns a flag or records a
first-reached time: each step of the sequence, from whatever members, is the fault. -/
theorem C10_goal_checker_uninitialised (cfg : Config R) (env : GoalCall R) (p : Planner R)
    (ho : p.m_odometry ≠ none) (hp : p.m_global_plan ≠ [])
    (hl : env.lookupTransform ≠ none) :
    isGoalReached cfg env p = .error Fault.uninitialised_goal_checker ∧
    ∀ (q : Planner R) (s : GoalStep R), s.reaches_checker →
      goal_call cfg q s = .error Fault.uninitialised_goal_checker := by
  have key : ∀ (e : GoalCall R) (q : Planner R), q.m_odometry ≠ none →
      q.m_global_plan ≠ [] → e.lookupTransform ≠ none →
      isGoalReached cfg e q = .error Fault.uninitialised_goal_checker := by
    intro e q hqo hqp hel
    obtain ⟨od, hod⟩ := Option.ne_none_iff_exists'.mp hqo
    obtain ⟨t, ht⟩ := Option.ne_none_iff_exists'.mp hel
    obtain ⟨g, hg⟩ : ∃ g, q.m_global_plan.getLast? = some g := by
      cases hlast : q.m_global_plan.getLast? with
      | none => exact absurd (List.getLast?_eq_none_iff.mp hlast) hqp
      | some g => exact ⟨g, rfl⟩
    simp only [isGoalReached, hod, hg, ht]
  refine ⟨key env p ho hp hl, ?_⟩
  intro q s hs
  exact key s.env (s.before q) (by simp [GoalStep.before, setPlan, odomCallback])
    (by simpa [GoalStep.before, setPlan, odomCallback] using hs.1) hs.2

/-- C10 witness: the planner with an odometry message and the plan straight ahead,
asked at time 0 with a successful lookup, and the first step of a sequence of calls
at time 0. -/
theorem C10_goal_checker_uninitialised_witness :
    (fresh_planner plan_ahead).m_odometry ≠ none ∧
    (fresh_planner plan_ahead).m_global_plan ≠ [] ∧
    (goal_env 0).lookupTransform ≠ none ∧
    isGoalReached default_config (goal_env 0) (fresh_planner plan_ahead)
      = .error Fault.uninitialised_goal_checker ∧
    goal_call default_config (fresh_planner plan_ahead) (goal_step 0)
      = .error Fault.uninitialised_goal_checker :=
  ⟨by simp [fresh_planner], by simp [fresh_planner, plan_ahead], by simp [goal_env],
    (C10_goal_checker_uninitialised default_config (goal_env 0) (fresh_planner plan_ahead)
      (by simp [fresh_planner]) (by simp [fresh_planner, plan_ahead])
      (by simp [goal_env])).1,
    (C10_goal_checker_uninitialised default_config (goal_env 0) (fresh_planner plan_ahead)
      (by simp [fresh_planner]) (by simp [fresh_planner, plan_ahead])
      (by simp [goal_env])).2 (fresh_planner plan_ahead) (goal_step 0)
      (goal_step_reaches_checker 0)⟩

/-! ## C11 -/

theorem LineIterator.advance_numpixels (l : LineIterator) :
    l.advance.numpixels_ = l.numpixels_ ∧ l.advance.curpixel_ = l.curpixel_ + 1 := by
  simp only [LineIterator.advance]
  split_ifs <;> exact ⟨rfl, rfl⟩

/-- The loop over a `LineIterator` ends by `isValid()` turning false: any fuel of at
least `numpixels_ - curpixel_ + 1` iterations yields the same cells. -/
theorem LineIterator.collect_fuel (fuel : Nat) :
    ∀ (l : LineIterator) (extra : Nat), (l.numpixels_ - l.curpixel_ + 1).toNat ≤ fuel →
      LineIterator.collect (fuel + extra) l = LineIterator.collect fuel l := by
  induction fuel with
  | zero =>
    intro l extra h
    have hv : l.isValid = false := by
      simp only [LineIterator.isValid, decide_eq_false_iff_not, not_le]
      omega
    cases extra with
    | zero => rfl
    | succ e => simp [LineIterator.collect, hv]
  | succ n ih =>
    intro l extra h
    rw [Nat.add_right_comm]
    simp only [LineIterator.collect]
    split
    · rw [ih l.advance extra]
      obtain ⟨h1, h2⟩ := LineIterator.advance_numpixels l
      rw [h1, h2]
      omega
    · rfl

omit [LinearOrderedField R] in
theorem get_line_cells_same (cost_map : Costmap2D R) (p : Vector3 R) :
    get_line_cells cost_map p p = [cost_map.worldToMapEnforceBounds p.x p.y] := by
  simp [get_line_cells, LineIterator.init, LineIterator.collect, LineIterator.isValid]

/-- C11: for every cost grid and every world point `p`, the cells rasterized for the
segment from `p` to `p` are the single cell `p` clamps to, so the divisor
`cells.size()` of `compute_avg_line_cost(p, p)` is 1, not 0, and the average is
`get_cost(p)`. -/
theorem C11_degenerate_segment_cost (cost_map_ : Costmap2D R) (p : Vector3 R) :
    get_line_cells cost_map_ p p = [cost_map_.worldToMapEnforceBounds p.x p.y] ∧
    get_line_cells cost_map_ p p ≠ [] ∧
    ((get_line_cells cost_map_ p p).length : R) ≠ 0 ∧
    compute_avg_line_cost cost_map_ p p = get_cost cost_map_ p := by
  have h := get_line_cells_same cost_map_ p
  refine ⟨h, by rw [h]; simp, by rw [h]; simp, ?_⟩
  unfold compute_avg_line_cost get_cost
  simp only [h, List.foldl_cons, List.foldl_nil, List.length_singleton, Nat.cast_one, div_one,
    zero_add]


/-! ## C12 -/

theorem arc_length_of_le (M : MathLib R) (plan : List (Transform R)) (i j : Nat) (h : j ≤ i) :
    arc_length M plan i j = 0 := by
  cases j with
  | zero => rfl
  | succ j =>
    have : ¬ i ≤ j := by omega
    simp [arc_length, this]

theorem arc_length_succ (M : MathLib R) (plan : List (Transform R)) (i j : Nat) (h : i ≤ j)
    (a b : Transform R) (ha : plan[j]? = some a) (hb : plan[j + 1]? = some b) :
    arc_length M plan i (j + 1) = arc_length M plan i j + (b.origin.sub a.origin).length M := by
  simp [arc_length, h, ha, hb]

theorem length_sub_self (M : MathLib R) (h0 : M.sqrt 0 = 0) (a : Vector3 R) :
    (a.sub a).length M = 0 := by
  simp [Vector3.length, Vector3.sub, Vector3.dot, h0]

theorem move_along_path_loop_spec (M : MathLib R) (plan : List (Transform R)) (i : Nat)
    (dist : R) :
    ∀ (rest : List (Transform R)) (iter ip : Nat) (prev : Transform R) (dl : R),
      plan.drop iter = rest → i ≤ iter → i ≤ ip → plan[ip]? = some prev →
      (∀ q, plan[iter]? = some q →
        dl - (q.origin.sub prev.origin).length M = dist - arc_length M plan i iter) →
      (∀ k, i ≤ k → k < iter → arc_length M plan i k < dist) →
      (ip + 1 = iter ∨ iter < plan.length) → ip < iter ∨ iter < plan.length →
      dl = dist - arc_length M plan i ip →
      i ≤ (move_along_path_loop M rest iter ip prev dl).1 ∧
      (move_along_path_loop M rest iter ip prev dl).1 < plan.length ∧
      (∀ k, i ≤ k → k < (move_along_path_loop M rest iter ip prev dl).1 →
        arc_length M plan i k < dist) ∧
      (dist ≤ arc_length M plan i (move_along_path_loop M rest iter ip prev dl).1 ∨
        ((move_along_path_loop M rest iter ip prev dl).1 + 1 = plan.length ∧
          arc_length M plan i (move_along_path_loop M rest iter ip prev dl).1 < dist)) ∧
      (move_along_path_loop M rest iter ip prev dl).2 =
        dist - arc_length M plan i (move_along_path_loop M rest iter ip prev dl).1 := by
  intro rest
  induction rest with
  | nil =>
    intro iter ip prev dl hdrop hi hip hprev _ hbefore hend hlt hdl
    have hlen : plan.length ≤ iter := List.drop_eq_nil_iff.mp hdrop
    have hipl : ip < plan.length := by
      by_contra hc
      rw [List.getElem?_eq_none (by omega)] at hprev
      cases hprev
    have hip1 : ip + 1 = iter := by omega
    simp only [move_along_path_loop]
    refine ⟨hip, hipl, fun k hk hk2 => hbefore k hk (by omega), Or.inr ⟨by omega, ?_⟩, hdl⟩
    exact hbefore ip hip (by omega)
  | cons q rest ih =>
    intro iter ip prev dl hdrop hi hip hprev hq hbefore _ _ hdl
    have hqi : plan[iter]? = some q := by
      have := List.getElem?_drop plan iter 0
      rw [hdrop] at this
      simpa using this.symm
    have hiter : iter < plan.length := by
      by_contra hc
      rw [List.getElem?_eq_none (by omega)] at hqi
      cases hqi
    have hdrop1 : plan.drop (iter + 1) = rest := by
      have := List.drop_drop 1 iter plan
      rw [hdrop] at this
      simpa using this.symm
    have hdl1 := hq q hqi
    simp only [move_along_path_loop]
    split
    · rename_i hle
      rw [hdl1] at hle ⊢
      exact ⟨hi, hiter, hbefore, Or.inl (by linarith), rfl⟩
    · rename_i hgt
      rw [hdl1] at hgt ⊢
      apply ih (iter + 1) iter q _ hdrop1 (by omega) hi hqi
      · intro q' hq'
        rw [arc_length_succ M plan i iter hi q q' hqi hq']
        ring
      · intro k hk hk2
        by_cases hki : k = iter
        · rw [hki]; linarith
        · exact hbefore k hk (by omega)
      · exact Or.inl rfl
      · exact Or.inl (by omega)
      · rfl


theorem move_along_path_spec (M : MathLib R) (plan : List (Transform R)) (i : Nat) (dist : R)
    (hi : i < plan.length) (h0 : M.sqrt 0 = 0) :
    i ≤ (move_along_path M plan i dist).1 ∧
    (move_along_path M plan i dist).1 < plan.length ∧
    (∀ k, i ≤ k → k < (move_along_path M plan i dist).1 → arc_length M plan i k < dist) ∧
    (dist ≤ arc_length M plan i (move_along_path M plan i dist).1 ∨
      ((move_along_path M plan i dist).1 + 1 = plan.length ∧
        arc_length M plan i (move_along_path M plan i dist).1 < dist)) ∧
    (move_along_path M plan i dist).2 =
      arc_length M plan i (move_along_path M plan i dist).1 := by
  have hcons := List.drop_eq_getElem_cons hi
  have hget : plan[i]? = some plan[i] := List.getElem?_eq_getElem hi
  have hspec := move_along_path_loop_spec M plan i dist (plan[i] :: plan.drop (i + 1)) i i
    plan[i] dist hcons (le_refl i) (le_refl i) hget
    (by
      intro q hq
      rw [hget] at hq
      cases hq
      rw [length_sub_self M h0, arc_length_of_le M plan i i (le_refl i)])
    (by intro k hk hk2; omega) (Or.inr hi) (Or.inr hi)
    (by rw [arc_length_of_le M plan i i (le_refl i)]; ring)
  unfold move_along_path
  rw [hcons]
  simp only []
  obtain ⟨h1, h2, h3, h4, h5⟩ := hspec
  refine ⟨h1, h2, h3, h4, ?_⟩
  rw [h5]
  ring

theorem arc_length_le_succ (M : MathLib R) (hs : ∀ x, 0 ≤ M.sqrt x) (plan : List (Transform R))
    (i j : Nat) : arc_length M plan i j ≤ arc_length M plan i (j + 1) := by
  by_cases h : i ≤ j
  · simp only [arc_length, h, if_true]
    split
    · rename_i a b _ _
      have hb := hs ((b.origin.sub a.origin).dot (b.origin.sub a.origin))
      simp only [Vector3.length]
      linarith
    · exact le_refl _
  · rw [arc_length_of_le M plan i j (by omega), arc_length_of_le M plan i (j + 1) (by omega)]

theorem arc_length_mono (M : MathLib R) (hs : ∀ x, 0 ≤ M.sqrt x) (plan : List (Transform R))
    (i j k : Nat) (h : j ≤ k) : arc_length M plan i j ≤ arc_length M plan i k := by
  induction k with
  | zero =>
    have : j = 0 := by omega
    rw [this]
  | succ k ih =>
    by_cases hjk : j = k + 1
    · rw [hjk]
    · exact le_trans (ih (by omega)) (arc_length_le_succ M hs plan i k)

/-- C12: for a start index `i` inside the plan and any `dist`, with `sqrt 0 = 0`,
`move_along_path` returns an index `j` of the range: `j` is the first index from `i`
on whose cumulative segment length measured from `i` is ≥ `dist` when such an index
exists, and the last index of the plan when none exists; in particular, with a
non-negative `sqrt`, it returns the last index whenever `dist` exceeds the arc length
from `i` to the end. The distance it reports is the cumulative length up to `j`. -/
theorem C12_move_along_path (M : MathLib R) (plan : List (Transform R)) (i : Nat) (dist : R)
    (hi : i < plan.length) (h0 : M.sqrt 0 = 0) :
    i ≤ (move_along_path M plan i dist).1 ∧
    (move_along_path M plan i dist).1 < plan.length ∧
    (∀ k, i ≤ k → k < plan.length → dist ≤ arc_length M plan i k →
      dist ≤ arc_length M plan i (move_along_path M plan i dist).1 ∧
        (move_along_path M plan i dist).1 ≤ k) ∧
    ((∀ k, i ≤ k → k < plan.length → arc_length M plan i k < dist) →
      (move_along_path M plan i dist).1 + 1 = plan.length) ∧
    ((∀ x, 0 ≤ M.sqrt x) → arc_length M plan i (plan.length - 1) < dist →
      (move_along_path M plan i dist).1 + 1 = plan.length) ∧
    (move_along_path M plan i dist).2 =
      arc_length M plan i (move_along_path M plan i dist).1 := by
  obtain ⟨h1, h2, h3, h4, h5⟩ := move_along_path_spec M plan i dist hi h0
  have hnone : (∀ k, i ≤ k → k < plan.length → arc_length M plan i k < dist) →
      (move_along_path M plan i dist).1 + 1 = plan.length := by
    intro hall
    rcases h4 with h | h
    · exact absurd (hall _ h1 h2) (not_lt.mpr h)
    · exact h.1
  refine ⟨h1, h2, ?_, hnone, ?_, h5⟩
  · intro k hk hkl hd
    have hjk : (move_along_path M plan i dist).1 ≤ k := by
      by_contra hc
      exact absurd (h3 k hk (by omega)) (not_lt.mpr hd)
    refine ⟨?_, hjk⟩
    rcases h4 with h | h
    · exact h
    · have : k = (move_along_path M plan i dist).1 := by omega
      rw [this] at hd
      exact absurd h.2 (not_lt.mpr hd)
  · intro hs hlt
    apply hnone
    intro k _ hkl
    exact lt_of_le_of_lt (arc_length_mono M hs plan i k (plan.length - 1) (by omega)) hlt

/-- C12 witness: marching 1.5 m from the first point of the plan
(0,0), (1,0), (2,0), (3,0). -/
theorem C12_move_along_path_witness :
    0 < plan_ahead.length ∧ math_rat.sqrt 0 = 0 ∧
    (move_along_path math_rat plan_ahead 0 (3 / 2)).1 = 2 ∧
    (0 ≤ (move_along_path math_rat plan_ahead 0 (3 / 2)).1 ∧
    (move_along_path math_rat plan_ahead 0 (3 / 2)).1 < plan_ahead.length ∧
    (∀ k, 0 ≤ k → k < plan_ahead.length → 3 / 2 ≤ arc_length math_rat plan_ahead 0 k →
      3 / 2 ≤ arc_length math_rat plan_ahead 0 (move_along_path math_rat plan_ahead 0 (3 / 2)).1 ∧
        (move_along_path math_rat plan_ahead 0 (3 / 2)).1 ≤ k) ∧
    ((∀ k, 0 ≤ k → k < plan_ahead.length → arc_length math_rat plan_ahead 0 k < 3 / 2) →
      (move_along_path math_rat plan_ahead 0 (3 / 2)).1 + 1 = plan_ahead.length) ∧
    ((∀ x, 0 ≤ math_rat.sqrt x) →
      arc_length math_rat plan_ahead 0 (plan_ahead.length - 1) < 3 / 2 →
      (move_along_path math_rat plan_ahead 0 (3 / 2)).1 + 1 = plan_ahead.length) ∧
    (move_along_path math_rat plan_ahead 0 (3 / 2)).2 =
      arc_length math_rat plan_ahead 0 (move_along_path math_rat plan_ahead 0 (3 / 2)).1) :=
  ⟨by decide, by decide!, by decide!,
    C12_move_along_path math_rat plan_ahead 0 (3 / 2) (by decide) (by decide!)⟩

/-! ## C13 -/

theorem find_closest_point_loop_spec (M : MathLib R) (plan : List (Transform R))
    (pos : Vector3 R) :
    ∀ (rest : List (Transform R)) (iter iter_short : Nat) (d : R),
      plan.drop iter = rest → is_first_closest M plan pos iter iter_short d →
      ∃ d', (find_closest_point_loop M pos rest iter iter_short (some d)).2 = some d' ∧
        is_first_closest M plan pos plan.length
          (find_closest_point_loop M pos rest iter iter_short (some d)).1 d' := by
  intro rest
  induction rest with
  | nil =>
    intro iter iter_short d hdrop hinv
    have hlen : plan.length ≤ iter := List.drop_eq_nil_iff.mp hdrop
    refine ⟨d, rfl, ?_⟩
    simp only [find_closest_point_loop]
    obtain ⟨h1, ⟨q, hq, hqd⟩, h3, h4⟩ := hinv
    have hlt : iter_short < plan.length := by
      by_contra hc
      rw [List.getElem?_eq_none (by omega)] at hq
      cases hq
    refine ⟨hlt, ⟨q, hq, hqd⟩, ?_, h4⟩
    intro k q' hk hq'
    exact h3 k q' (by omega) hq'
  | cons q rest ih =>
    intro iter iter_short d hdrop hinv
    have hqi : plan[iter]? = some q := by
      have := List.getElem?_drop plan iter 0
      rw [hdrop] at this
      simpa using this.symm
    have hdrop1 : plan.drop (iter + 1) = rest := by
      have := List.drop_drop 1 iter plan
      rw [hdrop] at this
      simpa using this.symm
    obtain ⟨h1, ⟨q0, hq0, hq0d⟩, h3, h4⟩ := hinv
    simp only [find_closest_point_loop]
    split
    · rename_i hlt
      apply ih (iter + 1) iter _ hdrop1
      refine ⟨by omega, ⟨q, hqi, rfl⟩, ?_, ?_⟩
      · intro k q' hk hq'
        by_cases hki : k = iter
        · rw [hki, hqi] at hq'
          cases hq'
          exact le_refl _
        · exact le_of_lt (lt_of_lt_of_le hlt (h3 k q' (by omega) hq'))
      · intro k q' hk hq'
        exact lt_of_lt_of_le hlt (h3 k q' hk hq')
    · rename_i hge
      apply ih (iter + 1) iter_short d hdrop1
      refine ⟨by omega, ⟨q0, hq0, hq0d⟩, ?_, h4⟩
      intro k q' hk hq'
      by_cases hki : k = iter
      · rw [hki, hqi] at hq'
        cases hq'
        exact not_lt.mp hge
      · exact h3 k q' (by omega) hq'

/-- C13: for every non-empty plan and every position, `find_closest_point` returns an
index inside the plan and reports the distance of that point; no point of the plan is
nearer, and every point before the returned index is strictly farther, so the index is
the lowest among the points at minimum distance. -/
theorem C13_find_closest_point (M : MathLib R) (plan : List (Transform R)) (pos : Vector3 R)
    (h : plan ≠ []) :
    ∃ d, (find_closest_point M plan pos).2 = some d ∧
      (find_closest_point M plan pos).1 < plan.length ∧
      (∃ q, plan[(find_closest_point M plan pos).1]? = some q ∧
        (q.origin.sub pos).length M = d) ∧
      (∀ k q, k < plan.length → plan[k]? = some q → d ≤ (q.origin.sub pos).length M) ∧
      (∀ k q, k < (find_closest_point M plan pos).1 → plan[k]? = some q →
        d < (q.origin.sub pos).length M) := by
  cases plan with
  | nil => exact absurd rfl h
  | cons q rest =>
    have hinit : is_first_closest M (q :: rest) pos 1 0 ((q.origin.sub pos).length M) := by
      refine ⟨by omega, ⟨q, by simp, rfl⟩, ?_, ?_⟩
      · intro k q' hk hq'
        have hk0 : k = 0 := by omega
        rw [hk0] at hq'
        simp only [List.getElem?_cons_zero, Option.some.injEq] at hq'
        rw [hq']
      · intro k q' hk _
        omega
    obtain ⟨d, hd, hspec⟩ := find_closest_point_loop_spec M (q :: rest) pos rest 1 0
      ((q.origin.sub pos).length M) rfl hinit
    exact ⟨d, hd, hspec⟩

/-- C13 witness: the plan (0,0), (1,0), (2,0), (3,0) seen from (1.5, 0): points 1 and
2 are both at the minimum distance 0.5, and index 1 is returned. -/
theorem C13_find_closest_point_witness :
    plan_ahead ≠ [] ∧ find_closest_point math_rat plan_ahead ⟨3 / 2, 0, 0⟩ = (1, some (1 / 2)) ∧
    ∃ d, (find_closest_point math_rat plan_ahead ⟨3 / 2, 0, 0⟩).2 = some d ∧
      (find_closest_point math_rat plan_ahead ⟨3 / 2, 0, 0⟩).1 < plan_ahead.length ∧
      (∃ q, plan_ahead[(find_closest_point math_rat plan_ahead ⟨3 / 2, 0, 0⟩).1]? = some q ∧
        (q.origin.sub ⟨3 / 2, 0, 0⟩).length math_rat = d) ∧
      (∀ k q, k < plan_ahead.length → plan_ahead[k]? = some q →
        d ≤ (q.origin.sub ⟨3 / 2, 0, 0⟩).length math_rat) ∧
      (∀ k q, k < (find_closest_point math_rat plan_ahead ⟨3 / 2, 0, 0⟩).1 →
        plan_ahead[k]? = some q → d < (q.origin.sub ⟨3 / 2, 0, 0⟩).length math_rat) :=
  ⟨by decide, by decide!,
    C13_find_closest_point math_rat plan_ahead ⟨3 / 2, 0, 0⟩ (by decide)⟩

/-! ## Target selection inside a tick -/

theorem perceive_target (M : MathLib R) (cfg : Config R) (costmap_ : Costmap2D R)
    (inp : TickInput R) (p : Planner R) (v : Percept R)
    (h : perceive M cfg costmap_ inp p = .ok v) :
    ∃ tgt, select_target M cfg (tick_local_plan inp p) (tick_actual_pos M cfg inp)
        (tick_lookahead_dist cfg inp) = .ok tgt ∧
      v.is_goal_target = tgt.is_goal_target ∧ v.iter_target = tgt.iter_target ∧
      v.target_yaw = tgt.target_yaw ∧ v.target_pos = tgt.target_pos ∧
      v.actual_pos = tick_actual_pos M cfg inp ∧
      v.lookahead_dist = tick_lookahead_dist cfg inp := by
  unfold perceive at h
  simp only [] at h
  split at h
  · cases h
  · split at h
    · cases h
    · split at h
      · cases h
      · split at h
        · cases h
        · rename_i tgt htgt _ _ _
          cases h
          exact ⟨tgt, htgt, rfl, rfl, rfl, rfl, rfl, rfl⟩

theorem select_target_goal (M : MathLib R) (cfg : Config R) (local_plan : List (Transform R))
    (actual_pos : Vector3 R) (lookahead_dist : R) (tgt : Target R)
    (h : select_target M cfg local_plan actual_pos lookahead_dist = .ok tgt)
    (hg : tgt.is_goal_target = true) :
    ∃ last, local_plan.getLast? = some last ∧ local_plan[tgt.iter_target]? = some last ∧
      tgt.iter_target + 1 = local_plan.length ∧ tgt.target_pos = last.origin ∧
      tgt.target_yaw = getYaw M last.basis := by
  unfold select_target at h
  simp only [] at h
  split at h
  · rename_i hgoal
    simp only [decide_eq_true_eq] at hgoal
    split at h
    · rename_i t ht
      cases h
      have hlt : (move_along_path M local_plan (find_closest_point M local_plan actual_pos).1
          cfg.max_goal_dist).1 < local_plan.length := by
        by_contra hc
        rw [List.getElem?_eq_none (by omega)] at ht
        cases ht
      refine ⟨t, ?_, ht, by simp only []; omega, rfl, rfl⟩
      rw [List.getLast?_eq_getElem?, ← ht]
      congr 1
      omega
    · cases h
  · split at h
    · cases h
      simp at hg
    · cases h

/-! ## C14 -/

/-- C14: whenever a tick selects goal-approach mode, the plan in the local frame is
not empty, the selected target index is its last index, the target position is the
position of its final point and the target yaw is the yaw of that point's own
orientation. -/
theorem C14_goal_target_is_final_point (M : MathLib R) (cfg : Config R)
    (costmap_ : Costmap2D R) (inp : TickInput R) (p : Planner R) (v : Percept R)
    (hv : perceive M cfg costmap_ inp p = .ok v) (hg : v.is_goal_target = true) :
    ∃ last, (tick_local_plan inp p).getLast? = some last ∧
      (tick_local_plan inp p)[v.iter_target]? = some last ∧
      v.iter_target + 1 = (tick_local_plan inp p).length ∧
      v.target_pos = last.origin ∧ v.target_yaw = getYaw M last.basis := by
  obtain ⟨tgt, htgt, h1, h2, h3, h4, _, _⟩ := perceive_target M cfg costmap_ inp p v hv
  rw [h1] at hg
  obtain ⟨last, hl1, hl2, hl3, hl4, hl5⟩ :=
    select_target_goal M cfg _ _ _ tgt htgt hg
  exact ⟨last, hl1, by rw [h2]; exact hl2, by rw [h2]; exact hl3, by rw [h4]; exact hl4,
    by rw [h3]; exact hl5⟩

/-- C14 witness: the robot at rest at the origin with the plan (0,0), (0.2,0) is in
goal-approach mode with the second point as its target. -/
theorem C14_goal_target_is_final_point_witness :
    perceive math_rat default_config (wall_costmap 100) rest_input (fresh_planner plan_near)
      = .ok goal_percept ∧ goal_percept.is_goal_target = true ∧
    ∃ last, (tick_local_plan rest_input (fresh_planner plan_near)).getLast? = some last ∧
      (tick_local_plan rest_input (fresh_planner plan_near))[goal_percept.iter_target]?
        = some last ∧
      goal_percept.iter_target + 1 = (tick_local_plan rest_input (fresh_planner plan_near)).length ∧
      goal_percept.target_pos = last.origin ∧
      goal_percept.target_yaw = getYaw math_rat last.basis :=
  ⟨by decide!, rfl,
    C14_goal_target_is_final_point math_rat default_config (wall_costmap 100) rest_input
      (fresh_planner plan_near) goal_percept (by decide!) rfl⟩

/-! ## C18 -/

theorem move_along_path_singleton (M : MathLib R) (t : Transform R) (dist : R) :
    (move_along_path M [t] 0 dist).1 = 0 := by
  simp only [move_along_path, List.drop_zero, move_along_path_loop]
  split <;> rfl

theorem select_target_singleton (M : MathLib R) (cfg : Config R) (t : Transform R)
    (actual_pos : Vector3 R) (lookahead_dist : R) :
    select_target M cfg [t] actual_pos lookahead_dist =
      .ok ⟨true, 0, getYaw M t.basis, t.origin⟩ := by
  have h1 : (find_closest_point M [t] actual_pos).1 = 0 := rfl
  unfold select_target
  simp only [h1, move_along_path_singleton, List.length_singleton, zero_add, ge_iff_le,
    le_refl, decide_True, if_true, List.getElem?_cons_zero]

/-- C18: for a plan of a single point `q`, every query position, every marching
distance and every configuration, the nearest-point search and the arc-length march
return index 0, the only index of the plan, and a tick with an odometry message
selects goal-approach mode with the target position and target yaw of that point
(in the local frame). -/
theorem C18_single_point_plan (M : MathLib R) (cfg : Config R) (costmap_ : Costmap2D R)
    (inp : TickInput R) (p : Planner R) (odom : Odometry R) (q : Transform R)
    (pos : Vector3 R) (dist : R) :
    (find_closest_point M [q] pos).1 = 0 ∧
    (move_along_path M [q] 0 dist).1 = 0 ∧
    ∃ v, perceive M cfg costmap_ inp { p with m_global_plan := [q], m_odometry := some odom }
        = .ok v ∧
      v.is_goal_target = true ∧ v.iter_target = 0 ∧
      v.target_pos = ((tick_global_to_local inp).mul q).origin ∧
      v.target_yaw = getYaw M ((tick_global_to_local inp).mul q).basis := by
  refine ⟨rfl, move_along_path_singleton M q dist, ?_⟩
  obtain ⟨v, hv⟩ := perceive_ok M cfg costmap_ inp
    { p with m_global_plan := [q], m_odometry := some odom } (by simp) (by simp)
  obtain ⟨tgt, htgt, h1, h2, h3, h4, _, _⟩ := perceive_target M cfg costmap_ inp _ v hv
  have hplan : tick_local_plan inp { p with m_global_plan := [q], m_odometry := some odom }
      = [(tick_global_to_local inp).mul q] := by
    simp [tick_local_plan, transform_plan]
  rw [hplan, select_target_singleton] at htgt
  cases htgt
  exact ⟨v, hv, h1, h2, h4, h3⟩

/-! ## C15 -/

theorem perceive_plan_ne_nil (M : MathLib R) (cfg : Config R) (costmap_ : Costmap2D R)
    (inp : TickInput R) (p : Planner R) (v : Percept R)
    (h : perceive M cfg costmap_ inp p = .ok v) : tick_local_plan inp p ≠ [] := by
  unfold perceive at h
  simp only [] at h
  split at h
  · cases h
  · split at h
    · cases h
    · split at h
      · cases h
      · split at h
        · cases h
        · rename_i back hback
          intro hnil
          have : (tick_local_plan inp p).getLast? = some back := hback
          rw [hnil] at this
          cases this

theorem select_target_is_goal (M : MathLib R) (cfg : Config R) (local_plan : List (Transform R))
    (actual_pos : Vector3 R) (lookahead_dist : R) (tgt : Target R)
    (h : select_target M cfg local_plan actual_pos lookahead_dist = .ok tgt) :
    (tgt.is_goal_target = true ↔
      (move_along_path M local_plan (find_closest_point M local_plan actual_pos).1
        cfg.max_goal_dist).1 + 1 ≥ local_plan.length) := by
  unfold select_target at h
  simp only [] at h
  split at h
  · rename_i hgoal
    simp only [decide_eq_true_eq] at hgoal
    split at h
    · cases h
      simp only [true_iff]
      exact hgoal
    · cases h
  · rename_i hgoal
    simp only [decide_eq_true_eq] at hgoal
    split at h
    · cases h
      simp only [Bool.false_eq_true, false_iff]
      exact hgoal
    · cases h

/-- C15 as stated fails: for the robot at rest at the origin and the plan
(0,0), (1,0), (0,0.3), the final point is 0.3 m from the predicted position, within
`max_goal_dist = 0.5`, and the tick selects tracking mode: the march of 0.5 m along
the plan from the nearest point (0,0) stops at the second point. -/
theorem C15_counterexample :
    (perceive math_rat default_config (wall_costmap 100) rest_input
        (fresh_planner plan_return)).map (fun v => (v.is_goal_target, v.actual_pos))
      = .ok (false, ⟨0, 0, 0⟩) ∧
    (tick_local_plan rest_input (fresh_planner plan_return)).getLast?
      = some (pose_at 0 (3 / 10)) ∧
    ((pose_at 0 (3 / 10)).origin.sub ⟨0, 0, 0⟩).length math_rat = 3 / 10 ∧
    (3 / 10 : ℚ) ≤ default_config.max_goal_dist := by
  refine ⟨?_, ?_, ?_, ?_⟩ <;> decide!

/-- C15 (amended): with `sqrt 0 = 0`, a tick selects goal-approach mode exactly when,
from the plan point nearest to the predicted position on, no point before the final
one has a cumulative segment length, measured from that nearest point, of
`max_goal_dist` or more; in particular, with a non-negative `sqrt`, it selects
goal-approach mode whenever the arc length of the plan from the nearest point to the
final point is below `max_goal_dist`. -/
theorem C15_goal_mode_by_arc_length (M : MathLib R) (cfg : Config R) (costmap_ : Costmap2D R)
    (inp : TickInput R) (p : Planner R) (v : Percept R) (h0 : M.sqrt 0 = 0)
    (hv : perceive M cfg costmap_ inp p = .ok v) :
    (v.is_goal_target = true ↔
      ∀ k, (find_closest_point M (tick_local_plan inp p) (tick_actual_pos M cfg inp)).1 ≤ k →
        k + 1 < (tick_local_plan inp p).length →
        arc_length M (tick_local_plan inp p)
          (find_closest_point M (tick_local_plan inp p) (tick_actual_pos M cfg inp)).1 k
          < cfg.max_goal_dist) ∧
    ((∀ x, 0 ≤ M.sqrt x) →
      arc_length M (tick_local_plan inp p)
        (find_closest_point M (tick_local_plan inp p) (tick_actual_pos M cfg inp)).1
        ((tick_local_plan inp p).length - 1) < cfg.max_goal_dist →
      v.is_goal_target = true) := by
  obtain ⟨tgt, htgt, h1, _, _, _, _, _⟩ := perceive_target M cfg costmap_ inp p v hv
  have hne := perceive_plan_ne_nil M cfg costmap_ inp p v hv
  have hn := find_closest_point_lt M (tick_local_plan inp p) (tick_actual_pos M cfg inp) hne
  obtain ⟨s1, s2, s3, s4, _⟩ := move_along_path_spec M (tick_local_plan inp p) _
    cfg.max_goal_dist hn h0
  have hiff := select_target_is_goal M cfg _ _ _ tgt htgt
  rw [h1, hiff]
  have hmain : (move_along_path M (tick_local_plan inp p)
        (find_closest_point M (tick_local_plan inp p) (tick_actual_pos M cfg inp)).1
        cfg.max_goal_dist).1 + 1 ≥ (tick_local_plan inp p).length ↔
      ∀ k, (find_closest_point M (tick_local_plan inp p) (tick_actual_pos M cfg inp)).1 ≤ k →
        k + 1 < (tick_local_plan inp p).length →
        arc_length M (tick_local_plan inp p)
          (find_closest_point M (tick_local_plan inp p) (tick_actual_pos M cfg inp)).1 k
          < cfg.max_goal_dist := by
    constructor
    · intro hj k hk hk2
      exact s3 k hk (by omega)
    · intro hall
      rcases s4 with h | h
      · by_contra hc
        exact absurd (hall _ s1 (by omega)) (not_lt.mpr h)
      · omega
  refine ⟨hmain, ?_⟩
  intro hs hlt
  apply hmain.mpr
  intro k _ hk2
  exact lt_of_le_of_lt
    (arc_length_mono M hs _ _ k ((tick_local_plan inp p).length - 1) (by omega)) hlt

/-- C15 witness: the robot at rest at the origin with the plan (0,0), (0.2,0): the arc
length from the nearest point to the final point is 0.2 < 0.5 and the tick is in
goal-approach mode. -/
theorem C15_goal_mode_by_arc_length_witness :
    math_rat.sqrt 0 = 0 ∧
    perceive math_rat default_config (wall_costmap 100) rest_input (fresh_planner plan_near)
      = .ok goal_percept ∧
    arc_length math_rat (tick_local_plan rest_input (fresh_planner plan_near))
        (find_closest_point math_rat (tick_local_plan rest_input (fresh_planner plan_near))
          (tick_actual_pos math_rat default_config rest_input)).1
        ((tick_local_plan rest_input (fresh_planner plan_near)).length - 1) = 1 / 5 ∧
    ((goal_percept.is_goal_target = true ↔
      ∀ k, (find_closest_point math_rat (tick_local_plan rest_input (fresh_planner plan_near))
            (tick_actual_pos math_rat default_config rest_input)).1 ≤ k →
        k + 1 < (tick_local_plan rest_input (fresh_planner plan_near)).length →
        arc_length math_rat (tick_local_plan rest_input (fresh_planner plan_near))
          (find_closest_point math_rat (tick_local_plan rest_input (fresh_planner plan_near))
            (tick_actual_pos math_rat default_config rest_input)).1 k
          < default_config.max_goal_dist) ∧
    ((∀ x, 0 ≤ math_rat.sqrt x) →
      arc_length math_rat (tick_local_plan rest_input (fresh_planner plan_near))
        (find_closest_point math_rat (tick_local_plan rest_input (fresh_planner plan_near))
          (tick_actual_pos math_rat default_config rest_input)).1
        ((tick_local_plan rest_input (fresh_planner plan_near)).length - 1)
        < default_config.max_goal_dist →
      goal_percept.is_goal_target = true)) :=
  ⟨by decide!, by decide!, by decide!,
    C15_goal_mode_by_arc_length math_rat default_config (wall_costmap 100) rest_input
      (fresh_planner plan_near) goal_percept (by decide!) (by decide!)⟩

/-! ## C16 -/

theorem limit_backup_not_fired (cfg : Config R) (s : state_t) (v : Percept R) (x : R)
    (hb : ¬ (v.is_goal_target = true ∧ cfg.max_backup_dist > 0 ∧
      v.pos_error.x < (if s = state_t.STATE_TURNING then 0 else -1 * cfg.max_backup_dist))) :
    limit_backup cfg s v x = (x, if s = state_t.STATE_TURNING then state_t.STATE_IDLE else s) := by
  unfold limit_backup
  rw [if_neg hb]
  split <;> rfl

theorem goal_forward_term (M : MathLib R) (cfg : Config R) (s : state_t) (v : Percept R)
    (hg : v.is_goal_target = true) (hd : cfg.differential_drive = true)
    (hb : ¬ (cfg.max_backup_dist > 0 ∧
      v.pos_error.x < (if s = state_t.STATE_TURNING then 0 else -1 * cfg.max_backup_dist))) :
    (velocity_law M cfg s v).control_vel_x = cfg.pos_x_gain * v.pos_error.x ∧
      (velocity_law M cfg s v).is_emergency_brake = false := by
  have hf : forward_term M cfg s v = (v.pos_error.x * cfg.pos_x_gain, false) := by
    unfold forward_term
    simp [hg]
  constructor
  · rw [velocity_law_vel_x, hf]
    simp only [hd, if_true]
    rw [limit_backup_not_fired cfg s v _ (fun h => hb ⟨h.2.1, h.2.2⟩)]
    simp only []
    ring
  · unfold velocity_law
    simp only [hf]

/-- C16: for every tick in goal-approach mode with differential drive in which the
backing-up guard does not fire, the raw forward control term is `pos_x_gain` times the
body-frame x position error to the target and the emergency flag is down; the term is
the same whatever the obstacle scan reports (flag, distance and peak cost), and it is
zero when the error is zero. This holds whether or not the tick ends in STUCK. -/
theorem C16_goal_forward_term (M : MathLib R) (cfg : Config R) (costmap_ : Costmap2D R)
    (inp : TickInput R) (p : Planner R) (v : Percept R)
    (hv : perceive M cfg costmap_ inp p = .ok v)
    (hg : v.is_goal_target = true) (hd : cfg.differential_drive = true)
    (hb : ¬ (cfg.max_backup_dist > 0 ∧
      v.pos_error.x <
        (if p.m_state = state_t.STATE_TURNING then 0 else -1 * cfg.max_backup_dist))) :
    ∃ c, raw_control M cfg costmap_ inp p = .ok c ∧
      c.control_vel_x = cfg.pos_x_gain * v.pos_error.x ∧
      c.is_emergency_brake = false ∧
      (v.pos_error.x = 0 → c.control_vel_x = 0) ∧
      ∀ (have_obstacle : Bool) (obstacle_dist obstacle_cost : R),
        (velocity_law M cfg p.m_state
          { v with have_obstacle := have_obstacle, obstacle_dist := obstacle_dist,
                   obstacle_cost := obstacle_cost }).control_vel_x
          = cfg.pos_x_gain * v.pos_error.x := by
  obtain ⟨h1, h2⟩ := goal_forward_term M cfg p.m_state v hg hd hb
  refine ⟨_, raw_control_of_perceive M cfg costmap_ inp p v hv, h1, h2, ?_, ?_⟩
  · intro hz
    rw [h1, hz, mul_zero]
  · intro ho od oc
    exact (goal_forward_term M cfg p.m_state
      { v with have_obstacle := ho, obstacle_dist := od, obstacle_cost := oc } hg hd hb).1

/-- C16 witness: the differential-drive robot at rest at the origin with the plan
(0,0), (0.2,0); its raw forward term is 1 * 0.2. -/
theorem C16_goal_forward_term_witness :
    perceive math_rat default_config (wall_costmap 100) rest_input (fresh_planner plan_near)
      = .ok goal_percept ∧
    (raw_control math_rat default_config (wall_costmap 100) rest_input
      (fresh_planner plan_near)).map (fun c => c.control_vel_x) = .ok (1 / 5) ∧
    ∃ c, raw_control math_rat default_config (wall_costmap 100) rest_input
        (fresh_planner plan_near) = .ok c ∧
      c.control_vel_x = default_config.pos_x_gain * goal_percept.pos_error.x ∧
      c.is_emergency_brake = false ∧
      (goal_percept.pos_error.x = 0 → c.control_vel_x = 0) ∧
      ∀ (have_obstacle : Bool) (obstacle_dist obstacle_cost : ℚ),
        (velocity_law math_rat default_config (fresh_planner plan_near).m_state
          { goal_percept with have_obstacle := have_obstacle, obstacle_dist := obstacle_dist,
                              obstacle_cost := obstacle_cost }).control_vel_x
          = default_config.pos_x_gain * goal_percept.pos_error.x :=
  ⟨by decide!, by decide!,
    C16_goal_forward_term math_rat default_config (wall_costmap 100) rest_input
      (fresh_planner plan_near) goal_percept (by decide!) rfl rfl (by decide!)⟩

/-! ## C17 -/

theorem limit_curve_vel_le (cfg : Config R) (lookahead_dist yaw_error x c : R)
    (h : limit_curve_vel cfg lookahead_dist yaw_error x = some c) : c ≤ x := by
  unfold limit_curve_vel at h
  split at h
  · split at h
    · cases h
    · cases h
      exact le_refl _
  · cases h
    exact min_le_left _ _

theorem tracking_vel_x_wait (M : MathLib R) (cfg : Config R) (s : state_t) (v : Percept R)
    (hs : s ≠ state_t.STATE_TRANSLATING) (hy : |v.yaw_error| > cfg.start_yaw_error) :
    (tracking_vel_x M cfg s v).1 = 0 := by
  unfold tracking_vel_x
  simp only [ne_eq, hs, not_false_eq_true, hy, and_self, if_true]
  cases hl : limit_curve_vel cfg v.lookahead_dist v.yaw_error 0 with
  | none =>
    simp only [Option.map_none', ite_self]
    split
    · rename_i c hc
      split at hc
      · cases hc
        simp
      · cases hc
    · rfl
  | some c0 =>
    have hc0 : c0 ≤ 0 := limit_curve_vel_le cfg _ _ _ _ hl
    simp only [Option.map_some']
    split
    · rename_i c hc
      have hle : c ≤ 0 := by
        split at hc
        · cases hc
          exact le_refl _
        · split at hc
          · split at hc
            · cases hc
              exact le_trans (min_le_left _ _) (le_trans (min_le_left _ _) hc0)
            · cases hc
              exact le_trans (min_le_left _ _) hc0
          · split at hc
            · cases hc
              exact le_trans (min_le_left _ _) hc0
            · cases hc
              exact hc0
      simp only []
      exact max_eq_right hle
    · rfl

/-- C17 as stated fails for the holonomic drive: the robot at rest at the origin, in
state IDLE, with the plan to its left (heading error pi/2 > `start_yaw_error`) and a
band of cost 100 starting one cell ahead (no obstacle reported) is in tracking mode
and hands the raw forward term -100/153 * 0.1 to the smoothing stage. -/
theorem C17_counterexample :
    (perceive math_rat holonomic_config (soft_wall_costmap 21) rest_input
        (fresh_planner plan_left)).map
        (fun v => (v.is_goal_target, v.have_obstacle,
          decide (|v.yaw_error| > holonomic_config.start_yaw_error)))
      = .ok (false, false, true) ∧
    (fresh_planner plan_left).m_state ≠ state_t.STATE_TRANSLATING ∧
    (raw_control math_rat holonomic_config (soft_wall_costmap 21) rest_input
        (fresh_planner plan_left)).map (fun c => (c.control_vel_x, c.stuck))
      = .ok (-(10 / 153), false) := by
  refine ⟨?_, ?_, ?_⟩ <;> decide!

/-- C17 (amended): for every tick in tracking mode whose incoming state is not
TRANSLATING and whose absolute heading error exceeds `start_yaw_error`, the raw forward
control term handed to the smoothing stage is zero for the differential drive; for the
holonomic drive it is zero unless the robot is stopped
(`|start_vel_x| ≤ trans_stopped_vel`) with a heading error above pi/6, where it is
`-delta_cost_x * cost_x_gain`. -/
theorem C17_wait_to_align (M : MathLib R) (cfg : Config R) (costmap_ : Costmap2D R)
    (inp : TickInput R) (p : Planner R) (v : Percept R)
    (hv : perceive M cfg costmap_ inp p = .ok v)
    (hg : v.is_goal_target = false) (hs : p.m_state ≠ state_t.STATE_TRANSLATING)
    (hy : |v.yaw_error| > cfg.start_yaw_error) :
    ∃ c, raw_control M cfg costmap_ inp p = .ok c ∧
      c.control_vel_x =
        if cfg.differential_drive = false ∧ |v.start_vel_x| ≤ cfg.trans_stopped_vel
            ∧ |v.yaw_error| > M.M_PI / 6
        then -(v.delta_cost_x * cfg.cost_x_gain) else 0 := by
  refine ⟨_, raw_control_of_perceive M cfg costmap_ inp p v hv, ?_⟩
  have hf : (forward_term M cfg p.m_state v).1 = 0 := by
    unfold forward_term
    simp only [hg, Bool.false_eq_true, if_false]
    exact tracking_vel_x_wait M cfg p.m_state v hs hy
  rw [velocity_law_vel_x, hf]
  cases hdd : cfg.differential_drive with
  | true =>
    simp only [if_true, Bool.true_eq_false, false_and, if_false]
    rw [limit_backup_tracking cfg _ v _ hg]
  | false =>
    simp only [Bool.false_eq_true, if_false, true_and]
    rw [holonomic_law_vel_x]
    have hrot := tracking_holonomic_rotating_iff M cfg p.m_state v 0 0 hg
    simp only [limit_backup_tracking cfg _ v _ hg] at hrot ⊢
    simp only [hrot, zero_sub]

/-- C17 witness: the differential-drive robot at rest inside the wall, in state IDLE,
with the plan to its left (heading error pi/2). -/
theorem C17_wait_to_align_witness :
    perceive math_rat default_config (wall_costmap 20) rest_input (fresh_planner plan_left)
      = .ok (wall_percept (pi_rat / 2)) ∧
    |(wall_percept (pi_rat / 2)).yaw_error| > default_config.start_yaw_error ∧
    ∃ c, raw_control math_rat default_config (wall_costmap 20) rest_input
        (fresh_planner plan_left) = .ok c ∧
      c.control_vel_x =
        if default_config.differential_drive = false
            ∧ |(wall_percept (pi_rat / 2)).start_vel_x| ≤ default_config.trans_stopped_vel
            ∧ |(wall_percept (pi_rat / 2)).yaw_error| > math_rat.M_PI / 6
        then -((wall_percept (pi_rat / 2)).delta_cost_x * default_config.cost_x_gain) else 0 :=
  ⟨by decide!, by decide!,
    C17_wait_to_align math_rat default_config (wall_costmap 20) rest_input
      (fresh_planner plan_left) (wall_percept (pi_rat / 2)) (by decide!) rfl (by decide)
      (by decide!)⟩

/-! ## C19 -/

/-- What a tick does to the last command: a tick that does not end in STUCK stores
the command it returns, its control values and its time; a tick that ends in STUCK
leaves all three as they were. -/
theorem tick_last_command (M : MathLib R) (cfg : Config R) (costmap_ : Costmap2D R)
    (inp : TickInput R) (p : Planner R) (r : TickResult R)
    (hr : computeVelocityCommands M cfg costmap_ inp p = .ok r) :
    (r.planner.m_state ≠ state_t.STATE_STUCK →
      r.planner.m_last_cmd_vel = r.cmd_vel.twist ∧ r.planner.m_last_time = inp.time_now ∧
      ∃ v, perceive M cfg costmap_ inp p = .ok v ∧
        r.planner.m_last_control_values =
          shape_control M cfg p v.dt (velocity_law M cfg p.m_state v)) ∧
    (r.planner.m_state = state_t.STATE_STUCK →
      r.planner.m_last_cmd_vel = p.m_last_cmd_vel ∧ r.planner.m_last_time = p.m_last_time ∧
      r.planner.m_last_control_values = p.m_last_control_values) := by
  obtain ⟨v, hv, h | h⟩ := (computeVelocityCommands_ok_iff M cfg costmap_ inp p r).mp hr
  · rw [h.2]
    exact ⟨fun hne => absurd rfl hne, fun _ => ⟨rfl, rfl, rfl⟩⟩
  · have hns := velocity_law_state_of_not_stuck M cfg p.m_state v h.1
    rw [h.2]
    exact ⟨fun _ => ⟨rfl, rfl, v, hv, rfl⟩, fun hs => absurd hs hns⟩

/-- C19 (the code breaks it): the tick of the robot at rest inside the wall, whose
previous command is -0.1 m/s at time 0, ends in STUCK at time 1 and returns the zero
command, while `m_last_cmd_vel`, `m_last_control_values` and `m_last_time` keep their
values from before the tick: the return of line 538 comes before lines 586-590. -/
theorem C19_stuck_tick_keeps_last_command :
    (computeVelocityCommands math_rat default_config (wall_costmap 20) rest_input
        reversing_planner).map
        (fun r => (r.planner.m_state, r.cmd_vel.twist, r.planner.m_last_cmd_vel,
          r.planner.m_last_control_values, r.planner.m_last_time))
      = .ok (state_t.STATE_STUCK, Twist.zero, ⟨⟨-(1 / 10), 0, 0⟩, Vector3.zero⟩,
          ⟨-(1 / 10), 0, 0⟩, 0) ∧
    (⟨⟨-(1 / 10), 0, 0⟩, Vector3.zero⟩ : Twist ℚ) ≠ Twist.zero ∧
    rest_input.time_now ≠ 0 := by
  refine ⟨?_, ?_, ?_⟩ <;> decide!

/-! ## C20 -/

theorem velocity_law_emergency (M : MathLib R) (cfg : Config R) (s : state_t) (v : Percept R) :
    ((velocity_law M cfg s v).is_emergency_brake = true ↔
      v.is_goal_target = false ∧ v.have_obstacle = true ∧ v.start_vel_x > 0 ∧
      9 / 10 * cfg.acc_lim_x * M.sqrt (2 * max v.obstacle_dist 0 / (9 / 10 * cfg.acc_lim_x))
        < 1 / 2 * v.start_vel_x) := by
  have h : (velocity_law M cfg s v).is_emergency_brake = (forward_term M cfg s v).2 := rfl
  rw [h]
  unfold forward_term
  cases hg : v.is_goal_target with
  | true => simp
  | false =>
    simp only [Bool.false_eq_true, if_false, true_and]
    unfold tracking_vel_x
    simp only []
    have hflag : ∀ (o : Option R) (b : Bool),
        (match o with
          | some c => (max c 0, b)
          | none => ((0 : R), b)).2 = b := by
      intro o b
      cases o <;> rfl
    rw [hflag]
    simp only [obstacle_max_vel_x, Bool.and_eq_true, decide_eq_true_eq, and_assoc]

theorem shape_control_x_of_no_projection (M : MathLib R) (cfg : Config R) (p : Planner R)
    (dt : R) (c : Control R) (h : cfg.constrain_final = false ∨ p.m_is_goal_reached = false) :
    (shape_control M cfg p dt c).x = accel_limited_vel_x cfg p dt c := by
  have hnp : (cfg.constrain_final && p.m_is_goal_reached) = false := by
    rcases h with h1 | h1 <;> simp [h1]
  simp only [shape_control, hnp, Bool.false_eq_true, if_false, accel_limited_vel_x,
    emergency_brake_active]

/-- C20: for every tick that does not end in STUCK, the forward value produced by the
acceleration clamp is at least `m_last_cmd_vel.linear.x - L * dt`, where `L` is
`emergency_acc_lim_x` exactly when the tick is in tracking mode, an obstacle is
reported, the measured forward speed is > 0, the obstacle stopping cap
`a * sqrt(2 * max(d, 0) / a)` with `a = 0.9 * acc_lim_x` is below half that speed and
the raw forward term is non-negative, and `L` is `acc_lim_x` otherwise. The tick
returns, and without the final-approach projection that value is the forward control
value it stores. -/
theorem C20_deceleration_limit (M : MathLib R) (cfg : Config R) (costmap_ : Costmap2D R)
    (inp : TickInput R) (p : Planner R) (v : Percept R)
    (hv : perceive M cfg costmap_ inp p = .ok v)
    (hns : (velocity_law M cfg p.m_state v).stuck = false) :
    accel_limited_vel_x cfg p v.dt (velocity_law M cfg p.m_state v) ≥
      p.m_last_cmd_vel.linear.x -
        (if v.is_goal_target = false ∧ v.have_obstacle = true ∧ v.start_vel_x > 0 ∧
            9 / 10 * cfg.acc_lim_x *
              M.sqrt (2 * max v.obstacle_dist 0 / (9 / 10 * cfg.acc_lim_x))
              < 1 / 2 * v.start_vel_x ∧
            (velocity_law M cfg p.m_state v).control_vel_x ≥ 0
         then cfg.emergency_acc_lim_x else cfg.acc_lim_x) * v.dt ∧
    ∃ r, computeVelocityCommands M cfg costmap_ inp p = .ok r ∧
      r.planner.m_state ≠ state_t.STATE_STUCK ∧
      (cfg.constrain_final = false ∨ p.m_is_goal_reached = false →
        r.planner.m_last_control_values.x =
          accel_limited_vel_x cfg p v.dt (velocity_law M cfg p.m_state v)) := by
  constructor
  · have hL : (if emergency_brake_active (velocity_law M cfg p.m_state v) = true
          then cfg.emergency_acc_lim_x else cfg.acc_lim_x) =
        (if v.is_goal_target = false ∧ v.have_obstacle = true ∧ v.start_vel_x > 0 ∧
            9 / 10 * cfg.acc_lim_x *
              M.sqrt (2 * max v.obstacle_dist 0 / (9 / 10 * cfg.acc_lim_x))
              < 1 / 2 * v.start_vel_x ∧
            (velocity_law M cfg p.m_state v).control_vel_x ≥ 0
         then cfg.emergency_acc_lim_x else cfg.acc_lim_x) := by
      have hiff : emergency_brake_active (velocity_law M cfg p.m_state v) = true ↔
          (v.is_goal_target = false ∧ v.have_obstacle = true ∧ v.start_vel_x > 0 ∧
            9 / 10 * cfg.acc_lim_x *
              M.sqrt (2 * max v.obstacle_dist 0 / (9 / 10 * cfg.acc_lim_x))
              < 1 / 2 * v.start_vel_x ∧
            (velocity_law M cfg p.m_state v).control_vel_x ≥ 0) := by
        unfold emergency_brake_active
        rw [Bool.and_eq_true, velocity_law_emergency, decide_eq_true_eq]
        simp only [and_assoc]
      by_cases hc : emergency_brake_active (velocity_law M cfg p.m_state v) = true
      · rw [if_pos hc, if_pos (hiff.mp hc)]
      · rw [if_neg hc, if_neg (fun h => hc (hiff.mpr h))]
    rw [← hL]
    unfold accel_limited_vel_x
    exact le_max_right _ _
  · refine ⟨_, (computeVelocityCommands_ok_iff M cfg costmap_ inp p _).mpr
      ⟨v, hv, Or.inr ⟨hns, rfl⟩⟩, velocity_law_state_of_not_stuck M cfg p.m_state v hns, ?_⟩
    intro hproj
    exact shape_control_x_of_no_projection M cfg p v.dt _ hproj

/-- C20 witness: the robot cruising at 0.4 m/s with the wall 0.5 m ahead and
`emergency_acc_lim_x = 2`: the emergency condition holds, and the clamped forward value
is 0.4 - 2 * 0.1. -/
theorem C20_deceleration_limit_witness :
    perceive math_rat emergency_config (wall_costmap 22) (moving_input (2 / 5)) cruising_planner
      = .ok brake_percept ∧
    accel_limited_vel_x emergency_config cruising_planner brake_percept.dt
      (velocity_law math_rat emergency_config cruising_planner.m_state brake_percept) = 1 / 5 ∧
    (accel_limited_vel_x emergency_config cruising_planner brake_percept.dt
        (velocity_law math_rat emergency_config cruising_planner.m_state brake_percept) ≥
      cruising_planner.m_last_cmd_vel.linear.x -
        (if brake_percept.is_goal_target = false ∧ brake_percept.have_obstacle = true ∧
            brake_percept.start_vel_x > 0 ∧
            9 / 10 * emergency_config.acc_lim_x *
              math_rat.sqrt (2 * max brake_percept.obstacle_dist 0
                / (9 / 10 * emergency_config.acc_lim_x))
              < 1 / 2 * brake_percept.start_vel_x ∧
            (velocity_law math_rat emergency_config cruising_planner.m_state
              brake_percept).control_vel_x ≥ 0
         then emergency_config.emergency_acc_lim_x else emergency_config.acc_lim_x)
          * brake_percept.dt ∧
    ∃ r, computeVelocityCommands math_rat emergency_config (wall_costmap 22)
        (moving_input (2 / 5)) cruising_planner = .ok r ∧
      r.planner.m_state ≠ state_t.STATE_STUCK ∧
      (emergency_config.constrain_final = false ∨ cruising_planner.m_is_goal_reached = false →
        r.planner.m_last_control_values.x =
          accel_limited_vel_x emergency_config cruising_planner brake_percept.dt
            (velocity_law math_rat emergency_config cruising_planner.m_state brake_percept))) :=
  ⟨by decide!, by decide!,
    C20_deceleration_limit math_rat emergency_config (wall_costmap 22) (moving_input (2 / 5))
      cruising_planner brake_percept (by decide!) (by decide!)⟩

/-! ## C21 -/

theorem limit_backup_fired (cfg : Config R) (s : state_t) (v : Percept R) (x : R)
    (hg : v.is_goal_target = true) (hm : cfg.max_backup_dist > 0)
    (hx : v.pos_error.x < -cfg.max_backup_dist ∨
      (s = state_t.STATE_TURNING ∧ v.pos_error.x < 0)) :
    limit_backup cfg s v x = (0, state_t.STATE_TURNING) := by
  have hcond : v.is_goal_target = true ∧ cfg.max_backup_dist > 0 ∧
      v.pos_error.x < (if s = state_t.STATE_TURNING then 0 else -1 * cfg.max_backup_dist) := by
    refine ⟨hg, hm, ?_⟩
    split
    · rcases hx with h | h
      · linarith
      · exact h.2
    · rename_i hs
      rcases hx with h | h
      · linarith
      · exact absurd h.1 hs
  unfold limit_backup
  rw [if_pos hcond]

theorem velocity_law_m_state (M : MathLib R) (cfg : Config R) (s : state_t) (v : Percept R) :
    (velocity_law M cfg s v).m_state =
      if (velocity_law M cfg s v).stuck = true then state_t.STATE_STUCK
      else if cfg.differential_drive = true then
        (differential_law M cfg (limit_backup cfg s v 0).2 v).2
      else (holonomic_law M cfg (limit_backup cfg s v 0).2 v 0).2.2.2 := by
  have hb : (limit_backup cfg s v (forward_term M cfg s v).1).2 = (limit_backup cfg s v 0).2 := by
    rw [limit_backup_state, limit_backup_state]
  have hh : (holonomic_law M cfg (limit_backup cfg s v 0).2 v
      (limit_backup cfg s v (forward_term M cfg s v).1).1).2.2.2 =
      (holonomic_law M cfg (limit_backup cfg s v 0).2 v 0).2.2.2 := by
    rw [holonomic_law_state, holonomic_law_state]
  cases hst : (velocity_law M cfg s v).stuck with
  | true =>
    unfold velocity_law at hst ⊢
    simp only [] at hst ⊢
    rw [hst]
    simp
  | false =>
    unfold velocity_law at hst ⊢
    simp only [] at hst ⊢
    rw [hst]
    simp only [Bool.false_eq_true, if_false, hb]
    cases cfg.differential_drive
    · simp only [Bool.false_eq_true, if_false]
      exact hh
    · simp only [if_true]

/-- C21: for every tick in goal-approach mode with `max_backup_dist > 0` in which the
body-frame x error to the target is below `-max_backup_dist`, or below 0 when the
incoming state is TURNING, the raw forward control term handed to the smoothing stage
is zero, for the differential and for the holonomic drive. -/
theorem C21_backup_guard_zero (M : MathLib R) (cfg : Config R) (costmap_ : Costmap2D R)
    (inp : TickInput R) (p : Planner R) (v : Percept R)
    (hv : perceive M cfg costmap_ inp p = .ok v)
    (hg : v.is_goal_target = true) (hm : cfg.max_backup_dist > 0)
    (hx : v.pos_error.x < -cfg.max_backup_dist ∨
      (p.m_state = state_t.STATE_TURNING ∧ v.pos_error.x < 0)) :
    ∃ c, raw_control M cfg costmap_ inp p = .ok c ∧ c.control_vel_x = 0 := by
  refine ⟨_, raw_control_of_perceive M cfg costmap_ inp p v hv, ?_⟩
  rw [velocity_law_vel_x, limit_backup_fired cfg p.m_state v _ hg hm hx]
  cases cfg.differential_drive with
  | true => simp
  | false =>
    simp only [Bool.false_eq_true, if_false]
    rw [holonomic_law_vel_x, holonomic_law_state]
    simp


/-- C21 witness: the holonomic robot moving forward at 0.4 m/s with its goal 1.2 m
behind the predicted position and `max_backup_dist = 0.5`. -/
theorem C21_backup_guard_zero_witness :
    perceive math_rat holonomic_config (wall_costmap 100) (moving_input (2 / 5))
      (fresh_planner plan_behind) = .ok behind_percept ∧
    behind_percept.pos_error.x < -holonomic_config.max_backup_dist ∧
    ∃ c, raw_control math_rat holonomic_config (wall_costmap 100) (moving_input (2 / 5))
      (fresh_planner plan_behind) = .ok c ∧ c.control_vel_x = 0 :=
  ⟨by decide!, by decide!,
    C21_backup_guard_zero math_rat holonomic_config (wall_costmap 100) (moving_input (2 / 5))
      (fresh_planner plan_behind) behind_percept (by decide!) rfl (by decide!)
      (Or.inl (by decide!))⟩

/-! ## C22 -/

/-- C22 as stated fails for the differential drive: the robot moving forward at
0.4 m/s (above `2 * trans_stopped_vel = 0.1`) with its goal 1.2 m behind the
predicted position and `max_backup_dist = 0.5` is in goal-approach mode, and its tick
ends in state TRANSLATING. -/
theorem C22_counterexample :
    (perceive math_rat default_config (wall_costmap 100) (moving_input (2 / 5))
        (fresh_planner plan_behind)).map
        (fun v => (v.is_goal_target, decide (v.pos_error.x < -default_config.max_backup_dist)))
      = .ok (true, true) ∧
    default_config.max_backup_dist > 0 ∧
    (computeVelocityCommands math_rat default_config (wall_costmap 100) (moving_input (2 / 5))
        (fresh_planner plan_behind)).map (fun r => r.planner.m_state)
      = .ok state_t.STATE_TRANSLATING := by
  refine ⟨?_, ?_, ?_⟩ <;> decide!

/-- C22 (amended): for every tick in goal-approach mode with `max_backup_dist > 0` in
which the body-frame x error to the target is below `-max_backup_dist`, the tick
returns and the controller state it leaves is TURNING for the holonomic drive at any
measured speed, and for the differential drive when
`|start_vel_x| ≤ 2 * trans_stopped_vel`; for the differential drive with
`|start_vel_x| > 2 * trans_stopped_vel` it is TRANSLATING. -/
theorem C22_backup_guard_state (M : MathLib R) (cfg : Config R) (costmap_ : Costmap2D R)
    (inp : TickInput R) (p : Planner R) (v : Percept R)
    (hv : perceive M cfg costmap_ inp p = .ok v)
    (hg : v.is_goal_target = true) (hm : cfg.max_backup_dist > 0)
    (hx : v.pos_error.x < -cfg.max_backup_dist) :
    ∃ r, computeVelocityCommands M cfg costmap_ inp p = .ok r ∧
      r.planner.m_state =
        if cfg.differential_drive = true ∧ |v.start_vel_x| > 2 * cfg.trans_stopped_vel
        then state_t.STATE_TRANSLATING else state_t.STATE_TURNING := by
  have hb := limit_backup_fired cfg p.m_state v 0 hg hm (Or.inl hx)
  have hdrive : (if cfg.differential_drive = true then
        (differential_law M cfg (limit_backup cfg p.m_state v 0).2 v).2
      else (holonomic_law M cfg (limit_backup cfg p.m_state v 0).2 v 0).2.2.2) =
      if cfg.differential_drive = true ∧ |v.start_vel_x| > 2 * cfg.trans_stopped_vel
      then state_t.STATE_TRANSLATING else state_t.STATE_TURNING := by
    rw [hb]
    cases cfg.differential_drive with
    | true =>
      simp only [if_true, true_and, differential_law, reduceCtorEq, if_false]
      split <;> rfl
    | false =>
      simp only [Bool.false_eq_true, if_false, false_and]
      rw [holonomic_law_state]
      simp
  have hns : (velocity_law M cfg p.m_state v).stuck = false := by
    cases hst : (velocity_law M cfg p.m_state v).stuck with
    | false => rfl
    | true =>
      have h4 := ((velocity_law_stuck_iff M cfg p.m_state v).mp hst).2.2.2.1
      rw [hdrive] at h4
      split at h4 <;> cases h4
  refine ⟨_, (computeVelocityCommands_ok_iff M cfg costmap_ inp p _).mpr
    ⟨v, hv, Or.inr ⟨hns, rfl⟩⟩, ?_⟩
  simp only []
  rw [velocity_law_m_state, hns]
  simp only [Bool.false_eq_true, if_false]
  exact hdrive

/-- C22 witness: the holonomic robot moving forward at 0.4 m/s with its goal 1.2 m
behind the predicted position; its tick ends in TURNING. -/
theorem C22_backup_guard_state_witness :
    perceive math_rat holonomic_config (wall_costmap 100) (moving_input (2 / 5))
      (fresh_planner plan_behind) = .ok behind_percept ∧
    (computeVelocityCommands math_rat holonomic_config (wall_costmap 100)
        (moving_input (2 / 5)) (fresh_planner plan_behind)).map (fun r => r.planner.m_state)
      = .ok state_t.STATE_TURNING ∧
    ∃ r, computeVelocityCommands math_rat holonomic_config (wall_costmap 100)
        (moving_input (2 / 5)) (fresh_planner plan_behind) = .ok r ∧
      r.planner.m_state =
        if holonomic_config.differential_drive = true
            ∧ |behind_percept.start_vel_x| > 2 * holonomic_config.trans_stopped_vel
        then state_t.STATE_TRANSLATING else state_t.STATE_TURNING :=
  ⟨by decide!, by decide!,
    C22_backup_guard_state math_rat holonomic_config (wall_costmap 100) (moving_input (2 / 5))
      (fresh_planner plan_behind) behind_percept (by decide!) rfl (by decide!) (by decide!)⟩

/-! ## C23 -/

theorem perceive_gradients (M : MathLib R) (cfg : Config R) (costmap_ : Costmap2D R)
    (inp : TickInput R) (p : Planner R) (v : Percept R)
    (h : perceive M cfg costmap_ inp p = .ok v) :
    v.center_cost = (cost_gradients M costmap_ (tick_actual_pos M cfg inp)
      (predicted_pose M cfg inp) (tick_cost_y_lookahead_dist cfg inp)).center_cost ∧
    v.delta_cost_x = (cost_gradients M costmap_ (tick_actual_pos M cfg inp)
      (predicted_pose M cfg inp) (tick_cost_y_lookahead_dist cfg inp)).delta_cost_x ∧
    v.delta_cost_y = (cost_gradients M costmap_ (tick_actual_pos M cfg inp)
      (predicted_pose M cfg inp) (tick_cost_y_lookahead_dist cfg inp)).delta_cost_y ∧
    v.delta_cost_yaw = (cost_gradients M costmap_ (tick_actual_pos M cfg inp)
      (predicted_pose M cfg inp) (tick_cost_y_lookahead_dist cfg inp)).delta_cost_yaw ∧
    v.max_trans_vel =
      max (cfg.max_vel_trans * (cfg.max_cost - v.center_cost) / cfg.max_cost)
        cfg.min_vel_trans := by
  unfold perceive at h
  simp only [] at h
  split at h
  · cases h
  · split at h
    · cases h
    · split at h
      · cases h
      · split at h
        · cases h
        · cases h
          exact ⟨rfl, rfl, rfl, rfl, rfl⟩

/-- C23 as stated fails for the x gradient: for the robot at rest at the origin inside
the wall that starts at x = 0, the average line cost to the point 0.3 m ahead is
254/255 and to the point 0.3 m behind is 254/765; the tick computes
`delta_cost_x = 1016/459`, their difference divided by 0.3, twice the difference
divided by `2 * 0.3`. -/
theorem C23_counterexample :
    (perceive math_rat default_config (wall_costmap 20) rest_input
        (fresh_planner plan_ahead)).map (fun v => v.delta_cost_x) = .ok (1016 / 459) ∧
    compute_avg_line_cost (wall_costmap 20) (tick_actual_pos math_rat default_config rest_input)
        ((predicted_pose math_rat default_config rest_input).apply ⟨3 / 10, 0, 0⟩) = 254 / 255 ∧
    compute_avg_line_cost (wall_costmap 20) (tick_actual_pos math_rat default_config rest_input)
        ((predicted_pose math_rat default_config rest_input).apply ⟨-(3 / 10), 0, 0⟩)
      = 254 / 765 ∧
    ((254 / 255 - 254 / 765) / (2 * (3 / 10)) : ℚ) = 508 / 459 ∧
    (1016 / 459 : ℚ) ≠ 508 / 459 := by
  refine ⟨?_, ?_, ?_, ?_, ?_⟩ <;> decide!

/-- C23 (amended): in every tick, the x and y cost gradients are the difference of
the average line costs from the predicted position to the point at +delta and to the
point at -delta, divided by delta, with delta = 0.3 for x and 0.2 for y (the y points
lie `cost_y_lookahead_dist` ahead); the yaw gradient is the difference of the average
costs of the segment from (0.3, 0) to (-0.3, 0) turned by +0.1 rad and by -0.1 rad,
divided by 2 * 0.1. -/
theorem C23_cost_gradients (M : MathLib R) (cfg : Config R) (costmap_ : Costmap2D R)
    (inp : TickInput R) (p : Planner R) (v : Percept R)
    (hv : perceive M cfg costmap_ inp p = .ok v) :
    v.delta_cost_x =
      (compute_avg_line_cost costmap_ (tick_actual_pos M cfg inp)
          ((predicted_pose M cfg inp).apply ⟨3 / 10, 0, 0⟩) -
        compute_avg_line_cost costmap_ (tick_actual_pos M cfg inp)
          ((predicted_pose M cfg inp).apply ⟨-(3 / 10), 0, 0⟩)) / (3 / 10) ∧
    v.delta_cost_y =
      (compute_avg_line_cost costmap_ (tick_actual_pos M cfg inp)
          ((predicted_pose M cfg inp).apply ⟨tick_cost_y_lookahead_dist cfg inp, 2 / 10, 0⟩) -
        compute_avg_line_cost costmap_ (tick_actual_pos M cfg inp)
          ((predicted_pose M cfg inp).apply
            ⟨tick_cost_y_lookahead_dist cfg inp, -(2 / 10), 0⟩)) / (2 / 10) ∧
    v.delta_cost_yaw =
      (compute_avg_line_cost costmap_
          ((predicted_pose M cfg inp).apply
            ((createQuaternionFromYaw M (1 / 10)).apply ⟨3 / 10, 0, 0⟩))
          ((predicted_pose M cfg inp).apply
            ((createQuaternionFromYaw M (1 / 10)).apply ⟨-(3 / 10), 0, 0⟩)) -
        compute_avg_line_cost costmap_
          ((predicted_pose M cfg inp).apply
            ((createQuaternionFromYaw M (-(1 / 10))).apply ⟨3 / 10, 0, 0⟩))
          ((predicted_pose M cfg inp).apply
            ((createQuaternionFromYaw M (-(1 / 10))).apply ⟨-(3 / 10), 0, 0⟩)))
        / (2 * (1 / 10)) := by
  obtain ⟨_, hx, hy, hyaw, _⟩ := perceive_gradients M cfg costmap_ inp p v hv
  exact ⟨hx, hy, hyaw⟩

/-- C23 witness: the robot at rest at the origin inside the wall, plan straight
ahead. -/
theorem C23_cost_gradients_witness :
    perceive math_rat default_config (wall_costmap 20) rest_input (fresh_planner plan_ahead)
      = .ok (wall_percept 0) ∧
    ((wall_percept 0).delta_cost_x =
      (compute_avg_line_cost (wall_costmap 20) (tick_actual_pos math_rat default_config rest_input)
          ((predicted_pose math_rat default_config rest_input).apply ⟨3 / 10, 0, 0⟩) -
        compute_avg_line_cost (wall_costmap 20)
          (tick_actual_pos math_rat default_config rest_input)
          ((predicted_pose math_rat default_config rest_input).apply ⟨-(3 / 10), 0, 0⟩))
        / (3 / 10) ∧
    (wall_percept 0).delta_cost_y =
      (compute_avg_line_cost (wall_costmap 20) (tick_actual_pos math_rat default_config rest_input)
          ((predicted_pose math_rat default_config rest_input).apply
            ⟨tick_cost_y_lookahead_dist default_config rest_input, 2 / 10, 0⟩) -
        compute_avg_line_cost (wall_costmap 20)
          (tick_actual_pos math_rat default_config rest_input)
          ((predicted_pose math_rat default_config rest_input).apply
            ⟨tick_cost_y_lookahead_dist default_config rest_input, -(2 / 10), 0⟩)) / (2 / 10) ∧
    (wall_percept 0).delta_cost_yaw =
      (compute_avg_line_cost (wall_costmap 20)
          ((predicted_pose math_rat default_config rest_input).apply
            ((createQuaternionFromYaw math_rat (1 / 10)).apply ⟨3 / 10, 0, 0⟩))
          ((predicted_pose math_rat default_config rest_input).apply
            ((createQuaternionFromYaw math_rat (1 / 10)).apply ⟨-(3 / 10), 0, 0⟩)) -
        compute_avg_line_cost (wall_costmap 20)
          ((predicted_pose math_rat default_config rest_input).apply
            ((createQuaternionFromYaw math_rat (-(1 / 10))).apply ⟨3 / 10, 0, 0⟩))
          ((predicted_pose math_rat default_config rest_input).apply
            ((createQuaternionFromYaw math_rat (-(1 / 10))).apply ⟨-(3 / 10), 0, 0⟩)))
        / (2 * (1 / 10))) :=
  ⟨by decide!,
    C23_cost_gradients math_rat default_config (wall_costmap 20) rest_input
      (fresh_planner plan_ahead) (wall_percept 0) (by decide!)⟩

/-! ## C24, C25: the obstacle scan -/

theorem obstacle_scan_loop_fuel (M : MathLib R) (cfg : Config R) (costmap_ : Costmap2D R)
    (start_yawrate delta_time : R) :
    ∀ (fuel : Nat) (s0 s : ScanState R),
      obstacle_scan_loop M cfg costmap_ start_yawrate delta_time fuel s0 = some s →
      ∀ extra : Nat,
        obstacle_scan_loop M cfg costmap_ start_yawrate delta_time (fuel + extra) s0 = some s := by
  intro fuel
  induction fuel with
  | zero => intro s0 s h; simp [obstacle_scan_loop] at h
  | succ n ih =>
    intro s0 s h extra
    rw [show n + 1 + extra = (n + extra) + 1 by omega, obstacle_scan_loop]
    rw [obstacle_scan_loop] at h
    split
    · rename_i hlt
      simp only [hlt, if_true] at h ⊢
      split
      · rename_i hb
        simpa only [hb, if_true] using h
      · rename_i hb
        simp only [hb] at h
        exact ih _ s h extra
    · rename_i hlt
      simpa only [hlt, if_false] using h

theorem obstacle_scan_loop_spec (M : MathLib R) (cfg : Config R) (costmap_ : Costmap2D R)
    (start_yawrate delta_time : R) :
    ∀ (fuel : Nat) (s0 s : ScanState R),
      obstacle_scan_loop M cfg costmap_ start_yawrate delta_time fuel s0 = some s →
      ∃ k : Nat, k + 1 ≤ fuel ∧ s.obstacle_dist = s0.obstacle_dist + (k : R) * (1 / 20) ∧
        ((¬ s.obstacle_dist < 10 ∧ s.local_path.length = s0.local_path.length + k ∧
            (k = 0 → s = s0) ∧
            (0 < k → s.have_obstacle = false ∧ s.obstacle_dist - 1 / 20 < 10)) ∨
          (s.obstacle_dist < 10 ∧ s.local_path.length = s0.local_path.length + k + 1 ∧
            s.have_obstacle =
              decide (compute_max_line_cost costmap_ s.last_pose.origin s.pose.origin
                ≥ cfg.max_cost) ∧
            (costmap_.worldToMap s.pose.origin.x s.pose.origin.y = false ∨
              s.have_obstacle = true) ∧
            s.local_path.getLast? = some s.pose)) := by
  intro fuel
  induction fuel with
  | zero => intro s0 s h; simp [obstacle_scan_loop] at h
  | succ n ih =>
    intro s0 s h
    rw [obstacle_scan_loop] at h
    split at h
    · rename_i hlt
      simp only [] at h
      split at h
      · rename_i hb
        cases h
        refine ⟨0, by omega, by simp, Or.inr ⟨hlt, by simp, rfl, ?_, by simp⟩⟩
        simp only [Bool.or_eq_true, Bool.not_eq_true', decide_eq_true_eq] at hb ⊢
        exact hb
      · rename_i hb
        simp only [Bool.or_eq_true, Bool.not_eq_true', decide_eq_true_eq, not_or] at hb
        obtain ⟨k, hk, hd, hcase⟩ := ih _ s h
        simp only [List.length_append, List.length_singleton] at hcase
        refine ⟨k + 1, by omega, ?_, ?_⟩
        · rw [hd]; push_cast; ring
        · rcases hcase with ⟨h10, hlen, hk0, hkp⟩ | ⟨h10, hlen, hobs, hbr, hlast⟩
          · refine Or.inl ⟨h10, by omega, fun h0 => absurd h0 (Nat.succ_ne_zero k), fun _ => ?_⟩
            rcases Nat.eq_zero_or_pos k with h0 | hpos
            · have hs := hk0 h0
              subst hs
              refine ⟨by simpa using hb.2, ?_⟩
              simp only []
              linarith
            · exact hkp hpos
          · exact Or.inr ⟨h10, by omega, hobs, hbr, hlast⟩
    · rename_i hlt
      cases h
      exact ⟨0, by omega, by simp, Or.inl ⟨hlt, by simp, fun _ => rfl,
        fun h0 => absurd h0 (lt_irrefl 0)⟩⟩

theorem obstacle_scan_spec (M : MathLib R) (cfg : Config R) (costmap_ : Costmap2D R)
    (actual_pose : Transform R) (start_vel_x start_yawrate : R) (s : ScanState R)
    (h : obstacle_scan M cfg costmap_ actual_pose start_vel_x start_yawrate = some s) :
    ∃ k : Nat, k ≤ 200 ∧ s.obstacle_dist = (k : R) * (1 / 20) ∧
      ((k = 200 ∧ s.local_path.length = 200 ∧ s.have_obstacle = false) ∨
        (k < 200 ∧ s.local_path.length = k + 1 ∧
          s.have_obstacle =
            decide (compute_max_line_cost costmap_ s.last_pose.origin s.pose.origin
              ≥ cfg.max_cost) ∧
          (costmap_.worldToMap s.pose.origin.x s.pose.origin.y = false ∨
            s.have_obstacle = true) ∧
          s.local_path.getLast? = some s.pose)) := by
  unfold obstacle_scan at h
  obtain ⟨k, _, hd, hcase⟩ := obstacle_scan_loop_spec M cfg costmap_ _ _ _ _ s h
  simp only [zero_add, List.length_nil] at hd hcase
  have hcast : ∀ n : Nat, ((n : R) * (1 / 20) < 10 ↔ n < 200) := by
    intro n
    constructor
    · intro hn
      have : (n : R) < 200 := by linarith
      exact_mod_cast this
    · intro hn
      have : (n : R) < 200 := by exact_mod_cast hn
      linarith
  rcases hcase with ⟨h10, hlen, hk0, hkp⟩ | ⟨h10, hlen, hobs, hbr, hlast⟩
  · rw [hd] at h10
    have hk200 : ¬ k < 200 := fun hk => h10 ((hcast k).mpr hk)
    have hpos : 0 < k := by omega
    obtain ⟨hobs, hprev⟩ := hkp hpos
    rw [hd] at hprev
    have hk1 : k - 1 < 200 := by
      apply (hcast (k - 1)).mp
      have : ((k - 1 : Nat) : R) = (k : R) - 1 := by
        rw [Nat.cast_sub hpos]; simp
      rw [this]
      linarith
    have hk : k = 200 := by omega
    exact ⟨k, by omega, hd, Or.inl ⟨hk, by omega, hobs⟩⟩
  · rw [hd] at h10
    have hk : k < 200 := (hcast k).mp h10
    exact ⟨k, by omega, hd, Or.inr ⟨hk, hlen, hobs, hbr, hlast⟩⟩

/-- C24 as stated fails: a robot 3 cm before the last grid column, which is lethal,
scans ahead; the second scanned point (x = 5.02) lies outside the 10 m grid, its
clamped cell is the lethal column, so the line cost from the previous point reaches
`max_cost`: the scan ends at that point with `have_obstacle = true`. -/
theorem C24_counterexample :
    (obstacle_scan math_rat default_config border_costmap
        (predicted_pose math_rat default_config border_input) 0 0).map
      (fun s => s.have_obstacle) = some true ∧
    (obstacle_scan math_rat default_config border_costmap
        (predicted_pose math_rat default_config border_input) 0 0).map
      (fun s => border_costmap.worldToMap s.pose.origin.x s.pose.origin.y) = some false ∧
    (obstacle_scan math_rat default_config border_costmap
        (predicted_pose math_rat default_config border_input) 0 0).map
      (fun s => border_costmap.worldToMap s.last_pose.origin.x s.last_pose.origin.y)
      = some true ∧
    (obstacle_scan math_rat default_config border_costmap
        (predicted_pose math_rat default_config border_input) 0 0).map
      (fun s => s.pose.origin) = some ⟨251 / 50, 0, 0⟩ ∧
    (obstacle_scan math_rat default_config border_costmap
        (predicted_pose math_rat default_config border_input) 0 0).map
      (fun s => s.local_path.length) = some 2 ∧
    (obstacle_scan math_rat default_config border_costmap
        (predicted_pose math_rat default_config border_input) 0 0).map
      (fun s => s.obstacle_dist) = some (1 / 20) := by
  refine ⟨?_, ?_, ?_, ?_, ?_, ?_⟩ <;> decide!

/-- C24 (amended): when the obstacle scan ends because the scanned point is not
contained in the grid, `have_obstacle` is true exactly if the maximal cost on the line
from the previous scanned point to the cell the point clamps to reaches `max_cost`;
the point is the last one recorded. -/
theorem C24_out_of_grid_obstacle (M : MathLib R) (cfg : Config R) (costmap_ : Costmap2D R)
    (actual_pose : Transform R) (start_vel_x start_yawrate : R) (s : ScanState R)
    (hs : obstacle_scan M cfg costmap_ actual_pose start_vel_x start_yawrate = some s)
    (hd : s.obstacle_dist < 10)
    (hc : costmap_.worldToMap s.pose.origin.x s.pose.origin.y = false) :
    (s.have_obstacle = true ↔
      compute_max_line_cost costmap_ s.last_pose.origin s.pose.origin ≥ cfg.max_cost) ∧
    s.local_path.getLast? = some s.pose := by
  have _ := hc
  obtain ⟨k, _, hk, hcase⟩ := obstacle_scan_spec M cfg costmap_ _ _ _ s hs
  rcases hcase with ⟨h200, _, _⟩ | ⟨_, _, hobs, _, hlast⟩
  · exfalso
    rw [hk, h200] at hd
    norm_num at hd
  · refine ⟨?_, hlast⟩
    rw [hobs]
    simp

/-- C24 witness: the scan of the robot before the lethal last grid column. -/
theorem C24_out_of_grid_obstacle_witness :
    obstacle_scan math_rat default_config border_costmap
        (predicted_pose math_rat default_config border_input) 0 0
      = some { pose := pose_at (251 / 50) 0, last_pose := pose_at (497 / 100) 0,
               have_obstacle := true, obstacle_dist := 1 / 20, obstacle_cost := 254 / 255,
               local_path := [pose_at (497 / 100) 0, pose_at (251 / 50) 0] } ∧
    ((true = true ↔
      compute_max_line_cost border_costmap (pose_at (497 / 100) 0).origin
        (pose_at (251 / 50) 0).origin ≥ default_config.max_cost) ∧
    [pose_at (497 / 100) 0, pose_at (251 / 50) 0].getLast? = some (pose_at (251 / 50) 0)) :=
  ⟨by decide!,
    C24_out_of_grid_obstacle math_rat default_config border_costmap
      (predicted_pose math_rat default_config border_input) 0 0
      { pose := pose_at (251 / 50) 0, last_pose := pose_at (497 / 100) 0,
        have_obstacle := true, obstacle_dist := 1 / 20, obstacle_cost := 254 / 255,
        local_path := [pose_at (497 / 100) 0, pose_at (251 / 50) 0] }
      (by decide!) (by decide!) (by decide!)⟩



/-! ## C25 -/

theorem perceive_scan (M : MathLib R) (cfg : Config R) (costmap_ : Costmap2D R)
    (inp : TickInput R) (p : Planner R) (v : Percept R)
    (h : perceive M cfg costmap_ inp p = .ok v) :
    ∃ s, obstacle_scan M cfg costmap_ (predicted_pose M cfg inp) inp.speed.linear.x
        inp.speed.angular.z = some s ∧
      v.obstacle_dist = s.obstacle_dist - cfg.min_stop_dist ∧
      v.have_obstacle = s.have_obstacle ∧ v.obstacle_cost = s.obstacle_cost := by
  unfold perceive at h
  simp only [] at h
  split at h
  · cases h
  · split at h
    · cases h
    · rename_i s hs
      split at h
      · cases h
      · split at h
        · cases h
        · cases h
          exact ⟨s, hs, rfl, rfl, rfl⟩

theorem perceive_ne_scan_fuel (M : MathLib R) (cfg : Config R) (costmap_ : Costmap2D R)
    (inp : TickInput R) (p : Planner R) :
    perceive M cfg costmap_ inp p ≠ .error .scan_fuel := by
  intro h
  unfold perceive at h
  simp only [] at h
  split at h
  · cases h
  · split at h
    · rename_i hs
      have := obstacle_scan_isSome M cfg costmap_
        (predicted_pose M cfg inp) inp.speed.linear.x inp.speed.angular.z
      unfold predicted_pose at this
      simp only [] at this
      rw [hs] at this
      cases this
    · split at h
      · rename_i f hf
        cases h
        unfold select_target at hf
        simp only [] at hf
        split at hf
        · split at hf
          · cases hf
          · cases hf
        · split at hf
          · cases hf
          · cases hf
      · split at h
        · cases h
        · cases h

/-- C25: for every pose, twist and grid the obstacle scan returns, whatever the
iteration budget beyond 201; it advances k steps of 0.05 m with k ≤ 200 and records at
most 200 points (one per loop iteration, at most k + 1).  The path published by a tick
has at most 200 points, and the obstacle distance of a tick is
`0.05 * k - min_stop_dist` for some k ≤ 200, between `-min_stop_dist` and
`10 - min_stop_dist`. -/
theorem C25_scan_terminates (M : MathLib R) (cfg : Config R) (costmap_ : Costmap2D R)
    (actual_pose : Transform R) (start_vel_x start_yawrate : R)
    (inp : TickInput R) (p : Planner R) :
    (∃ (s : ScanState R) (k : Nat),
      obstacle_scan M cfg costmap_ actual_pose start_vel_x start_yawrate = some s ∧
      (∀ extra : Nat,
        obstacle_scan_loop M cfg costmap_ start_yawrate
          (if start_vel_x > cfg.trans_stopped_vel then (1 / 20) / start_vel_x else 0)
          (201 + extra)
          { pose := actual_pose, last_pose := actual_pose, have_obstacle := false,
            obstacle_dist := 0, obstacle_cost := 0, local_path := [] } = some s) ∧
      k ≤ 200 ∧ s.obstacle_dist = 1 / 20 * (k : R) ∧
      s.local_path.length ≤ 200 ∧ s.local_path.length ≤ k + 1) ∧
    (∃ path, published_local_path M cfg costmap_ inp = some path ∧ path.length ≤ 200) ∧
    perceive M cfg costmap_ inp p ≠ .error .scan_fuel ∧
    ∀ v, perceive M cfg costmap_ inp p = .ok v →
      ∃ k : Nat, k ≤ 200 ∧ v.obstacle_dist = 1 / 20 * (k : R) - cfg.min_stop_dist ∧
        -cfg.min_stop_dist ≤ v.obstacle_dist ∧ v.obstacle_dist ≤ 10 - cfg.min_stop_dist := by
  have key : ∀ (pose : Transform R) (vx w : R) (s : ScanState R),
      obstacle_scan M cfg costmap_ pose vx w = some s →
      ∃ k : Nat, k ≤ 200 ∧ s.obstacle_dist = 1 / 20 * (k : R) ∧
        s.local_path.length ≤ 200 ∧ s.local_path.length ≤ k + 1 := by
    intro pose vx w s hs
    obtain ⟨k, hk, hd, hcase⟩ := obstacle_scan_spec M cfg costmap_ pose vx w s hs
    refine ⟨k, hk, by rw [hd]; ring, ?_, ?_⟩
    · rcases hcase with ⟨_, hl, _⟩ | ⟨hk2, hl, _⟩ <;> omega
    · rcases hcase with ⟨_, hl, _⟩ | ⟨hk2, hl, _⟩ <;> omega
  refine ⟨?_, ?_, perceive_ne_scan_fuel M cfg costmap_ inp p, ?_⟩
  · have hsome := obstacle_scan_isSome M cfg costmap_ actual_pose start_vel_x start_yawrate
    obtain ⟨s, hs⟩ := Option.isSome_iff_exists.mp hsome
    obtain ⟨k, hk, hd, hl1, hl2⟩ := key _ _ _ s hs
    refine ⟨s, k, hs, ?_, hk, hd, hl1, hl2⟩
    intro extra
    exact obstacle_scan_loop_fuel M cfg costmap_ _ _ 201 _ s hs extra
  · have hsome := obstacle_scan_isSome M cfg costmap_ (predicted_pose M cfg inp)
      inp.speed.linear.x inp.speed.angular.z
    obtain ⟨s, hs⟩ := Option.isSome_iff_exists.mp hsome
    obtain ⟨k, _, _, hl1, _⟩ := key _ _ _ s hs
    exact ⟨s.local_path, by simp [published_local_path, hs], hl1⟩
  · intro v hv
    obtain ⟨s, hs, hd, _, _⟩ := perceive_scan M cfg costmap_ inp p v hv
    obtain ⟨k, hk, hsd, _, _⟩ := key _ _ _ s hs
    have hk200 : (k : R) ≤ 200 := by exact_mod_cast hk
    have hk0 : (0 : R) ≤ (k : R) := Nat.cast_nonneg k
    refine ⟨k, hk, by rw [hd, hsd], ?_, ?_⟩
    · rw [hd, hsd]; linarith
    · rw [hd, hsd]; linarith

/-- C25 witness: the robot at rest at the origin inside the wall; the scan stops at
once, the obstacle distance is `0.05 * 0 - min_stop_dist`. -/
theorem C25_scan_terminates_witness :
    perceive math_rat default_config (wall_costmap 20) rest_input (fresh_planner plan_ahead)
      = .ok (wall_percept 0) ∧
    ∃ k : Nat, k ≤ 200 ∧
      (wall_percept 0).obstacle_dist = 1 / 20 * (k : ℚ) - default_config.min_stop_dist ∧
      -default_config.min_stop_dist ≤ (wall_percept 0).obstacle_dist ∧
      (wall_percept 0).obstacle_dist ≤ 10 - default_config.min_stop_dist :=
  ⟨by decide!,
    (C25_scan_terminates math_rat default_config (wall_costmap 20)
      (predicted_pose math_rat default_config rest_input) 0 0 rest_input
      (fresh_planner plan_ahead)).2.2.2 (wall_percept 0) (by decide!)⟩



/-! ## C26 -/

theorem option_map_min_le (o : Option R) (B m : R) (h : ∀ c, o = some c → c ≤ B) :
    ∀ c, o.map (fun c => min c m) = some c → c ≤ B := by
  intro c hc
  cases o with
  | none => simp at hc
  | some c0 =>
    simp only [Option.map_some', Option.some.injEq] at hc
    rw [← hc]
    exact le_trans (min_le_left _ _) (h c0 rfl)

theorem tracking_vel_x_range (M : MathLib R) (cfg : Config R) (s : state_t) (v : Percept R) :
    0 ≤ (tracking_vel_x M cfg s v).1 ∧ (tracking_vel_x M cfg s v).1 ≤ max v.max_trans_vel 0 := by
  have h0 : ∀ c, limit_curve_vel cfg v.lookahead_dist v.yaw_error
      (if s ≠ state_t.STATE_TRANSLATING ∧ |v.yaw_error| > cfg.start_yaw_error then 0
       else v.max_trans_vel) = some c → c ≤ max v.max_trans_vel 0 := by
    intro c hc
    refine le_trans (limit_curve_vel_le cfg _ _ _ c hc) ?_
    split
    · exact le_max_right _ _
    · exact le_max_left _ _
  have h1 : ∀ c, (if v.start_vel_x > 0 then
        (limit_curve_vel cfg v.lookahead_dist v.yaw_error
          (if s ≠ state_t.STATE_TRANSLATING ∧ |v.yaw_error| > cfg.start_yaw_error then 0
           else v.max_trans_vel)).map (fun c => min c (goal_max_vel_x M cfg v.goal_dist))
      else limit_curve_vel cfg v.lookahead_dist v.yaw_error
          (if s ≠ state_t.STATE_TRANSLATING ∧ |v.yaw_error| > cfg.start_yaw_error then 0
           else v.max_trans_vel)) = some c → c ≤ max v.max_trans_vel 0 := by
    intro c hc
    split at hc
    · exact option_map_min_le _ _ _ h0 c hc
    · exact h0 c hc
  unfold tracking_vel_x
  simp only []
  split
  · rename_i c hc
    refine ⟨le_max_right _ _, max_le ?_ (le_max_right _ _)⟩
    split at hc
    · cases hc
      exact le_max_right _ _
    · split at hc
      · exact option_map_min_le _ _ _ h1 c hc
      · exact h1 c hc
  · exact ⟨le_refl 0, le_max_right _ _⟩

/-- C26: in a tick in tracking mode with differential drive, `max_cost > 0`,
`acc_lim_x > 0` and a non-zero heading error, the raw forward control term lies between
0 and `max(max_trans_vel, 0)`, where `max_trans_vel = max(max_vel_trans * (max_cost -
center_cost) / max_cost, min_vel_trans)` is at least `min_vel_trans`. -/
theorem C26_forward_term_range (M : MathLib R) (cfg : Config R) (costmap_ : Costmap2D R)
    (inp : TickInput R) (p : Planner R) (v : Percept R)
    (hv : perceive M cfg costmap_ inp p = .ok v)
    (hg : v.is_goal_target = false) (hdiff : cfg.differential_drive = true)
    (hmax : 0 < cfg.max_cost) (hacc : 0 < cfg.acc_lim_x) (hyaw : v.yaw_error ≠ 0) :
    raw_control M cfg costmap_ inp p = .ok (velocity_law M cfg p.m_state v) ∧
    0 ≤ (velocity_law M cfg p.m_state v).control_vel_x ∧
    (velocity_law M cfg p.m_state v).control_vel_x ≤ max v.max_trans_vel 0 ∧
    v.max_trans_vel =
      max (cfg.max_vel_trans * (cfg.max_cost - v.center_cost) / cfg.max_cost)
        cfg.min_vel_trans ∧
    cfg.min_vel_trans ≤ v.max_trans_vel := by
  have _ := hmax
  have _ := hacc
  have _ := hyaw
  have hx : (velocity_law M cfg p.m_state v).control_vel_x
      = (tracking_vel_x M cfg p.m_state v).1 := by
    rw [velocity_law_vel_x, if_pos hdiff, limit_backup_tracking cfg _ v _ hg]
    simp only [forward_term, hg, Bool.false_eq_true, if_false]
  obtain ⟨_, _, _, _, hmtv⟩ := perceive_gradients M cfg costmap_ inp p v hv
  obtain ⟨hlo, hhi⟩ := tracking_vel_x_range M cfg p.m_state v
  refine ⟨raw_control_of_perceive M cfg costmap_ inp p v hv, ?_, ?_, hmtv, ?_⟩
  · rw [hx]; exact hlo
  · rw [hx]; exact hhi
  · rw [hmtv]; exact le_max_right _ _

/-- C26 witness: the robot at rest inside the wall with the plan to its left; heading
error `pi / 2`, differential drive. -/
theorem C26_forward_term_range_witness :
    perceive math_rat default_config (wall_costmap 20) rest_input (fresh_planner plan_left)
      = .ok (wall_percept (pi_rat / 2)) ∧
    (wall_percept (pi_rat / 2)).is_goal_target = false ∧
    default_config.differential_drive = true ∧
    0 < default_config.max_cost ∧ 0 < default_config.acc_lim_x ∧
    (wall_percept (pi_rat / 2)).yaw_error ≠ 0 ∧
    raw_control math_rat default_config (wall_costmap 20) rest_input (fresh_planner plan_left)
      = .ok (velocity_law math_rat default_config (fresh_planner plan_left).m_state
          (wall_percept (pi_rat / 2))) ∧
    0 ≤ (velocity_law math_rat default_config (fresh_planner plan_left).m_state
          (wall_percept (pi_rat / 2))).control_vel_x ∧
    (velocity_law math_rat default_config (fresh_planner plan_left).m_state
          (wall_percept (pi_rat / 2))).control_vel_x
      ≤ max (wall_percept (pi_rat / 2)).max_trans_vel 0 ∧
    (wall_percept (pi_rat / 2)).max_trans_vel =
      max (default_config.max_vel_trans *
          (default_config.max_cost - (wall_percept (pi_rat / 2)).center_cost)
          / default_config.max_cost)
        default_config.min_vel_trans ∧
    default_config.min_vel_trans ≤ (wall_percept (pi_rat / 2)).max_trans_vel :=
  ⟨by decide!, by decide!, by decide!, by decide!, by decide!, by decide!,
    C26_forward_term_range math_rat default_config (wall_costmap 20) rest_input
      (fresh_planner plan_left) (wall_percept (pi_rat / 2))
      (by decide!) (by decide!) (by decide!) (by decide!) (by decide!) (by decide!)⟩

/-! ## C27 -/

theorem perceive_m_state (M : MathLib R) (cfg : Config R) (costmap_ : Costmap2D R)
    (inp : TickInput R) (p : Planner R) (s : state_t) :
    perceive M cfg costmap_ inp { p with m_state := s } = perceive M cfg costmap_ inp p := rfl

theorem shape_control_m_state (M : MathLib R) (cfg : Config R) (p : Planner R) (s : state_t)
    (dt : R) (c : Control R) :
    shape_control M cfg { p with m_state := s } dt c = shape_control M cfg p dt c := rfl

theorem limit_backup_idle_like (cfg : Config R) (s : state_t) (v : Percept R) (x : R)
    (hs : s ≠ state_t.STATE_TURNING) :
    limit_backup cfg s v x =
      if v.is_goal_target = true ∧ cfg.max_backup_dist > 0 ∧
          v.pos_error.x < -1 * cfg.max_backup_dist
      then (0, state_t.STATE_TURNING) else (x, s) := by
  unfold limit_backup
  simp only [hs, if_false]

theorem velocity_law_idle_like (M : MathLib R) (cfg : Config R) (s : state_t) (v : Percept R)
    (h1 : s ≠ state_t.STATE_TRANSLATING) (h2 : s ≠ state_t.STATE_TURNING)
    (h3 : s ≠ state_t.STATE_ADJUSTING) :
    velocity_law M cfg s v = velocity_law M cfg state_t.STATE_IDLE v := by
  have hf : forward_term M cfg s v = forward_term M cfg state_t.STATE_IDLE v := by
    simp [forward_term, tracking_vel_x, h1]
  have hd : differential_law M cfg s v = differential_law M cfg state_t.STATE_IDLE v := by
    simp [differential_law, h1, h2, h3]
  have hh : ∀ x, holonomic_law M cfg s v x = holonomic_law M cfg state_t.STATE_IDLE v x := by
    intro x
    simp [holonomic_law, h2]
  have hi : state_t.STATE_IDLE ≠ state_t.STATE_TURNING := by decide
  unfold velocity_law
  simp only [hf, limit_backup_idle_like cfg s v _ h2,
    limit_backup_idle_like cfg state_t.STATE_IDLE v _ hi]
  by_cases hG : v.is_goal_target = true ∧ cfg.max_backup_dist > 0 ∧
      v.pos_error.x < -1 * cfg.max_backup_dist
  · simp only [if_pos hG]
  · simp only [if_neg hG, hd, hh]

/-- C27: a tick started in state ROTATING or in state STUCK gives the same result as
the tick started in state IDLE, for every input, grid, configuration and remaining
planner state: the same fault or the same command, outgoing state, last command and
other planner fields. -/
theorem C27_idle_rotating_stuck (M : MathLib R) (cfg : Config R) (costmap_ : Costmap2D R)
    (inp : TickInput R) (p : Planner R) :
    computeVelocityCommands M cfg costmap_ inp { p with m_state := state_t.STATE_ROTATING }
      = computeVelocityCommands M cfg costmap_ inp { p with m_state := state_t.STATE_IDLE } ∧
    computeVelocityCommands M cfg costmap_ inp { p with m_state := state_t.STATE_STUCK }
      = computeVelocityCommands M cfg costmap_ inp { p with m_state := state_t.STATE_IDLE } := by
  constructor
  · unfold computeVelocityCommands
    simp only [perceive_m_state, shape_control_m_state,
      velocity_law_idle_like M cfg state_t.STATE_ROTATING _ (by decide) (by decide) (by decide)]
  · unfold computeVelocityCommands
    simp only [perceive_m_state, shape_control_m_state,
      velocity_law_idle_like M cfg state_t.STATE_STUCK _ (by decide) (by decide) (by decide)]

end neo_local_planner
